import Mathlib

/-!
# vtf2png: decoding of VTF textures into an RGBA8 raster

A shallow embedding of `src/vtf2png.c` (header view, payload location and the
pixel decoders) followed by theorems about it.

Conventions of the embedding.

* The mapped file is seen through the pointer `data` of `main`; a `Mem` gives the
  byte found at every offset from that pointer, so that the pointer arithmetic of
  the source (`end - framesize*frame_off`, `data[p]`) is kept as it is written,
  also when it leaves the mapped range.
* The `int` values that a header can drive out of the range of `int` are 32-bit:
  the frame size, its product with the frame offset, the read cursor `p` and the
  index sums `p+k`.  `wrap_int` gives the value such an expression takes on a
  two-complement target.  The exact values of the size expressions are defined
  beside them, for comparison.  The frame offset `foff` is the exact difference:
  it is used in that product only, which is the same for a value and for the value
  wrapped into the range of `int`.  Loop counters and raster indices, which the
  16-bit width and height keep small, are `Nat`.  Conversions with a defined result
  (storing an `unsigned int` into an `int`, storing into a `uint8_t`) are explicit.
* The raster `uint8_t** rows` is its initial content together with every store
  made to it, newest first; a cell reads as the newest store made to it.
-/

set_option autoImplicit false

namespace Vtf2png

/-! ## Image format enumerants (`enum`, lines 12-41) -/

abbrev IMAGE_FORMAT_NONE : Int := -1
abbrev IMAGE_FORMAT_RGBA8888 : Int := 0
abbrev IMAGE_FORMAT_ABGR8888 : Int := 1
abbrev IMAGE_FORMAT_RGB888 : Int := 2
abbrev IMAGE_FORMAT_BGR888 : Int := 3
abbrev IMAGE_FORMAT_RGB565 : Int := 4
abbrev IMAGE_FORMAT_I8 : Int := 5
abbrev IMAGE_FORMAT_IA88 : Int := 6
abbrev IMAGE_FORMAT_P8 : Int := 7
abbrev IMAGE_FORMAT_A8 : Int := 8
abbrev IMAGE_FORMAT_RGB888_BLUESCREEN : Int := 9
abbrev IMAGE_FORMAT_BGR888_BLUESCREEN : Int := 10
abbrev IMAGE_FORMAT_ARGB8888 : Int := 11
abbrev IMAGE_FORMAT_BGRA8888 : Int := 12
abbrev IMAGE_FORMAT_DXT1 : Int := 13
abbrev IMAGE_FORMAT_DXT3 : Int := 14
abbrev IMAGE_FORMAT_DXT5 : Int := 15

/-! ## Memory and the packed header (lines 43-72) -/

/-- Bytes of the address space, indexed by their offset from the mapping pointer. -/
abbrev Mem := Int → Nat

/-- One `uint8_t` read. -/
def rd (mem : Mem) (a : Int) : Nat := mem a % 256

/-- An `unsigned short` field at offset `a` (little-endian target). -/
def rd16 (mem : Mem) (a : Int) : Nat := rd mem a + 256 * rd mem (a + 1)

/-- An `unsigned int` field at offset `a` (little-endian target). -/
def rd32 (mem : Mem) (a : Int) : Nat :=
  rd mem a + 256 * rd mem (a + 1) + 65536 * rd mem (a + 2) + 16777216 * rd mem (a + 3)

/-- Conversion of an `unsigned int` value to `int` (two-complement target). -/
def to_int (u : Nat) : Int :=
  if u % 4294967296 < 2147483648 then ((u % 4294967296 : Nat) : Int)
  else ((u % 4294967296 : Nat) : Int) - 4294967296

/-- The fields of `vtf_header_t` (floats and padding are not read by the decoder). -/
structure vtf_header_t where
  signature : List Nat
  version : List Nat
  header_size : Nat
  width : Nat
  height : Nat
  flags : Nat
  frames : Nat
  first_frame : Nat
  image_format : Int
  mipmap_count : Nat
  low_image_format : Nat
  low_width : Nat
  low_height : Nat
  depth : Nat
  numResources : Nat

/-- Size of the packed header, `sizeof(vtf_header_t)` under `#pragma pack(1)`. -/
abbrev sizeof_vtf_header_t : Nat := 80

/-- Size of `vtf_resource_entry_t` under `#pragma pack(1)`. -/
abbrev sizeof_vtf_resource_entry_t : Nat := 8

/-- The view `(vtf_header_t*)data`: every field at its packed offset. -/
def header_view (mem : Mem) : vtf_header_t :=
  { signature := [rd mem 0, rd mem 1, rd mem 2, rd mem 3]
    version := [rd32 mem 4, rd32 mem 8]
    header_size := rd32 mem 12
    width := rd16 mem 16
    height := rd16 mem 18
    flags := rd32 mem 20
    frames := rd16 mem 24
    first_frame := rd16 mem 26
    image_format := to_int (rd32 mem 52)
    mipmap_count := rd mem 56
    low_image_format := rd32 mem 57
    low_width := rd mem 61
    low_height := rd mem 62
    depth := rd16 mem 63
    numResources := rd32 mem 68 }

/-- First tag byte `r[i].tag[0]` of resource entry `i`. -/
def resource_tag0 (mem : Mem) (i : Nat) : Nat :=
  rd mem ((sizeof_vtf_header_t : Int) + sizeof_vtf_resource_entry_t * i)

/-- Field `r[i].offset` of resource entry `i`. -/
def resource_offset (mem : Mem) (i : Nat) : Nat :=
  rd32 mem ((sizeof_vtf_header_t : Int) + sizeof_vtf_resource_entry_t * i + 4)

/-! ## The raster -/

/-- One store `rows[row][idx] = val`. -/
structure Store where
  row : Nat
  idx : Nat
  val : Nat
deriving DecidableEq, Repr

/-- The raster `uint8_t** rows`: initial content and the stores made, newest first. -/
structure Raster where
  init : Nat → Nat → Nat
  stores : List Store

/-- Newest store to cell `(y, i)` in a store list, else the content `d`. -/
def lookup (d : Nat → Nat → Nat) : List Store → Nat → Nat → Nat
  | [], y, i => d y i
  | s :: rest, y, i => if s.row = y ∧ s.idx = i then s.val else lookup d rest y i

/-- The statement `rows[y][i] = v`. -/
def Raster.set (rows : Raster) (y i v : Nat) : Raster :=
  { rows with stores := ⟨y, i, v⟩ :: rows.stores }

/-- The value of `rows[y][i]`. -/
def Raster.get (rows : Raster) (y i : Nat) : Nat :=
  lookup rows.init rows.stores y i

/-- Rows as `main` allocates them (line 235): `ih` rows of `iw*4` bytes, all 255.
Cells outside the allocation are not part of the raster; they read as 0 here. -/
def Raster.alloc (ih iw : Nat) : Raster :=
  { init := fun y i => if y < ih ∧ i < iw * 4 then 255 else 0
    stores := [] }

/-! ## Loops -/

/-- The loop `for (i = i0; i < stop; i += step) s = body i s`, run for at most
`fuel` iterations. -/
def forLoop {σ : Type} (fuel : Nat) (i stop step : Nat) (body : Nat → σ → σ) (s : σ) : σ :=
  match fuel with
  | 0 => s
  | fuel + 1 => if i < stop then forLoop fuel (i + step) stop step body (body i s) else s

/-! ## Colour helper (lines 75-82) -/

/-- Function `rgb565_to_rgb888`: the three bytes written to `out`. -/
def rgb565_to_rgb888 (v : Nat) : List Nat :=
  let r := ((v >>> 11) &&& 0x1F) % 256
  let g := ((v >>> 5) &&& 0x3F) % 256
  let b := ((v >>> 0) &&& 0x1F) % 256
  [((r <<< 3) ||| (r >>> 2)) % 256, ((g <<< 2) ||| (g >>> 4)) % 256, ((b <<< 3) ||| (b >>> 2)) % 256]

/-! ## 32-bit `int` -/

/-- The value an `int` expression takes on a two-complement target when its exact value
is `v`: `v` itself inside `[-2^31, 2^31 - 1]`, wrapped into that range otherwise. -/
def wrap_int (v : Int) : Int := (v + 2147483648) % 4294967296 - 2147483648

/-- The expression `framesize*frame_off` of lines 93, 146, 162, 186, in `int`. -/
def displacement_int (framesize frame_off : Int) : Int := wrap_int (framesize * frame_off)

/-! ## Uncompressed decoder (lines 85-121) -/

/-- The locals `r, g, b, a` and the cursor `p` after the `switch` of `decode_rgba`. -/
structure RgbaPixel where
  r : Nat
  g : Nat
  b : Nat
  a : Nat
  p : Int
deriving DecidableEq, Repr

/-- The `switch (h->image_format)` of `decode_rgba` (lines 97-113), reading at cursor `p`;
`p1, p2, p3, p4` are the values of the `int` cursor after one to four `p++`. -/
def rgba_switch (image_format : Int) (data : Int → Nat) (p : Int) : RgbaPixel :=
  let p1 := wrap_int (p + 1)
  let p2 := wrap_int (p1 + 1)
  let p3 := wrap_int (p2 + 1)
  let p4 := wrap_int (p3 + 1)
  if image_format = IMAGE_FORMAT_RGBA8888 then
    { r := data p, g := data p1, b := data p2, a := data p3, p := p4 }
  else if image_format = IMAGE_FORMAT_ARGB8888 then
    { a := data p, r := data p1, g := data p2, b := data p3, p := p4 }
  else if image_format = IMAGE_FORMAT_ABGR8888 then
    { a := data p, b := data p1, g := data p2, r := data p3, p := p4 }
  else if image_format = IMAGE_FORMAT_BGRA8888 then
    { b := data p, g := data p1, r := data p2, a := data p3, p := p4 }
  else if image_format = IMAGE_FORMAT_RGB888 then
    { r := data p, g := data p1, b := data p2, a := 255, p := p3 }
  else if image_format = IMAGE_FORMAT_BGR888 then
    { b := data p, g := data p1, r := data p2, a := 255, p := p3 }
  else
    { r := 255, g := 255, b := 255, a := 255, p := p }

/-- Body of the inner loop of `decode_rgba` (lines 97-118) on the state `(p, rows)`. -/
def decode_rgba_body (image_format : Int) (data : Int → Nat) (y x : Nat)
    (s : Int × Raster) : Int × Raster :=
  let px := rgba_switch image_format data s.1
  (px.p, (((s.2.set y (4 * x + 0) px.r).set y (4 * x + 1) px.g).set y (4 * x + 2) px.b).set y
    (4 * x + 3) px.a)

/-- The local `pixel_bytes` of `decode_rgba` (lines 86-91). -/
def pixel_bytes (image_format : Int) : Nat :=
  if image_format = IMAGE_FORMAT_RGBA8888 ∨ image_format = IMAGE_FORMAT_ARGB8888 ∨
      image_format = IMAGE_FORMAT_ABGR8888 ∨ image_format = IMAGE_FORMAT_BGRA8888 then 4 else 3

/-- The exact value of the expression `w * ht * pixel_bytes` of line 92. -/
def rgba_framesize (h : vtf_header_t) : Int :=
  (h.width : Int) * h.height * pixel_bytes h.image_format

/-- The local `framesize` of `decode_rgba` (line 92): the expression
`w * ht * pixel_bytes` evaluated left to right in `int`. -/
def rgba_framesize_int (h : vtf_header_t) : Int :=
  wrap_int (wrap_int ((h.width : Int) * h.height) * pixel_bytes h.image_format)

/-- Function `decode_rgba`; `mem` and `endp` stand for the pointer `end`, and `data p`
is the byte `data[p]` of the pointer `data = end - framesize*frame_off` (line 93). -/
def decode_rgba (h : vtf_header_t) (mem : Mem) (endp : Int) (frame_off : Int)
    (rows : Raster) : Raster :=
  let w := h.width
  let ht := h.height
  let framesize := rgba_framesize_int h
  let data : Int → Nat := fun p => rd mem (endp - displacement_int framesize frame_off + p)
  (forLoop ht 0 ht 1
    (fun y s => forLoop w 0 w 1 (fun x s => decode_rgba_body h.image_format data y x s) s)
    ((0 : Int), rows)).2

/-! ## Block codec (lines 124-139) -/

/-- The array `cols[4][3]` of `decode_dxt_colors` (lines 125-130). -/
def dxt_cols (c0 c1 : Nat) : List (List Nat) :=
  let cols0 := rgb565_to_rgb888 c0
  let cols1 := rgb565_to_rgb888 c1
  [cols0, cols1,
   (List.range 3).map (fun i => (2 * cols0.getD i 0 + cols1.getD i 0 + 1) / 3 % 256),
   (List.range 3).map (fun i => (cols0.getD i 0 + 2 * cols1.getD i 0 + 1) / 3 % 256)]

/-- Entry `cols[idx][ch]`. -/
def col_at (cols : List (List Nat)) (idx ch : Nat) : Nat := (cols.getD idx []).getD ch 0

/-- Body of the pixel loop of `decode_dxt_colors` (lines 132-137) on the state `(ci, rows)`. -/
def dxt_colors_body (bx by_ : Nat) (cols : List (List Nat)) (py px : Nat)
    (s : Nat × Raster) : Nat × Raster :=
  let idx := s.1 &&& 3
  (s.1 >>> 2,
   (((s.2.set (by_ + py) (4 * (bx + px) + 0) (col_at cols idx 0)).set (by_ + py)
      (4 * (bx + px) + 1) (col_at cols idx 1)).set (by_ + py) (4 * (bx + px) + 2)
      (col_at cols idx 2)).set (by_ + py) (4 * (bx + px) + 3) 255)

/-- Function `decode_dxt_colors`. -/
def decode_dxt_colors (bx by_ : Nat) (c0 c1 ci : Nat) (rows : Raster) : Raster :=
  let cols := dxt_cols c0 c1
  (forLoop 4 0 4 1
    (fun py s => forLoop 4 0 4 1 (fun px s => dxt_colors_body bx by_ cols py px s) s)
    (ci, rows)).2

/-! ## Block-compressed decoders (lines 142-206) -/

/-- The exact value of the expression `((w+3)/4)*((ht+3)/4)*blockSize` of lines 145,
161, 185. -/
def dxt_framesize (h : vtf_header_t) (blockSize : Nat) : Int :=
  (((h.width + 3) / 4 : Nat) : Int) * (((h.height + 3) / 4 : Nat) : Int) * blockSize

/-- The local `framesize` of the three block decoders (lines 145, 161, 185): the
expression `((w+3)/4)*((ht+3)/4)*blockSize` evaluated left to right in `int`. -/
def dxt_framesize_int (h : vtf_header_t) (blockSize : Nat) : Int :=
  wrap_int (wrap_int ((((h.width + 3) / 4 : Nat) : Int) * (((h.height + 3) / 4 : Nat) : Int)) *
    blockSize)

/-- The expression `data[p] | (data[p+1]<<8)` stored in the `uint16_t c0` (lines 149,
167, 195). -/
def read_c0 (data : Int → Nat) (p : Int) : Nat :=
  (data p ||| (data (wrap_int (p + 1)) <<< 8)) % 65536

/-- The expression `data[p+2] | (data[p+3]<<8)` stored in the `uint16_t c1` (lines 150,
168, 196). -/
def read_c1 (data : Int → Nat) (p : Int) : Nat :=
  (data (wrap_int (p + 2)) ||| (data (wrap_int (p + 3)) <<< 8)) % 65536

/-- The expression `data[p+4] | (data[p+5]<<8) | (data[p+6]<<16) | (data[p+7]<<24)` stored
in the `uint32_t ci` (lines 151, 169, 197). -/
def read_ci (data : Int → Nat) (p : Int) : Nat :=
  (data (wrap_int (p + 4)) ||| (data (wrap_int (p + 5)) <<< 8) |||
    (data (wrap_int (p + 6)) <<< 16) ||| (data (wrap_int (p + 7)) <<< 24)) % 4294967296

/-- The loop `for (i = 0; i < n; i++) acc |= (uint64_t)data[p++] << (8*i)` (lines 166, 194)
on the state `(p, acc)`, from the cursor `p` and `acc = 0`. -/
def read_le (data : Int → Nat) (p : Int) (n : Nat) : Int × Nat :=
  forLoop n 0 n 1
    (fun i s => (wrap_int (s.1 + 1), (s.2 ||| (data s.1 <<< (i * 8))) % 18446744073709551616))
    (p, 0)

/-- Body of the block loop of `decode_dxt1` (lines 149-153) on the state `(p, rows)`. -/
def decode_dxt1_body (data : Int → Nat) (y x : Nat) (s : Int × Raster) : Int × Raster :=
  let p := s.1
  let c0 := read_c0 data p
  let c1 := read_c1 data p
  let ci := read_ci data p
  (wrap_int (p + 8), decode_dxt_colors x y c0 c1 ci s.2)

/-- Function `decode_dxt1`; `data p` is the byte `data[p]` of the pointer
`data = end - framesize*frame_off` (line 146). -/
def decode_dxt1 (h : vtf_header_t) (mem : Mem) (endp : Int) (frame_off : Int)
    (rows : Raster) : Raster :=
  let w := h.width
  let ht := h.height
  let framesize := dxt_framesize_int h 8
  let data : Int → Nat := fun p => rd mem (endp - displacement_int framesize frame_off + p)
  (forLoop ht 0 ht 4
    (fun y s => forLoop w 0 w 4 (fun x s => decode_dxt1_body data y x s) s)
    ((0 : Int), rows)).2

/-- Body of the alpha loop of `decode_dxt3` (lines 175-176) on the state `(alpha, rows)`. -/
def dxt3_alpha_body (x y : Nat) (py px : Nat) (s : Nat × Raster) : Nat × Raster :=
  (s.1 >>> 4, s.2.set (y + py) (4 * (x + px) + 3) (s.1 &&& 0xF))

/-- Body of the block loop of `decode_dxt3` (lines 165-177) on the state `(p, rows)`. -/
def decode_dxt3_body (data : Int → Nat) (y x : Nat) (s : Int × Raster) : Int × Raster :=
  let acc := read_le data s.1 8
  let alpha := acc.2
  let p := acc.1
  let c0 := read_c0 data p
  let c1 := read_c1 data p
  let ci := read_ci data p
  let rows := decode_dxt_colors x y c0 c1 ci s.2
  (wrap_int (p + 8),
   (forLoop 4 0 4 1
      (fun py t => forLoop 4 0 4 1 (fun px t => dxt3_alpha_body x y py px t) t)
      (alpha, rows)).2)

/-- Function `decode_dxt3`; `data p` is the byte `data[p]` of the pointer
`data = end - framesize*frame_off` (line 162). -/
def decode_dxt3 (h : vtf_header_t) (mem : Mem) (endp : Int) (frame_off : Int)
    (rows : Raster) : Raster :=
  let w := h.width
  let ht := h.height
  let framesize := dxt_framesize_int h 16
  let data : Int → Nat := fun p => rd mem (endp - displacement_int framesize frame_off + p)
  (forLoop ht 0 ht 4
    (fun y s => forLoop w 0 w 4 (fun x s => decode_dxt3_body data y x s) s)
    ((0 : Int), rows)).2

/-- The array `avals[8]` of `decode_dxt5` (lines 190-192). -/
def dxt5_avals (a0 a1 : Nat) : List Nat :=
  if a0 > a1 then
    [a0, a1] ++ (List.range 6).map (fun j => ((8 - (j + 2)) * a0 + ((j + 2) - 1) * a1) / 7 % 256)
  else
    [a0, a1] ++ (List.range 4).map (fun j => ((6 - (j + 2)) * a0 + ((j + 2) - 1) * a1) / 5 % 256)
      ++ [0, 255]

/-- Body of the alpha loop of `decode_dxt5` (line 201) on the state `(ai, rows)`. -/
def dxt5_alpha_body (avals : List Nat) (x y : Nat) (py px : Nat)
    (s : Nat × Raster) : Nat × Raster :=
  (s.1 >>> 3, s.2.set (y + py) (4 * (x + px) + 3) (avals.getD (s.1 &&& 0x7) 0))

/-- Body of the block loop of `decode_dxt5` (lines 189-204) on the state `(p, rows)`;
`p1` and `p2` are the cursor after the first and the second `p++` of line 189. -/
def decode_dxt5_body (data : Int → Nat) (y x : Nat) (s : Int × Raster) : Int × Raster :=
  let a0 := data s.1
  let p1 := wrap_int (s.1 + 1)
  let a1 := data p1
  let p2 := wrap_int (p1 + 1)
  let avals := dxt5_avals a0 a1
  let acc := read_le data p2 6
  let ai := acc.2
  let p := acc.1
  let c0 := read_c0 data p
  let c1 := read_c1 data p
  let ci := read_ci data p
  let rows :=
    (forLoop 4 0 4 1
      (fun py t => forLoop 4 0 4 1 (fun px t => dxt5_alpha_body avals x y py px t) t)
      (ai, s.2)).2
  (wrap_int (p + 8), decode_dxt_colors x y c0 c1 ci rows)

/-- Function `decode_dxt5`; `data p` is the byte `data[p]` of the pointer
`data = end - framesize*frame_off` (line 186). -/
def decode_dxt5 (h : vtf_header_t) (mem : Mem) (endp : Int) (frame_off : Int)
    (rows : Raster) : Raster :=
  let w := h.width
  let ht := h.height
  let framesize := dxt_framesize_int h 16
  let data : Int → Nat := fun p => rd mem (endp - displacement_int framesize frame_off + p)
  (forLoop ht 0 ht 4
    (fun y s => forLoop w 0 w 4 (fun x s => decode_dxt5_body data y x s) s)
    ((0 : Int), rows)).2

/-! ## The decode part of `main` (lines 229-236) -/

/-- The resource scan of line 231 from index `i` on, with the locals `found` and
`img_end`; `n` is `h->numResources`. The `break` returns at once. -/
def scan_resources (mem : Mem) (n : Nat) (fuel i : Nat) (found : Bool) (img_end : Int) : Int :=
  match fuel with
  | 0 => img_end
  | fuel + 1 =>
    if i < n then
      if !found && resource_tag0 mem i == 0x30 then scan_resources mem n fuel (i + 1) true img_end
      else if found && resource_tag0 mem i != 0x43 then to_int (resource_offset mem i)
      else scan_resources mem n fuel (i + 1) found img_end
    else img_end

/-- The local `img_end` of `main` after lines 230-232; `sz` is the mapped length. -/
def img_end (h : vtf_header_t) (mem : Mem) (sz : Int) : Int :=
  if h.version.getD 1 0 > 2 then scan_resources mem h.numResources h.numResources 0 false sz
  else sz

/-- The local `foff` of `main` (line 233); `frame` is `opt.frame`. The decoders use it
in the product `framesize*frame_off` only, which is the same for a value and for that
value wrapped into the range of `int`. -/
def foff (h : vtf_header_t) (frame : Int) : Int := 1 + (h.frames : Int) - frame

/-- The decoders `main` can call. -/
inductive Decoder where
  | rgba
  | dxt1
  | dxt3
  | dxt5
deriving DecidableEq, Repr

/-- The `switch (h->image_format)` of line 236: the decoder called, or none for `default`. -/
def dispatch (image_format : Int) : Option Decoder :=
  if image_format = IMAGE_FORMAT_RGBA8888 ∨ image_format = IMAGE_FORMAT_ARGB8888 ∨
      image_format = IMAGE_FORMAT_ABGR8888 ∨ image_format = IMAGE_FORMAT_BGRA8888 ∨
      image_format = IMAGE_FORMAT_RGB888 ∨ image_format = IMAGE_FORMAT_BGR888 then some .rgba
  else if image_format = IMAGE_FORMAT_DXT1 then some .dxt1
  else if image_format = IMAGE_FORMAT_DXT3 then some .dxt3
  else if image_format = IMAGE_FORMAT_DXT5 then some .dxt5
  else none

/-- The call made for a decoder. -/
def Decoder.run : Decoder → vtf_header_t → Mem → Int → Int → Raster → Raster
  | .rgba => decode_rgba
  | .dxt1 => decode_dxt1
  | .dxt3 => decode_dxt3
  | .dxt5 => decode_dxt5

/-- What `main` has done when it leaves line 236. -/
inductive Outcome where
  /-- The `default` case: message on stderr and `return 1`; nothing was decoded. -/
  | failed (status : Int)
  /-- A decoder was called and filled `rows`, which go on to the output stage. -/
  | decoded (dec : Decoder) (rows : Raster)

/-- Lines 229-236 of `main`: `mem` is the mapping, `sz` its length, `frame` is `opt.frame`. -/
def main (mem : Mem) (sz : Int) (frame : Int) : Outcome :=
  let h := header_view mem
  let img_end := img_end h mem sz
  let foff := foff h frame
  let iw := h.width
  let ih := h.height
  let rows := Raster.alloc ih iw
  match dispatch h.image_format with
  | some dec => .decoded dec (dec.run h mem img_end foff rows)
  | none => .failed 1

/-! ## Observations on the outcome of `main` -/

/-- The decoder that was called, if any. -/
def Outcome.decoder : Outcome → Option Decoder
  | .failed _ => none
  | .decoded dec _ => some dec

/-- The byte `rows[y][i]` handed to the output stage, if a decoder was called. -/
def Outcome.pixel : Outcome → Nat → Nat → Option Nat
  | .failed _, _, _ => none
  | .decoded _ rows, y, i => some (rows.get y i)

/-- The local `framesize` of each decoder (lines 92, 145, 161, 185), an `int`. -/
def Decoder.framesize : Decoder → vtf_header_t → Int
  | .rgba, h => rgba_framesize_int h
  | .dxt1, h => dxt_framesize_int h 8
  | .dxt3, h => dxt_framesize_int h 16
  | .dxt5, h => dxt_framesize_int h 16

/-- The exact value of the frame size expression of each decoder. -/
def Decoder.exact_framesize : Decoder → vtf_header_t → Int
  | .rgba, h => rgba_framesize h
  | .dxt1, h => dxt_framesize h 8
  | .dxt3, h => dxt_framesize h 16
  | .dxt5, h => dxt_framesize h 16

/-- The offset from the mapping pointer of the pointer `data` of a decoder called by
`main`: `img_end - framesize*foff`, the product being an `int`. -/
def Decoder.start (dec : Decoder) (mem : Mem) (sz frame : Int) : Int :=
  img_end (header_view mem) mem sz -
    displacement_int (dec.framesize (header_view mem)) (foff (header_view mem) frame)

/-! ## Vocabulary of the statements -/

/-- Channel `j` of a decoded pixel in raster order: 0 is R, 1 is G, 2 is B, 3 is A. -/
def RgbaPixel.chan (px : RgbaPixel) (j : Nat) : Nat :=
  match j with
  | 0 => px.r
  | 1 => px.g
  | 2 => px.b
  | _ => px.a

/-- The six formats handled by `decode_rgba`. -/
def uncompressed (fmt : Int) : Prop :=
  fmt = IMAGE_FORMAT_RGBA8888 ∨ fmt = IMAGE_FORMAT_ARGB8888 ∨ fmt = IMAGE_FORMAT_ABGR8888 ∨
    fmt = IMAGE_FORMAT_BGRA8888 ∨ fmt = IMAGE_FORMAT_RGB888 ∨ fmt = IMAGE_FORMAT_BGR888

/-- The little-endian word made of the `n` bytes at `p`: the sum of `data (p+i) * 256^i`. -/
def le_word (data : Nat → Nat) (p n : Nat) : Nat :=
  (List.range n).foldl (fun acc i => acc + data (p + i) * 256 ^ i) 0

/-- Whether a store falls outside a raster of `w` by `ht` pixels. -/
def Store.outside (w ht : Nat) (s : Store) : Bool :=
  !(decide (s.row < ht) && decide (s.idx / 4 < w))

/-! ## Concrete inputs -/

/-- A header with the given size and format, one frame, version 7.2. -/
def ex_header (w ht : Nat) (fmt : Int) : vtf_header_t :=
  { signature := [86, 84, 70, 0], version := [7, 2], header_size := 80, width := w, height := ht,
    flags := 0, frames := 1, first_frame := 0, image_format := fmt, mipmap_count := 1,
    low_image_format := 0, low_width := 0, low_height := 0, depth := 1, numResources := 0 }

/-- Memory holding `bytes` from offset 0 on, and 0 everywhere else. -/
def mem_of (bytes : List Nat) : Mem := fun a => if a < 0 then 0 else bytes.getD a.toNat 0

/-- Sixteen payload bytes: a 2x2 image of four-byte pixels. -/
def ex_rgba_payload : List Nat :=
  [10, 11, 12, 13, 20, 21, 22, 23, 30, 31, 32, 33, 40, 41, 42, 43]

/-- One DXT3 record: alpha nibbles 1, 2, ..., 15, 0, then endpoints and colour indices. -/
def ex_dxt3_block : List Nat :=
  [0x21, 0x43, 0x65, 0x87, 0xA9, 0xCB, 0xED, 0x0F, 0x00, 0xF8, 0x1F, 0x00, 0xE4, 0xE4, 0xE4, 0xE4]

/-- The `n` little-endian bytes of `v`. -/
def le_bytes (n v : Nat) : List Nat := (List.range n).map (fun i => v / 256 ^ i % 256)

/-- The 80 bytes of a packed header with the given signature, minor version, size,
frame count, format and resource count. -/
def header_bytes (sig : List Nat) (minor w ht frames fmt nres : Nat) : List Nat :=
  sig ++ le_bytes 4 7 ++ le_bytes 4 minor ++ le_bytes 4 80 ++ le_bytes 2 w ++ le_bytes 2 ht ++
    le_bytes 4 0 ++ le_bytes 2 frames ++ le_bytes 2 0 ++ List.replicate 24 0 ++ le_bytes 4 fmt ++
    [1] ++ le_bytes 4 0 ++ [0, 0] ++ le_bytes 2 1 ++ List.replicate 3 0 ++ le_bytes 4 nres ++
    List.replicate 8 0

/-- A file of three 1x1 RGBA8888 frames (92 bytes). -/
def ex_three_frames : List Nat :=
  header_bytes [86, 84, 70, 0] 2 1 1 3 0 0 ++ [1, 2, 3, 4, 5, 6, 7, 8, 9, 10, 11, 12]

/-- A 1x1 RGBA8888 file (84 bytes) with the given first four bytes. -/
def ex_signed (sig : List Nat) : List Nat :=
  header_bytes sig 2 1 1 1 0 0 ++ [10, 20, 30, 40]

/-- A version 7.3 file (96 bytes) with two resource entries: the image data entry
(tag 0x30) and an entry with tag 0x01 and offset `off`. -/
def ex_resources (off : Nat) : List Nat :=
  header_bytes [86, 84, 70, 0] 3 1 1 1 0 2 ++ ([0x30, 0, 0, 0] ++ le_bytes 4 96) ++
    ([0x01, 0, 0, 0] ++ le_bytes 4 off)

/-- One DXT5 record: alpha endpoints 16 and 32, alpha indices 0, 1, ..., 7 twice, then
endpoints and colour indices. -/
def ex_dxt5_block : List Nat :=
  [16, 32, 0x88, 0xC6, 0xFA, 0x88, 0xC6, 0xFA, 0x00, 0xF8, 0x1F, 0x00, 0xE4, 0xE4, 0xE4, 0xE4]


/-- Memory holding the byte `v` at the offsets listed in `at_` and 0 everywhere else. -/
def ex_marked (at_ : List Int) (v : Nat) : Mem := fun a => if a ∈ at_ then v else 0

/-- A file cut right after the header of an 8x8 RGBA8888 image (80 bytes). -/
def ex_header_only : List Nat := header_bytes [86, 84, 70, 0] 2 8 8 1 0 0

/-! ## Expressions of the block codec used on their own -/

/-- The value stored into `cols[2][i]` (line 129) from the channel values `a` of
`cols[0][i]` and `b` of `cols[1][i]`. -/
def dxt_interp2 (a b : Nat) : Nat := (2 * a + b + 1) / 3 % 256

/-- The value stored into `cols[3][i]` (line 130). -/
def dxt_interp3 (a b : Nat) : Nat := (a + 2 * b + 1) / 3 % 256

/-! ## Counting stores -/

/-- Number of stores made to the four bytes of pixel `(x, y)`. -/
def Raster.pixel_stores (rows : Raster) (x y : Nat) : Nat :=
  rows.stores.countP (fun s => decide (s.row = y ∧ s.idx / 4 = x))

/-! ## Further concrete inputs -/

/-- One DXT1 record: endpoints red (`0xF800`) and blue (`0x001F`), index word
`0x1B1BE4E4`. -/
def ex_dxt1_block : List Nat := [0x00, 0xF8, 0x1F, 0x00, 0xE4, 0xE4, 0x1B, 0x1B]

/-! # Theorems

## The raster and the loops -/

/-- A cell reads as the value just stored to it, and any other cell is untouched. -/
theorem get_set (rows : Raster) (y i v r j : Nat) :
    (rows.set y i v).get r j = if y = r ∧ i = j then v else rows.get r j := by
  simp [Raster.set, Raster.get, lookup]

/-- With enough fuel a loop runs its body once for each index `i, i+step, ...` below
`stop`, in that order. -/
theorem forLoop_eq_foldl {σ : Type} (step : Nat) (hstep : 0 < step) (stop : Nat)
    (body : Nat → σ → σ) :
    ∀ (fuel i : Nat) (s : σ), (stop - i + step - 1) / step ≤ fuel →
      forLoop fuel i stop step body s =
        (List.range ((stop - i + step - 1) / step)).foldl (fun s k => body (i + step * k) s) s := by
  intro fuel
  induction fuel with
  | zero =>
    intro i s hf
    have h0 : (stop - i + step - 1) / step = 0 := Nat.le_zero.mp hf
    simp [forLoop, h0]
  | succ fuel ih =>
    intro i s hf
    unfold forLoop
    by_cases hi : i < stop
    · have hcount : (stop - i + step - 1) / step = (stop - (i + step) + step - 1) / step + 1 := by
        by_cases hd : step ≤ stop - i
        · have e : stop - i + step - 1 = (stop - (i + step) + step - 1) + step := by omega
          rw [e, Nat.add_div_right _ hstep]
        · have e1 : stop - (i + step) + step - 1 = step - 1 := by omega
          have e2 : (step - 1) / step = 0 := Nat.div_eq_of_lt (by omega)
          have e3 : (stop - i + step - 1) / step = 1 := by
            apply Nat.div_eq_of_lt_le <;> omega
          rw [e1, e2, e3]
      rw [if_pos hi, ih (i + step) (body i s) (by omega), hcount, List.range_succ_eq_map,
        List.foldl_cons, List.foldl_map]
      simp only [Nat.mul_zero, Nat.add_zero]
      congr 1
      funext t k
      congr 1
      rw [Nat.mul_succ]; omega
    · have h0 : (stop - i + step - 1) / step = 0 := by
        apply Nat.div_eq_of_lt; omega
      simp [hi, h0]

/-- A loop from 0 given `stop` as fuel runs to its end: it makes
`ceil(stop/step)` iterations. -/
theorem forLoop_zero_eq_foldl {σ : Type} (step : Nat) (hstep : 0 < step) (stop : Nat)
    (body : Nat → σ → σ) (s : σ) :
    forLoop stop 0 stop step body s =
      (List.range ((stop + step - 1) / step)).foldl (fun s k => body (step * k) s) s := by
  have hle : (stop + step - 1) / step ≤ stop := by
    rcases Nat.eq_zero_or_pos stop with h0 | h0
    · subst h0
      rw [Nat.div_eq_of_lt (by omega)]
    · calc (stop + step - 1) / step ≤ (stop * step) / step := by
            apply Nat.div_le_div_right
            have : stop + step ≤ stop * step + 1 := by
              have := Nat.mul_le_mul h0 hstep
              nlinarith
            omega
        _ = stop := Nat.mul_div_cancel _ hstep
  have h := forLoop_eq_foldl step hstep stop body stop 0 s (by simpa using hle)
  simpa using h

/-- Invariant of a loop whose iteration `k` advances a cursor by `next` and stores only
to the cells `idx = k` of a region, values that depend on the cursor alone: afterwards
the cells of the first `n` iterations hold those values and every other cell is
untouched. -/
theorem foldl_scan {α : Type} (step : Nat → α × Raster → α × Raster) (next : α → α)
    (reg : Nat → Nat → Prop) (idx : Nat → Nat → Nat) (val : Nat → α → Nat → Nat → Nat)
    (hnext : ∀ k s, (step k s).1 = next s.1)
    (hin : ∀ k s r i, reg r i → idx r i = k → (step k s).2.get r i = val k s.1 r i)
    (hout : ∀ k s r i, ¬ (reg r i ∧ idx r i = k) → (step k s).2.get r i = s.2.get r i)
    (n : Nat) (s0 : α × Raster) :
    ((List.range n).foldl (fun s k => step k s) s0).1 = next^[n] s0.1 ∧
    (∀ r i, reg r i → idx r i < n →
      ((List.range n).foldl (fun s k => step k s) s0).2.get r i =
        val (idx r i) (next^[idx r i] s0.1) r i) ∧
    (∀ r i, ¬ (reg r i ∧ idx r i < n) →
      ((List.range n).foldl (fun s k => step k s) s0).2.get r i = s0.2.get r i) := by
  induction n with
  | zero => simp
  | succ n ih =>
    obtain ⟨ih1, ih2, ih3⟩ := ih
    rw [List.range_succ, List.foldl_append]
    simp only [List.foldl_cons, List.foldl_nil]
    refine ⟨?_, ?_, ?_⟩
    · rw [hnext, ih1, Function.iterate_succ_apply']
    · intro r i hr hi
      by_cases hk : idx r i = n
      · rw [hin n _ r i hr hk, ih1, hk]
      · rw [hout n _ r i (fun h => hk h.2)]
        exact ih2 r i hr (by omega)
    · intro r i hri
      rw [hout n _ r i (fun h => hri ⟨h.1, by omega⟩)]
      exact ih3 r i (fun h => hri ⟨h.1, by omega⟩)

/-- Word after `n` shifts by `b` bits. -/
theorem iterate_shr (b n c : Nat) : (fun q => q >>> b)^[n] c = c >>> (b * n) := by
  induction n with
  | zero => simp
  | succ n ih => rw [Function.iterate_succ_apply', ih, Nat.mul_succ, Nat.shiftRight_add]

/-- The 4x4 pixel loops of the block codec. -/
theorem block_scan (b x y : Nat) (chs : Nat → Prop) (v : Nat → Nat → Nat)
    (body : Nat → Nat → Nat × Raster → Nat × Raster)
    (h1 : ∀ py px s, (body py px s).1 = s.1 >>> b)
    (hin : ∀ py px s ch, ch < 4 → chs ch →
      (body py px s).2.get (y + py) (4 * (x + px) + ch) = v s.1 ch)
    (hout : ∀ py px s r i, ¬ (r = y + py ∧ i / 4 = x + px ∧ chs (i % 4)) →
      (body py px s).2.get r i = s.2.get r i)
    (s0 : Nat × Raster) :
    (∀ py px ch, py < 4 → px < 4 → ch < 4 → chs ch →
      (forLoop 4 0 4 1 (fun py s => forLoop 4 0 4 1 (fun px s => body py px s) s) s0).2.get
        (y + py) (4 * (x + px) + ch) = v (s0.1 >>> (b * (4 * py + px))) ch) ∧
    (∀ r i, ¬ (y ≤ r ∧ r < y + 4 ∧ x ≤ i / 4 ∧ i / 4 < x + 4 ∧ chs (i % 4)) →
      (forLoop 4 0 4 1 (fun py s => forLoop 4 0 4 1 (fun px s => body py px s) s) s0).2.get r i =
        s0.2.get r i) := by
  have inner : ∀ py (s : Nat × Raster),
      (forLoop 4 0 4 1 (fun px s => body py px s) s).1 = (fun q => q >>> b)^[4] s.1 ∧
      (∀ r i, (r = y + py ∧ x ≤ i / 4 ∧ chs (i % 4)) → i / 4 - x < 4 →
        (forLoop 4 0 4 1 (fun px s => body py px s) s).2.get r i =
          v ((fun q => q >>> b)^[i / 4 - x] s.1) (i % 4)) ∧
      (∀ r i, ¬ ((r = y + py ∧ x ≤ i / 4 ∧ chs (i % 4)) ∧ i / 4 - x < 4) →
        (forLoop 4 0 4 1 (fun px s => body py px s) s).2.get r i = s.2.get r i) := by
    intro py s
    rw [forLoop_zero_eq_foldl 1 (by decide)]
    simp only [Nat.add_sub_cancel, Nat.div_one, Nat.one_mul]
    apply foldl_scan (fun px s => body py px s) (fun q => q >>> b)
      (fun r i => r = y + py ∧ x ≤ i / 4 ∧ chs (i % 4)) (fun _ i => i / 4 - x)
      (fun _ word _ i => v word (i % 4))
    · intro k s; exact h1 py k s
    · intro k s r i hr hi
      obtain ⟨hr1, hr2, hr3⟩ := hr
      have h4 : i % 4 < 4 := Nat.mod_lt _ (by decide)
      have e : i = 4 * (x + k) + i % 4 := by omega
      have := hin py k s (i % 4) h4 hr3
      rw [← e, ← hr1] at this
      exact this
    · intro k s r i h
      apply hout
      intro h'
      apply h
      refine ⟨⟨h'.1, by omega, h'.2.2⟩, by omega⟩
  rw [forLoop_zero_eq_foldl 1 (by decide)]
  simp only [Nat.add_sub_cancel, Nat.div_one, Nat.one_mul]
  have outer := foldl_scan (fun py s => forLoop 4 0 4 1 (fun px s => body py px s) s)
    (fun q => (fun q => q >>> b)^[4] q)
    (fun r i => y ≤ r ∧ x ≤ i / 4 ∧ i / 4 < x + 4 ∧ chs (i % 4)) (fun r _ => r - y)
    (fun _ word _ i => v ((fun q => q >>> b)^[i / 4 - x] word) (i % 4))
    (fun k s => (inner k s).1)
    (fun k s r i hr hi => by
      have hi' : r - y = k := hi
      exact (inner k s).2.1 r i ⟨by omega, hr.2.1, hr.2.2.2⟩ (by omega))
    (fun k s r i h => (inner k s).2.2 r i (fun h' => h ⟨⟨by omega, h'.1.2.1, by omega, h'.1.2.2⟩,
      by show r - y = k; omega⟩)) 4 s0
  refine ⟨?_, ?_⟩
  · intro py px ch hpy hpx hch hc
    have e1 : (4 * (x + px) + ch) / 4 = x + px := by omega
    have e2 : (4 * (x + px) + ch) % 4 = ch := by omega
    have := outer.2.1 (y + py) (4 * (x + px) + ch) ⟨by omega, by omega, by omega, by rw [e2]; exact hc⟩
      (by omega)
    rw [this, e1, e2]
    simp only [iterate_shr]
    have e3 : y + py - y = py := by omega
    have e4 : x + px - x = px := by omega
    rw [← Nat.shiftRight_add]
    congr 2
    rw [e3, e4]
    ring
  · intro r i h
    apply outer.2.2
    intro h'
    apply h
    refine ⟨h'.1.1, by omega, h'.1.2.1, h'.1.2.2.1, h'.1.2.2.2⟩

/-! ## The range of `int` -/

/-- Inside the range of `int` nothing wraps. -/
theorem wrap_int_of_range (v : Int) (h1 : -2147483648 ≤ v) (h2 : v ≤ 2147483647) :
    wrap_int v = v := by
  unfold wrap_int
  omega

/-- An `int` value is in the range of `int`. -/
theorem wrap_int_range (a : Int) : -2147483648 ≤ wrap_int a ∧ wrap_int a ≤ 2147483647 := by
  unfold wrap_int
  omega

/-- Wrapping twice is wrapping once. -/
theorem wrap_int_idem (a : Int) : wrap_int (wrap_int a) = wrap_int a := by
  unfold wrap_int
  omega

/-- A sum of `int` values wraps as the exact sum does: `p++` done `k` times, or the
index `p+k`, is `wrap_int (p + k)`. -/
theorem wrap_int_add_wrap (a b : Int) : wrap_int (wrap_int a + b) = wrap_int (a + b) := by
  unfold wrap_int
  omega

/-- The product `framesize*frame_off` is the same for a frame offset and for that offset
wrapped into the range of `int`. -/
theorem displacement_int_wrap (fs fo : Int) :
    displacement_int fs (wrap_int fo) = displacement_int fs fo := by
  unfold displacement_int wrap_int
  have h : (fs * ((fo + 2147483648) % 4294967296 - 2147483648) + 2147483648) % 4294967296 =
      (fs * fo + 2147483648) % 4294967296 := by
    have e : fs * ((fo + 2147483648) % 4294967296 - 2147483648) + 2147483648 =
        fs * fo + 2147483648 + 4294967296 * (-(fs * ((fo + 2147483648) / 4294967296))) := by
      have := Int.emod_add_ediv (fo + 2147483648) 4294967296
      linear_combination fs * this
    rw [e, Int.add_mul_emod_self_left]
  rw [h]

/-- Cursor after `n` advances by `S`, from a value of the range of `int`. -/
theorem iterate_wrap (S : Int) (n : Nat) (a : Int) :
    (fun q => wrap_int (q + S))^[n] (wrap_int a) = wrap_int (a + n * S) := by
  induction n with
  | zero => simp
  | succ n ih =>
    rw [Function.iterate_succ_apply', ih, wrap_int_add_wrap]
    congr 1
    push_cast
    ring

/-- Cursor after `n` advances by `S`, from 0. -/
theorem iterate_wrap_zero (S : Int) (n : Nat) :
    (fun q => wrap_int (q + S))^[n] 0 = wrap_int (n * S) := by
  have h := iterate_wrap S n 0
  have e0 : wrap_int 0 = 0 := by decide
  rw [e0, Int.zero_add] at h
  exact h

/-- Iterating an iterate. -/
theorem iterate_iterate {α : Type} (f : α → α) (m n : Nat) (a : α) :
    (fun q => f^[m] q)^[n] a = f^[n * m] a := by
  induction n with
  | zero => simp
  | succ n ih =>
    rw [Function.iterate_succ_apply', ih, Nat.succ_mul, Nat.add_comm, Function.iterate_add_apply]
/-! ## The uncompressed decoder -/

/-- The `switch` advances the cursor by `pixel_bytes` for the six formats. -/
theorem rgba_switch_p (fmt : Int) (hf : uncompressed fmt) (data : Int → Nat) (p : Int) :
    (rgba_switch fmt data p).p = wrap_int (p + pixel_bytes fmt) := by
  rcases hf with h | h | h | h | h | h <;> subst h <;>
    simp [rgba_switch, pixel_bytes, wrap_int_add_wrap, add_assoc]

/-- The body of `decode_rgba` stores the four channels of pixel `x` of row `y`. -/
theorem rgba_body_in (fmt : Int) (data : Int → Nat) (y x : Nat) (s : Int × Raster) (i : Nat)
    (hi : i / 4 = x) :
    (decode_rgba_body fmt data y x s).2.get y i = (rgba_switch fmt data s.1).chan (i % 4) := by
  have h4 : i % 4 < 4 := Nat.mod_lt _ (by decide)
  have hi' : i = 4 * x + i % 4 := by omega
  generalize i % 4 = j at h4 hi'
  subst hi'
  simp only [decode_rgba_body, get_set]
  interval_cases j <;> simp [RgbaPixel.chan]

/-- The body of `decode_rgba` stores nowhere else. -/
theorem rgba_body_out (fmt : Int) (data : Int → Nat) (y x : Nat) (s : Int × Raster) (r i : Nat)
    (h : ¬ (r = y ∧ i / 4 = x)) :
    (decode_rgba_body fmt data y x s).2.get r i = s.2.get r i := by
  simp only [decode_rgba_body, get_set]
  have h0 : ¬ (y = r ∧ 4 * x + 0 = i) := by omega
  have h1 : ¬ (y = r ∧ 4 * x + 1 = i) := by omega
  have h2 : ¬ (y = r ∧ 4 * x + 2 = i) := by omega
  have h3 : ¬ (y = r ∧ 4 * x + 3 = i) := by omega
  rw [if_neg h3, if_neg h2, if_neg h1, if_neg h0]

/-- One row of `decode_rgba`. -/
theorem rgba_row (fmt : Int) (hf : uncompressed fmt) (data : Int → Nat) (y w : Nat)
    (s0 : Int × Raster) :
    (forLoop w 0 w 1 (fun x s => decode_rgba_body fmt data y x s) s0).1 =
        (fun q => wrap_int (q + pixel_bytes fmt))^[w] s0.1 ∧
    (∀ r i, r = y → i / 4 < w →
      (forLoop w 0 w 1 (fun x s => decode_rgba_body fmt data y x s) s0).2.get r i =
        (rgba_switch fmt data
          ((fun q => wrap_int (q + pixel_bytes fmt))^[i / 4] s0.1)).chan (i % 4)) ∧
    (∀ r i, ¬ (r = y ∧ i / 4 < w) →
      (forLoop w 0 w 1 (fun x s => decode_rgba_body fmt data y x s) s0).2.get r i =
        s0.2.get r i) := by
  rw [forLoop_zero_eq_foldl 1 (by decide)]
  simp only [Nat.add_sub_cancel, Nat.div_one, Nat.one_mul]
  exact foldl_scan (fun x s => decode_rgba_body fmt data y x s)
    (fun q => wrap_int (q + pixel_bytes fmt)) (fun r _ => r = y) (fun _ i => i / 4)
    (fun _ p _ i => (rgba_switch fmt data p).chan (i % 4))
    (fun k s => rgba_switch_p fmt hf data s.1)
    (fun k s r i hr hi => by subst hr; exact rgba_body_in fmt data r k s i hi)
    (fun k s r i h => rgba_body_out fmt data y k s r i h) w s0

/-- Both loops of `decode_rgba`: the bytes of pixel `i / 4` of row `y` come from the
`switch` run at the cursor reached after `y * w + i / 4` pixels. -/
theorem rgba_image (fmt : Int) (hf : uncompressed fmt) (data : Int → Nat) (w ht : Nat)
    (rows : Raster) (y i : Nat) (hy : y < ht) (hi : i / 4 < w) :
    (forLoop ht 0 ht 1
      (fun y s => forLoop w 0 w 1 (fun x s => decode_rgba_body fmt data y x s) s)
      ((0 : Int), rows)).2.get y i =
      (rgba_switch fmt data
        (wrap_int (((y * w + i / 4) * pixel_bytes fmt : Nat) : Int))).chan (i % 4) := by
  rw [forLoop_zero_eq_foldl 1 (by decide)]
  simp only [Nat.add_sub_cancel, Nat.div_one, Nat.one_mul]
  have key := foldl_scan
    (fun y s => forLoop w 0 w 1 (fun x s => decode_rgba_body fmt data y x s) s)
    (fun q => (fun q => wrap_int (q + pixel_bytes fmt))^[w] q) (fun _ i => i / 4 < w)
    (fun r _ => r)
    (fun _ p _ i => (rgba_switch fmt data
      ((fun q => wrap_int (q + pixel_bytes fmt))^[i / 4] p)).chan (i % 4))
    (fun k s => (rgba_row fmt hf data k w s).1)
    (fun k s r i hr hi => (rgba_row fmt hf data k w s).2.1 r i hi hr)
    (fun k s r i h => (rgba_row fmt hf data k w s).2.2 r i (fun h2 => h ⟨h2.2, h2.1⟩)) ht
    ((0 : Int), rows)
  have := key.2.1 y i hi hy
  rw [this, iterate_iterate, ← Function.iterate_add_apply, iterate_wrap_zero]
  congr 3
  push_cast
  ring
/-! ## Little-endian words -/

/-- The first component after `n` steps that each advance it by `next`. -/
theorem foldl_cursor {α β : Type} (step : Nat → α × β → α × β) (next : α → α)
    (hcur : ∀ k s, (step k s).1 = next s.1) (n : Nat) (s0 : α × β) :
    ((List.range n).foldl (fun s k => step k s) s0).1 = next^[n] s0.1 := by
  induction n with
  | zero => simp
  | succ n ih =>
    rw [List.range_succ, List.foldl_append]
    simp only [List.foldl_cons, List.foldl_nil]
    rw [hcur, ih, Function.iterate_succ_apply']

/-- Cursor after at least one advance by `S`, from any value. -/
theorem iterate_wrap_succ (S : Int) (n : Nat) (p : Int) :
    (fun q => wrap_int (q + S))^[n + 1] p = wrap_int (p + (n + 1 : Nat) * S) := by
  rw [Function.iterate_succ_apply, iterate_wrap]
  congr 1
  push_cast
  ring

/-- The cursor after the loop of `read_le`. -/
theorem read_le_cursor (data : Int → Nat) (p : Int) (n : Nat) :
    (read_le data p n).1 = (fun q => wrap_int (q + 1))^[n] p := by
  unfold read_le
  rw [forLoop_zero_eq_foldl 1 (by decide)]
  simp only [Nat.add_sub_cancel, Nat.div_one, Nat.one_mul]
  exact foldl_cursor
    (fun i (s : Int × Nat) =>
      (wrap_int (s.1 + 1), (s.2 ||| (data s.1 <<< (i * 8))) % 18446744073709551616))
    (fun q => wrap_int (q + 1)) (fun _ _ => rfl) n (p, 0)

/-- The cursor after the eight `p++` of line 166. -/
theorem read_le_cursor_8 (data : Int → Nat) (p : Int) :
    (read_le data p 8).1 = wrap_int (p + 8) := by
  rw [read_le_cursor, iterate_wrap_succ 1 7 p]
  norm_num

/-- The cursor after the two `p++` of line 189 and the six of line 194. -/
theorem read_le_cursor_6 (data : Int → Nat) (p : Int) :
    (read_le data (wrap_int (wrap_int (p + 1) + 1)) 6).1 = wrap_int (p + 8) := by
  rw [read_le_cursor, iterate_wrap_succ 1 5]
  unfold wrap_int
  push_cast
  omega

/-- The accumulation loop of `read_le` on bytes: cursor, word and bound after `n`
iterations. -/
theorem read_le_loop (data : Int → Nat) (hb : ∀ k, data k < 256) (p : Int) :
    ∀ n, n ≤ 8 →
      ((List.range n).foldl
        (fun (s : Int × Nat) i =>
          (wrap_int (s.1 + 1), (s.2 ||| (data s.1 <<< (i * 8))) % 18446744073709551616))
        (p, 0)).1 = (fun q => wrap_int (q + 1))^[n] p ∧
      ((List.range n).foldl
        (fun (s : Int × Nat) i =>
          (wrap_int (s.1 + 1), (s.2 ||| (data s.1 <<< (i * 8))) % 18446744073709551616))
        (p, 0)).2 = le_word (fun i => data ((fun q => wrap_int (q + 1))^[i] p)) 0 n ∧
      le_word (fun i => data ((fun q => wrap_int (q + 1))^[i] p)) 0 n < 256 ^ n := by
  intro n
  induction n with
  | zero => intro _; simp [le_word]
  | succ n ih =>
    intro hn
    obtain ⟨ih1, ih2, ih3⟩ := ih (by omega)
    generalize hd : (fun i => data ((fun q => wrap_int (q + 1))^[i] p)) = d at ih2 ih3 ⊢
    have hdn : data ((fun q => wrap_int (q + 1))^[n] p) = d n := by rw [← hd]
    have hbd : ∀ k, d k < 256 := by intro k; rw [← hd]; exact hb _
    have hw : le_word d 0 (n + 1) = le_word d 0 n + d n * 256 ^ n := by
      simp [le_word, List.range_succ, List.foldl_append]
    have hlt : le_word d 0 (n + 1) < 256 ^ (n + 1) := by
      rw [hw, pow_succ]
      have := hbd n
      nlinarith [Nat.pow_pos (n := n) (show 0 < 256 by decide)]
    have h64 : 256 ^ (n + 1) ≤ 18446744073709551616 := by
      have : (256 : Nat) ^ (n + 1) ≤ 256 ^ 8 := Nat.pow_le_pow_right (by decide) hn
      calc 256 ^ (n + 1) ≤ 256 ^ 8 := this
        _ = 18446744073709551616 := by norm_num
    rw [List.range_succ, List.foldl_append]
    simp only [List.foldl_cons, List.foldl_nil]
    refine ⟨by rw [ih1, Function.iterate_succ_apply'], ?_, hlt⟩
    rw [ih1, ih2, hw, hdn]
    have e256 : (256 : Nat) ^ n = 2 ^ (n * 8) := by
      rw [show (256 : Nat) = 2 ^ 8 by norm_num, ← pow_mul, Nat.mul_comm]
    have hor : le_word d 0 n ||| (d n <<< (n * 8)) = le_word d 0 n + d n * 256 ^ n := by
      rw [Nat.shiftLeft_eq, Nat.lor_comm, Nat.mul_comm, e256,
        ← Nat.mul_add_lt_is_or (by rw [← e256]; exact ih3)]
      ring
    rw [hor, Nat.mod_eq_of_lt]
    rw [← hw]
    exact lt_of_lt_of_le hlt h64

/-- On bytes, the word accumulated with shifts and ors from a cursor `p` of the range
of `int` is the little-endian word of the bytes at `p`, `p+1`, ..., the sums being
`int`. -/
theorem read_le_eq (data : Int → Nat) (hb : ∀ k, data k < 256) (p : Int)
    (hp : wrap_int p = p) (n : Nat) (hn : n ≤ 8) :
    (read_le data p n).2 = le_word (fun i => data (wrap_int (p + i))) 0 n := by
  unfold read_le
  rw [forLoop_zero_eq_foldl 1 (by decide)]
  simp only [Nat.add_sub_cancel, Nat.div_one, Nat.one_mul]
  rw [(read_le_loop data hb p n hn).2.1]
  congr 1
  funext i
  have := iterate_wrap 1 i p
  rw [hp] at this
  rw [this, Int.mul_one]
/-! ## The block decoders -/

/-- The cells of the raster after `decode_dxt_colors`. -/
theorem decode_dxt_colors_get (bx by_ c0 c1 ci : Nat) (rows : Raster) :
    (∀ py px ch, py < 4 → px < 4 → ch < 4 →
      (decode_dxt_colors bx by_ c0 c1 ci rows).get (by_ + py) (4 * (bx + px) + ch) =
        if ch = 3 then 255
        else col_at (dxt_cols c0 c1) ((ci >>> (2 * (4 * py + px))) &&& 3) ch) ∧
    (∀ r i, ¬ (by_ ≤ r ∧ r < by_ + 4 ∧ bx ≤ i / 4 ∧ i / 4 < bx + 4) →
      (decode_dxt_colors bx by_ c0 c1 ci rows).get r i = rows.get r i) := by
  have key := block_scan 2 bx by_ (fun _ => True)
    (fun word ch => if ch = 3 then 255 else col_at (dxt_cols c0 c1) (word &&& 3) ch)
    (fun py px s => dxt_colors_body bx by_ (dxt_cols c0 c1) py px s)
    (fun _ _ _ => rfl)
    (fun py px s ch hch _ => by
      simp only [dxt_colors_body, get_set]
      interval_cases ch <;> simp)
    (fun py px s r i h => by
      simp only [dxt_colors_body, get_set]
      have h : ¬ (r = by_ + py ∧ i / 4 = bx + px) := fun hh => h ⟨hh.1, hh.2, trivial⟩
      have h0 : ¬ (by_ + py = r ∧ 4 * (bx + px) + 0 = i) := by omega
      have h1 : ¬ (by_ + py = r ∧ 4 * (bx + px) + 1 = i) := by omega
      have h2 : ¬ (by_ + py = r ∧ 4 * (bx + px) + 2 = i) := by omega
      have h3 : ¬ (by_ + py = r ∧ 4 * (bx + px) + 3 = i) := by omega
      rw [if_neg h3, if_neg h2, if_neg h1, if_neg h0])
    (ci, rows)
  refine ⟨fun py px ch hpy hpx hch => key.1 py px ch hpy hpx hch trivial, fun r i h => ?_⟩
  exact key.2 r i (fun h' => h ⟨h'.1, h'.2.1, h'.2.2.1, h'.2.2.2.1⟩)

/-- The cells of the raster after the alpha loops of `decode_dxt3`. -/
theorem dxt3_alpha_get (x y alpha : Nat) (rows : Raster) :
    (∀ py px, py < 4 → px < 4 →
      (forLoop 4 0 4 1
        (fun py t => forLoop 4 0 4 1 (fun px t => dxt3_alpha_body x y py px t) t)
        (alpha, rows)).2.get (y + py) (4 * (x + px) + 3) =
        (alpha >>> (4 * (4 * py + px))) &&& 0xF) ∧
    (∀ r i, ¬ (y ≤ r ∧ r < y + 4 ∧ x ≤ i / 4 ∧ i / 4 < x + 4 ∧ i % 4 = 3) →
      (forLoop 4 0 4 1
        (fun py t => forLoop 4 0 4 1 (fun px t => dxt3_alpha_body x y py px t) t)
        (alpha, rows)).2.get r i = rows.get r i) := by
  have key := block_scan 4 x y (fun ch => ch = 3) (fun word _ => word &&& 0xF)
    (fun py px s => dxt3_alpha_body x y py px s)
    (fun _ _ _ => rfl)
    (fun py px s ch _ hc => by
      subst hc
      simp [dxt3_alpha_body, get_set])
    (fun py px s r i h => by
      simp only [dxt3_alpha_body, get_set]
      have h : ¬ (r = y + py ∧ i / 4 = x + px ∧ i % 4 = 3) := h
      have h3 : ¬ (y + py = r ∧ 4 * (x + px) + 3 = i) := by omega
      rw [if_neg h3])
    (alpha, rows)
  exact ⟨fun py px hpy hpx => key.1 py px 3 hpy hpx (by decide) rfl, key.2⟩

/-- The cursor and the cells of the raster after one block of `decode_dxt3`. -/
theorem decode_dxt3_body_get (data : Int → Nat) (y x : Nat) (s : Int × Raster) :
    (decode_dxt3_body data y x s).1 = wrap_int (s.1 + 16) ∧
    (∀ py px ch, py < 4 → px < 4 → ch < 4 →
      (decode_dxt3_body data y x s).2.get (y + py) (4 * (x + px) + ch) =
        if ch = 3 then ((read_le data s.1 8).2 >>> (4 * (4 * py + px))) &&& 0xF
        else col_at (dxt_cols (read_c0 data (wrap_int (s.1 + 8)))
            (read_c1 data (wrap_int (s.1 + 8))))
          ((read_ci data (wrap_int (s.1 + 8)) >>> (2 * (4 * py + px))) &&& 3) ch) ∧
    (∀ r i, ¬ (y ≤ r ∧ r < y + 4 ∧ x ≤ i / 4 ∧ i / 4 < x + 4) →
      (decode_dxt3_body data y x s).2.get r i = s.2.get r i) := by
  refine ⟨?_, ?_, ?_⟩
  · simp only [decode_dxt3_body]
    rw [read_le_cursor_8, wrap_int_add_wrap]
    congr 1
    ring
  · intro py px ch hpy hpx hch
    simp only [decode_dxt3_body]
    rw [read_le_cursor_8]
    by_cases h3 : ch = 3
    · subst h3
      rw [(dxt3_alpha_get x y _ _).1 py px hpy hpx]
      simp
    · rw [(dxt3_alpha_get x y _ _).2 _ _ (by omega),
        (decode_dxt_colors_get x y _ _ _ _).1 py px ch hpy hpx hch, if_neg h3, if_neg h3]
  · intro r i h
    simp only [decode_dxt3_body]
    rw [(dxt3_alpha_get x y _ _).2 _ _ (fun h' => h ⟨h'.1, h'.2.1, h'.2.2.1, h'.2.2.2.1⟩),
      (decode_dxt_colors_get x y _ _ _ _).2 _ _ h]

/-- A loop from 0 in steps of 4 makes `(stop + 3) / 4` iterations. -/
theorem forLoop_four_eq_foldl {σ : Type} (stop : Nat) (body : Nat → σ → σ) (s : σ) :
    forLoop stop 0 stop 4 body s =
      (List.range ((stop + 3) / 4)).foldl (fun s k => body (4 * k) s) s := by
  rw [forLoop_zero_eq_foldl 4 (by decide)]
  have e : stop + 4 - 1 = stop + 3 := by omega
  rw [e]

/-- The block loops of the three block decoders: the bytes of a cell come from the
block body run at the cursor reached after the blocks before its own, in row-major
order. -/
theorem dxt_image_scan {α : Type} (next : α → α) (bv : α → Nat → Nat → Nat → Nat)
    (body : Nat → Nat → α × Raster → α × Raster)
    (h1 : ∀ y x s, (body y x s).1 = next s.1)
    (hin : ∀ y x s py px ch, py < 4 → px < 4 → ch < 4 →
      (body y x s).2.get (y + py) (4 * (x + px) + ch) = bv s.1 py px ch)
    (hout : ∀ y x s r i, ¬ (y ≤ r ∧ r < y + 4 ∧ x ≤ i / 4 ∧ i / 4 < x + 4) →
      (body y x s).2.get r i = s.2.get r i)
    (w ht : Nat) (a0 : α) (rows : Raster) (r i : Nat) (hr : r / 4 < (ht + 3) / 4)
    (hi : i / 16 < (w + 3) / 4) :
    (forLoop ht 0 ht 4 (fun y s => forLoop w 0 w 4 (fun x s => body y x s) s) (a0, rows)).2.get
        r i =
      bv (next^[r / 4 * ((w + 3) / 4) + i / 16] a0) (r % 4) (i / 4 % 4) (i % 4) := by
  have row : ∀ y (s : α × Raster),
      (forLoop w 0 w 4 (fun x s => body y x s) s).1 = next^[(w + 3) / 4] s.1 ∧
      (∀ r i, (y ≤ r ∧ r < y + 4) → i / 16 < (w + 3) / 4 →
        (forLoop w 0 w 4 (fun x s => body y x s) s).2.get r i =
          bv (next^[i / 16] s.1) (r - y) (i / 4 % 4) (i % 4)) ∧
      (∀ r i, ¬ ((y ≤ r ∧ r < y + 4) ∧ i / 16 < (w + 3) / 4) →
        (forLoop w 0 w 4 (fun x s => body y x s) s).2.get r i = s.2.get r i) := by
    intro y s
    rw [forLoop_four_eq_foldl]
    apply foldl_scan (fun k s => body y (4 * k) s) next
      (fun r _ => y ≤ r ∧ r < y + 4) (fun _ i => i / 16)
      (fun _ p r i => bv p (r - y) (i / 4 % 4) (i % 4))
    · intro k s; exact h1 y (4 * k) s
    · intro k s r i hr hi
      have hi' : i / 16 = k := hi
      have := hin y (4 * k) s (r - y) (i / 4 % 4) (i % 4) (by omega) (by omega) (by omega)
      have e1 : y + (r - y) = r := by omega
      have e2 : 4 * (4 * k + i / 4 % 4) + i % 4 = i := by omega
      rw [e1, e2] at this
      exact this
    · intro k s r i h
      apply hout
      intro h'
      apply h
      exact ⟨⟨h'.1, h'.2.1⟩, by show i / 16 = k; omega⟩
  rw [forLoop_four_eq_foldl]
  have outer := foldl_scan (fun k s => forLoop w 0 w 4 (fun x s => body (4 * k) x s) s)
    (fun q => next^[(w + 3) / 4] q)
    (fun _ i => i / 16 < (w + 3) / 4) (fun r _ => r / 4)
    (fun k p r i => bv (next^[i / 16] p) (r - 4 * k) (i / 4 % 4) (i % 4))
    (fun k s => (row (4 * k) s).1)
    (fun k s r i hr hi => by
      have hi' : r / 4 = k := hi
      exact (row (4 * k) s).2.1 r i (by omega) hr)
    (fun k s r i h => (row (4 * k) s).2.2 r i (fun h' => h ⟨h'.2, by show r / 4 = k; omega⟩))
    ((ht + 3) / 4) (a0, rows)
  rw [outer.2.1 r i hi hr, iterate_iterate, ← Function.iterate_add_apply]
  have e : r - 4 * (r / 4) = r % 4 := by omega
  rw [e, Nat.add_comm]

/-- The cells of the raster after the alpha loops of `decode_dxt5`. -/
theorem dxt5_alpha_get (avals : List Nat) (x y ai : Nat) (rows : Raster) :
    (∀ py px, py < 4 → px < 4 →
      (forLoop 4 0 4 1
        (fun py t => forLoop 4 0 4 1 (fun px t => dxt5_alpha_body avals x y py px t) t)
        (ai, rows)).2.get (y + py) (4 * (x + px) + 3) =
        avals.getD ((ai >>> (3 * (4 * py + px))) &&& 0x7) 0) ∧
    (∀ r i, ¬ (y ≤ r ∧ r < y + 4 ∧ x ≤ i / 4 ∧ i / 4 < x + 4 ∧ i % 4 = 3) →
      (forLoop 4 0 4 1
        (fun py t => forLoop 4 0 4 1 (fun px t => dxt5_alpha_body avals x y py px t) t)
        (ai, rows)).2.get r i = rows.get r i) := by
  have key := block_scan 3 x y (fun ch => ch = 3) (fun word _ => avals.getD (word &&& 0x7) 0)
    (fun py px s => dxt5_alpha_body avals x y py px s)
    (fun _ _ _ => rfl)
    (fun py px s ch _ hc => by
      subst hc
      simp [dxt5_alpha_body, get_set])
    (fun py px s r i h => by
      simp only [dxt5_alpha_body, get_set]
      have h : ¬ (r = y + py ∧ i / 4 = x + px ∧ i % 4 = 3) := h
      have h3 : ¬ (y + py = r ∧ 4 * (x + px) + 3 = i) := by omega
      rw [if_neg h3])
    (ai, rows)
  exact ⟨fun py px hpy hpx => key.1 py px 3 hpy hpx (by decide) rfl, key.2⟩

/-- The cursor and the cells of the raster after one block of `decode_dxt5`. -/
theorem decode_dxt5_body_get (data : Int → Nat) (y x : Nat) (s : Int × Raster) :
    (decode_dxt5_body data y x s).1 = wrap_int (s.1 + 16) ∧
    (∀ py px ch, py < 4 → px < 4 → ch < 4 →
      (decode_dxt5_body data y x s).2.get (y + py) (4 * (x + px) + ch) =
        if ch = 3 then 255
        else col_at (dxt_cols (read_c0 data (wrap_int (s.1 + 8)))
            (read_c1 data (wrap_int (s.1 + 8))))
          ((read_ci data (wrap_int (s.1 + 8)) >>> (2 * (4 * py + px))) &&& 3) ch) ∧
    (∀ r i, ¬ (y ≤ r ∧ r < y + 4 ∧ x ≤ i / 4 ∧ i / 4 < x + 4) →
      (decode_dxt5_body data y x s).2.get r i = s.2.get r i) := by
  refine ⟨?_, ?_, ?_⟩
  · simp only [decode_dxt5_body]
    rw [read_le_cursor_6, wrap_int_add_wrap]
    congr 1
    ring
  · intro py px ch hpy hpx hch
    simp only [decode_dxt5_body]
    rw [read_le_cursor_6]
    exact (decode_dxt_colors_get x y _ _ _ _).1 py px ch hpy hpx hch
  · intro r i h
    simp only [decode_dxt5_body]
    rw [(decode_dxt_colors_get x y _ _ _ _).2 _ _ h,
      (dxt5_alpha_get _ x y _ _).2 _ _ (fun h' => h ⟨h'.1, h'.2.1, h'.2.2.1, h'.2.2.2.1⟩)]

/-- After `decode_dxt5` the alpha byte of every pixel of the image is 255, whatever the
alpha part of its record holds: the colour call comes last in the block body. -/
theorem decode_dxt5_alpha_255 (h : vtf_header_t) (mem : Mem) (endp frame_off : Int)
    (rows : Raster) (x y : Nat) (hx : x < h.width) (hy : y < h.height) :
    (decode_dxt5 h mem endp frame_off rows).get y (4 * x + 3) = 255 := by
  have := dxt_image_scan (fun q => wrap_int (q + 16))
    (fun p py px ch => if ch = 3 then 255
      else col_at (dxt_cols
          (read_c0 (fun p => rd mem (endp - displacement_int (dxt_framesize_int h 16) frame_off + p))
            (wrap_int (p + 8)))
          (read_c1 (fun p => rd mem (endp - displacement_int (dxt_framesize_int h 16) frame_off + p))
            (wrap_int (p + 8))))
        ((read_ci (fun p => rd mem (endp - displacement_int (dxt_framesize_int h 16) frame_off + p))
          (wrap_int (p + 8)) >>> (2 * (4 * py + px))) &&& 3) ch)
    (fun y x s =>
      decode_dxt5_body
        (fun p => rd mem (endp - displacement_int (dxt_framesize_int h 16) frame_off + p)) y x s)
    (fun y x s => (decode_dxt5_body_get _ y x s).1)
    (fun y x s => (decode_dxt5_body_get _ y x s).2.1)
    (fun y x s => (decode_dxt5_body_get _ y x s).2.2)
    h.width h.height 0 rows y (4 * x + 3) (by omega) (by omega)
  have e4 : (4 * x + 3) % 4 = 3 := by omega
  rw [e4] at this
  simp only [if_true] at this
  exact this

/-! ## Payload location and dispatch -/

/-- The two ways out of line 236. -/
theorem main_eq (mem : Mem) (sz frame : Int) :
    main mem sz frame =
      match dispatch (header_view mem).image_format with
      | some dec => .decoded dec (dec.run (header_view mem) mem
          (img_end (header_view mem) mem sz) (foff (header_view mem) frame)
          (Raster.alloc (header_view mem).height (header_view mem).width))
      | none => .failed 1 := rfl

/-- The decoder called by `main` is the one the `switch` selects. -/
theorem main_decoder (mem : Mem) (sz frame : Int) :
    (main mem sz frame).decoder = dispatch (header_view mem).image_format := by
  rw [main_eq]
  cases dispatch (header_view mem).image_format <;> rfl

/-- A decoder reads its bytes relative to `end - framesize*frame_off` only, the
product being an `int`. -/
theorem run_from_start (dec : Decoder) (h : vtf_header_t) (mem : Mem) (endp frame_off : Int)
    (rows : Raster) :
    dec.run h mem endp frame_off rows =
      dec.run h (fun a => mem (endp - displacement_int (dec.framesize h) frame_off + a)) 0 0
        rows := by
  have e : ∀ (fs : Int) (p : Int),
      rd mem (endp - displacement_int fs frame_off + p) =
        rd (fun a => mem (endp - displacement_int fs frame_off + a))
          (0 - displacement_int fs 0 + p) := by
    intro fs p
    have e0 : displacement_int fs 0 = 0 := by simp [displacement_int, wrap_int]
    simp [rd, e0]
  cases dec <;>
    simp only [Decoder.run, Decoder.framesize, decode_rgba, decode_dxt1, decode_dxt3,
      decode_dxt5, e]

/-- The resource scan depends on the tags and offsets of the entries only. -/
theorem scan_resources_congr (mem mem' : Mem) (n : Nat)
    (ht : ∀ i, resource_tag0 mem i = resource_tag0 mem' i)
    (ho : ∀ i, resource_offset mem i = resource_offset mem' i) :
    ∀ fuel i found e, scan_resources mem n fuel i found e = scan_resources mem' n fuel i found e := by
  intro fuel
  induction fuel with
  | zero => intro i found e; rfl
  | succ fuel ih =>
    intro i found e
    simp only [scan_resources, ht, ho, ih]

/-- Past a leading segment, memory does not depend on that segment. -/
theorem mem_of_append_right (l1 l2 t : List Nat) (a : Int) (hl : l1.length = l2.length)
    (ha : (l1.length : Int) ≤ a) : mem_of (l1 ++ t) a = mem_of (l2 ++ t) a := by
  have hneg : ¬ a < 0 := by omega
  have hn : l1.length ≤ a.toNat := by omega
  simp only [mem_of, if_neg hneg]
  rw [List.getD_append_right _ _ _ _ hn, List.getD_append_right _ _ _ _ (hl ▸ hn), hl]

/-- Once the image data entry is found, the scan stops at the first entry whose tag
is not `C`. -/
theorem scan_found_hit (mem : Mem) (n j : Nat) (e : Int) (hj : j < n)
    (hne : resource_tag0 mem j ≠ 0x43) :
    ∀ fuel i, i ≤ j → j < i + fuel → (∀ k, i ≤ k → k < j → resource_tag0 mem k = 0x43) →
      scan_resources mem n fuel i true e = to_int (resource_offset mem j) := by
  intro fuel
  induction fuel with
  | zero => intro i h1 h2; omega
  | succ fuel ih =>
    intro i h1 h2 hc
    have hin : i < n := by omega
    by_cases hij : i = j
    · subst hij
      simp [scan_resources, hin, hne]
    · have hti : resource_tag0 mem i = 0x43 := hc i (le_refl i) (by omega)
      simp only [scan_resources, hin, if_true, hti]
      simp only [Bool.not_true, Bool.false_and, Bool.false_eq_true, if_false, bne_self_eq_false,
        Bool.and_false]
      exact ih (i + 1) (by omega) (by omega) (fun k hk1 hk2 => hc k (by omega) hk2)

/-- Once the image data entry is found, the scan keeps `img_end` if only `C` entries
follow. -/
theorem scan_found_miss (mem : Mem) (n : Nat) (e : Int) :
    ∀ fuel i, (∀ k, i ≤ k → k < n → resource_tag0 mem k = 0x43) →
      scan_resources mem n fuel i true e = e := by
  intro fuel
  induction fuel with
  | zero => intro i _; rfl
  | succ fuel ih =>
    intro i hc
    by_cases hin : i < n
    · have hti : resource_tag0 mem i = 0x43 := hc i (le_refl i) hin
      simp only [scan_resources, hin, if_true, hti]
      simp only [Bool.not_true, Bool.false_and, Bool.false_eq_true, if_false, bne_self_eq_false,
        Bool.and_false]
      exact ih (i + 1) (fun k hk1 hk2 => hc k (by omega) hk2)
    · simp [scan_resources, hin]

/-- Before the image data entry is found, the scan skips every entry up to it. -/
theorem scan_skip (mem : Mem) (n i : Nat) (e : Int) (hi : i < n)
    (hti : resource_tag0 mem i = 0x30) :
    ∀ fuel i0, i0 ≤ i → i < i0 + fuel → (∀ k, i0 ≤ k → k < i → resource_tag0 mem k ≠ 0x30) →
      scan_resources mem n fuel i0 false e =
        scan_resources mem n (i0 + fuel - (i + 1)) (i + 1) true e := by
  intro fuel
  induction fuel with
  | zero => intro i0 h1 h2; omega
  | succ fuel ih =>
    intro i0 h1 h2 hc
    have hin : i0 < n := by omega
    by_cases hij : i0 = i
    · subst hij
      have e1 : i0 + (fuel + 1) - (i0 + 1) = fuel := by omega
      simp [scan_resources, hin, hti, e1]
    · have ht0 : resource_tag0 mem i0 ≠ 0x30 := hc i0 (le_refl i0) (by omega)
      have e1 : i0 + (fuel + 1) - (i + 1) = i0 + 1 + fuel - (i + 1) := by omega
      simp only [scan_resources, hin, if_true]
      simp only [Bool.not_false, Bool.true_and, beq_iff_eq, ht0, if_false, Bool.false_and,
        Bool.false_eq_true]
      rw [e1]
      exact ih (i0 + 1) (by omega) (by omega) (fun k hk1 hk2 => hc k (by omega) hk2)

/-- Without an image data entry the scan keeps `img_end`. -/
theorem scan_none (mem : Mem) (n : Nat) (e : Int) :
    ∀ fuel i0, (∀ k, i0 ≤ k → k < n → resource_tag0 mem k ≠ 0x30) →
      scan_resources mem n fuel i0 false e = e := by
  intro fuel
  induction fuel with
  | zero => intro i0 _; rfl
  | succ fuel ih =>
    intro i0 hc
    by_cases hin : i0 < n
    · have ht0 : resource_tag0 mem i0 ≠ 0x30 := hc i0 (le_refl i0) hin
      simp only [scan_resources, hin, if_true]
      simp only [Bool.not_false, Bool.true_and, beq_iff_eq, ht0, if_false, Bool.false_and,
        Bool.false_eq_true]
      exact ih (i0 + 1) (fun k hk1 hk2 => hc k (by omega) hk2)
    · simp [scan_resources, hin]

/-- The conversion to `int` keeps values below 2^31. -/
theorem to_int_of_lt (u : Nat) (hu : u < 2147483648) : to_int u = (u : Int) := by
  have h1 : u % 4294967296 = u := Nat.mod_eq_of_lt (by omega)
  simp [to_int, h1, hu]

/-! ## Bit replication -/

/-- A 5-bit field expanded by replication fits a byte. -/
theorem expand5_lt : ∀ r, r < 32 → (r <<< 3) ||| (r >>> 2) < 256 := by decide

/-- A 6-bit field expanded by replication fits a byte. -/
theorem expand6_lt : ∀ g, g < 64 → (g <<< 2) ||| (g >>> 4) < 256 := by decide

/-! ## The colour table and the DXT1 block -/

/-- Every byte written by `rgb565_to_rgb888` is below 256. -/
theorem rgb565_lt (v ch : Nat) : (rgb565_to_rgb888 v).getD ch 0 < 256 := by
  unfold rgb565_to_rgb888
  rcases ch with _ | _ | _ | ch
  · exact Nat.mod_lt _ (by decide)
  · exact Nat.mod_lt _ (by decide)
  · exact Nat.mod_lt _ (by decide)
  · simp

/-- The four rows of `cols`. -/
theorem dxt_cols_entries (c0 c1 ch : Nat) (hch : ch < 3) :
    col_at (dxt_cols c0 c1) 0 ch = (rgb565_to_rgb888 c0).getD ch 0 ∧
    col_at (dxt_cols c0 c1) 1 ch = (rgb565_to_rgb888 c1).getD ch 0 ∧
    col_at (dxt_cols c0 c1) 2 ch =
      (2 * (rgb565_to_rgb888 c0).getD ch 0 + (rgb565_to_rgb888 c1).getD ch 0 + 1) / 3 ∧
    col_at (dxt_cols c0 c1) 3 ch =
      ((rgb565_to_rgb888 c0).getD ch 0 + 2 * (rgb565_to_rgb888 c1).getD ch 0 + 1) / 3 := by
  have h0 := rgb565_lt c0 ch
  have h1 := rgb565_lt c1 ch
  have m2 : (2 * (rgb565_to_rgb888 c0).getD ch 0 + (rgb565_to_rgb888 c1).getD ch 0 + 1) / 3 % 256 =
      (2 * (rgb565_to_rgb888 c0).getD ch 0 + (rgb565_to_rgb888 c1).getD ch 0 + 1) / 3 :=
    Nat.mod_eq_of_lt (by omega)
  have m3 : ((rgb565_to_rgb888 c0).getD ch 0 + 2 * (rgb565_to_rgb888 c1).getD ch 0 + 1) / 3 % 256 =
      ((rgb565_to_rgb888 c0).getD ch 0 + 2 * (rgb565_to_rgb888 c1).getD ch 0 + 1) / 3 :=
    Nat.mod_eq_of_lt (by omega)
  refine ⟨rfl, rfl, ?_, ?_⟩
  · rw [← m2]
    interval_cases ch <;> simp [col_at, dxt_cols, List.range_succ]
  · rw [← m3]
    interval_cases ch <;> simp [col_at, dxt_cols, List.range_succ]

/-- The cursor and the cells of the raster after one block of `decode_dxt1`. -/
theorem decode_dxt1_body_get (data : Int → Nat) (y x : Nat) (s : Int × Raster) :
    (decode_dxt1_body data y x s).1 = wrap_int (s.1 + 8) ∧
    (∀ py px ch, py < 4 → px < 4 → ch < 4 →
      (decode_dxt1_body data y x s).2.get (y + py) (4 * (x + px) + ch) =
        if ch = 3 then 255
        else col_at (dxt_cols (read_c0 data s.1) (read_c1 data s.1))
          ((read_ci data s.1 >>> (2 * (4 * py + px))) &&& 3) ch) ∧
    (∀ r i, ¬ (y ≤ r ∧ r < y + 4 ∧ x ≤ i / 4 ∧ i / 4 < x + 4) →
      (decode_dxt1_body data y x s).2.get r i = s.2.get r i) := by
  refine ⟨rfl, ?_, ?_⟩
  · intro py px ch hpy hpx hch
    simp only [decode_dxt1_body]
    exact (decode_dxt_colors_get x y _ _ _ _).1 py px ch hpy hpx hch
  · intro r i h
    simp only [decode_dxt1_body]
    exact (decode_dxt_colors_get x y _ _ _ _).2 _ _ h

/-! ## Loops as one pass over the records -/

/-- Folding two step functions that agree on the elements of the list. -/
theorem foldl_congr_mem {α β : Type} (f g : α → β → α) (l : List β)
    (h : ∀ x, x ∈ l → ∀ a, f a x = g a x) (a : α) : l.foldl f a = l.foldl g a := by
  induction l generalizing a with
  | nil => rfl
  | cons x l ih =>
    simp only [List.foldl_cons]
    rw [h x (List.mem_cons_self x l) a]
    exact ih (fun z hz => h z (List.mem_cons_of_mem x hz)) _

/-- Two nested loops of `m` and `n` iterations are one loop of `m * n` iterations, in
row-major order. -/
theorem foldl_range_flat {σ : Type} (f : Nat → Nat → σ → σ) (m n : Nat) (s : σ) :
    (List.range m).foldl (fun s i => (List.range n).foldl (fun s j => f i j s) s) s =
      (List.range (m * n)).foldl (fun s k => f (k / n) (k % n) s) s := by
  induction m with
  | zero => simp
  | succ m ih =>
    rw [List.range_succ, List.foldl_append, ih, Nat.succ_mul, List.range_add,
      List.foldl_append, List.foldl_map]
    simp only [List.foldl_cons, List.foldl_nil]
    apply foldl_congr_mem
    intro j hj a
    have hjn : j < n := List.mem_range.mp hj
    have hn : 0 < n := by omega
    have e1 : (m * n + j) / n = m := by
      rw [Nat.add_comm, Nat.add_mul_div_right _ _ hn, Nat.div_eq_of_lt hjn, Nat.zero_add]
    have e2 : (m * n + j) % n = j := by
      rw [Nat.add_comm, Nat.add_mul_mod_self_right, Nat.mod_eq_of_lt hjn]
    rw [e1, e2]

/-- The block loops of a block decoder visit the `((ht+3)/4) * ((w+3)/4)` blocks one
after the other, row by row. -/
theorem dxt_loop_flat {σ : Type} (body : Nat → Nat → σ → σ) (w ht : Nat) (s0 : σ) :
    forLoop ht 0 ht 4 (fun y s => forLoop w 0 w 4 (fun x s => body y x s) s) s0 =
      (List.range ((ht + 3) / 4 * ((w + 3) / 4))).foldl
        (fun s k => body (4 * (k / ((w + 3) / 4))) (4 * (k % ((w + 3) / 4))) s) s0 := by
  rw [forLoop_four_eq_foldl]
  simp only [forLoop_four_eq_foldl]
  exact foldl_range_flat (fun i j s => body (4 * i) (4 * j) s) _ _ s0

/-- The pixel loops of `decode_rgba` visit the `ht * w` pixels one after the other, row
by row. -/
theorem rgba_loop_flat {σ : Type} (body : Nat → Nat → σ → σ) (w ht : Nat) (s0 : σ) :
    forLoop ht 0 ht 1 (fun y s => forLoop w 0 w 1 (fun x s => body y x s) s) s0 =
      (List.range (ht * w)).foldl (fun s k => body (k / w) (k % w) s) s0 := by
  have e : ∀ (stop : Nat) (b : Nat → σ → σ) (s : σ),
      forLoop stop 0 stop 1 b s = (List.range stop).foldl (fun s k => b k s) s := by
    intro stop b s
    rw [forLoop_zero_eq_foldl 1 (by decide)]
    simp only [Nat.add_sub_cancel, Nat.div_one, Nat.one_mul]
  rw [e]
  simp only [e]
  exact foldl_range_flat (fun i j s => body i j s) _ _ s0

/-- Two loops whose steps agree at every cursor position that is reached are equal. -/
theorem foldl_agree {α β : Type} (step step' : Nat → α × β → α × β) (next : α → α) (n : Nat)
    (s0 : α × β) (hcur : ∀ k s, (step k s).1 = next s.1)
    (h : ∀ k s, k < n → s.1 = next^[k] s0.1 → step k s = step' k s) :
    (List.range n).foldl (fun s k => step k s) s0 =
      (List.range n).foldl (fun s k => step' k s) s0 := by
  induction n with
  | zero => rfl
  | succ n ih =>
    rw [List.range_succ, List.foldl_append, List.foldl_append,
      ← ih (fun k s hk hs => h k s (by omega) hs)]
    simp only [List.foldl_cons, List.foldl_nil]
    exact h n _ (by omega) (foldl_cursor step next hcur n s0)

/-! ## Which block stores to which pixel -/

/-- A store adds one to the count of the pixel it falls in. -/
theorem pixel_stores_set (rows : Raster) (r i v x y : Nat) :
    (rows.set r i v).pixel_stores x y =
      rows.pixel_stores x y + if r = y ∧ i / 4 = x then 1 else 0 := by
  simp only [Raster.pixel_stores, Raster.set, List.countP_cons]
  by_cases h : r = y ∧ i / 4 = x
  · simp [h]
  · simp [h]

/-- A loop in which only iteration `k0` stores to a pixel, `c` times. -/
theorem foldl_stores_once {α : Type} (step : Nat → α × Raster → α × Raster) (x y k0 c n : Nat)
    (h : ∀ k s, k < n →
      (step k s).2.pixel_stores x y = s.2.pixel_stores x y + if k = k0 then c else 0)
    (s0 : α × Raster) :
    ((List.range n).foldl (fun s k => step k s) s0).2.pixel_stores x y =
      s0.2.pixel_stores x y + if k0 < n then c else 0 := by
  induction n with
  | zero => simp
  | succ n ih =>
    rw [List.range_succ, List.foldl_append]
    simp only [List.foldl_cons, List.foldl_nil]
    rw [h n _ (by omega), ih (fun k s hk => h k s (by omega))]
    by_cases h1 : n = k0
    · subst h1; simp
    · by_cases h2 : k0 < n
      · have h3 : k0 < n + 1 := by omega
        simp [h1, h2, h3]
      · have h3 : ¬ k0 < n + 1 := by omega
        simp [h1, h2, h3]

/-- The 4x4 pixel loops of a block whose body stores `c` times to its pixel. -/
theorem block_stores {α : Type} (c bx by_ : Nat) (body : Nat → Nat → α × Raster → α × Raster)
    (hb : ∀ py px s x y, (body py px s).2.pixel_stores x y =
      s.2.pixel_stores x y + if by_ + py = y ∧ bx + px = x then c else 0)
    (s0 : α × Raster) (x y : Nat) :
    (forLoop 4 0 4 1 (fun py s => forLoop 4 0 4 1 (fun px s => body py px s) s) s0).2.pixel_stores
        x y =
      s0.2.pixel_stores x y + if by_ ≤ y ∧ y < by_ + 4 ∧ bx ≤ x ∧ x < bx + 4 then c else 0 := by
  rw [rgba_loop_flat]
  by_cases hin : by_ ≤ y ∧ y < by_ + 4 ∧ bx ≤ x ∧ x < bx + 4
  · rw [foldl_stores_once (fun k s => body (k / 4) (k % 4) s) x y (4 * (y - by_) + (x - bx)) c
      (4 * 4)]
    · have : 4 * (y - by_) + (x - bx) < 4 * 4 := by omega
      simp [this, hin]
    · intro k s _
      rw [hb]
      by_cases hk : k = 4 * (y - by_) + (x - bx)
      · have : by_ + k / 4 = y ∧ bx + k % 4 = x := by omega
        rw [if_pos this, if_pos hk]
      · have : ¬ (by_ + k / 4 = y ∧ bx + k % 4 = x) := by omega
        rw [if_neg this, if_neg hk]
  · rw [foldl_stores_once (fun k s => body (k / 4) (k % 4) s) x y (4 * 4) c (4 * 4)]
    · simp [hin]
    · intro k s hk
      rw [hb]
      have h1 : ¬ (by_ + k / 4 = y ∧ bx + k % 4 = x) := by omega
      have h2 : ¬ k = 4 * 4 := by omega
      rw [if_neg h1, if_neg h2]

/-- The stores of `decode_dxt_colors`: four to every pixel of the block. -/
theorem decode_dxt_colors_stores (bx by_ c0 c1 ci : Nat) (rows : Raster) (x y : Nat) :
    (decode_dxt_colors bx by_ c0 c1 ci rows).pixel_stores x y =
      rows.pixel_stores x y + if by_ ≤ y ∧ y < by_ + 4 ∧ bx ≤ x ∧ x < bx + 4 then 4 else 0 := by
  unfold decode_dxt_colors
  apply block_stores 4 bx by_ (fun py px s => dxt_colors_body bx by_ (dxt_cols c0 c1) py px s)
  intro py px s x y
  simp only [dxt_colors_body, pixel_stores_set]
  have e : ∀ j, j < 4 → (4 * (bx + px) + j) / 4 = bx + px := by intro j hj; omega
  rw [e 0 (by decide), e 1 (by decide), e 2 (by decide), e 3 (by decide)]
  by_cases h : by_ + py = y ∧ bx + px = x
  · simp [h]
  · simp [h]

/-- The stores of the alpha loops of `decode_dxt3`: one to every pixel of the block. -/
theorem dxt3_alpha_stores (bx by_ alpha : Nat) (rows : Raster) (x y : Nat) :
    (forLoop 4 0 4 1
      (fun py t => forLoop 4 0 4 1 (fun px t => dxt3_alpha_body bx by_ py px t) t)
      (alpha, rows)).2.pixel_stores x y =
      rows.pixel_stores x y + if by_ ≤ y ∧ y < by_ + 4 ∧ bx ≤ x ∧ x < bx + 4 then 1 else 0 := by
  apply block_stores 1 bx by_ (fun py px s => dxt3_alpha_body bx by_ py px s)
  intro py px s x y
  simp only [dxt3_alpha_body, pixel_stores_set]
  have e : (4 * (bx + px) + 3) / 4 = bx + px := by omega
  rw [e]

/-- The stores of the alpha loops of `decode_dxt5`: one to every pixel of the block. -/
theorem dxt5_alpha_stores (avals : List Nat) (bx by_ ai : Nat) (rows : Raster) (x y : Nat) :
    (forLoop 4 0 4 1
      (fun py t => forLoop 4 0 4 1 (fun px t => dxt5_alpha_body avals bx by_ py px t) t)
      (ai, rows)).2.pixel_stores x y =
      rows.pixel_stores x y + if by_ ≤ y ∧ y < by_ + 4 ∧ bx ≤ x ∧ x < bx + 4 then 1 else 0 := by
  apply block_stores 1 bx by_ (fun py px s => dxt5_alpha_body avals bx by_ py px s)
  intro py px s x y
  simp only [dxt5_alpha_body, pixel_stores_set]
  have e : (4 * (bx + px) + 3) / 4 = bx + px := by omega
  rw [e]

/-- The stores of one block of `decode_dxt1`. -/
theorem decode_dxt1_body_stores (data : Int → Nat) (by_ bx : Nat) (s : Int × Raster)
    (x y : Nat) :
    (decode_dxt1_body data by_ bx s).2.pixel_stores x y =
      s.2.pixel_stores x y + if by_ ≤ y ∧ y < by_ + 4 ∧ bx ≤ x ∧ x < bx + 4 then 4 else 0 := by
  simp only [decode_dxt1_body]
  exact decode_dxt_colors_stores _ _ _ _ _ _ _ _

/-- The stores of one block of `decode_dxt3`. -/
theorem decode_dxt3_body_stores (data : Int → Nat) (by_ bx : Nat) (s : Int × Raster)
    (x y : Nat) :
    (decode_dxt3_body data by_ bx s).2.pixel_stores x y =
      s.2.pixel_stores x y + if by_ ≤ y ∧ y < by_ + 4 ∧ bx ≤ x ∧ x < bx + 4 then 5 else 0 := by
  simp only [decode_dxt3_body]
  rw [dxt3_alpha_stores, decode_dxt_colors_stores]
  by_cases h : by_ ≤ y ∧ y < by_ + 4 ∧ bx ≤ x ∧ x < bx + 4
  · simp [h]
  · simp [h]

/-- The stores of one block of `decode_dxt5`. -/
theorem decode_dxt5_body_stores (data : Int → Nat) (by_ bx : Nat) (s : Int × Raster)
    (x y : Nat) :
    (decode_dxt5_body data by_ bx s).2.pixel_stores x y =
      s.2.pixel_stores x y + if by_ ≤ y ∧ y < by_ + 4 ∧ bx ≤ x ∧ x < bx + 4 then 5 else 0 := by
  simp only [decode_dxt5_body]
  rw [decode_dxt_colors_stores, dxt5_alpha_stores]
  by_cases h : by_ ≤ y ∧ y < by_ + 4 ∧ bx ≤ x ∧ x < bx + 4
  · simp [h]
  · simp [h]

/-- The block loops store to a pixel of the padded image through one block only. -/
theorem dxt_image_stores {α : Type} (c : Nat) (body : Nat → Nat → α × Raster → α × Raster)
    (hb : ∀ by_ bx s x y, (body by_ bx s).2.pixel_stores x y =
      s.2.pixel_stores x y + if by_ ≤ y ∧ y < by_ + 4 ∧ bx ≤ x ∧ x < bx + 4 then c else 0)
    (w ht : Nat) (s0 : α × Raster) (x y : Nat) (hx : x / 4 < (w + 3) / 4)
    (hy : y / 4 < (ht + 3) / 4) :
    (forLoop ht 0 ht 4 (fun y s => forLoop w 0 w 4 (fun x s => body y x s) s) s0).2.pixel_stores
        x y = s0.2.pixel_stores x y + c := by
  rw [dxt_loop_flat]
  generalize hbw : (w + 3) / 4 = bw at hx ⊢
  generalize hbh : (ht + 3) / 4 = bh at hy ⊢
  have hk0 : y / 4 * bw + x / 4 < bh * bw := by
    have : (y / 4 + 1) * bw ≤ bh * bw := Nat.mul_le_mul_right bw hy
    rw [Nat.add_mul, Nat.one_mul] at this
    omega
  rw [foldl_stores_once (fun k s => body (4 * (k / bw)) (4 * (k % bw)) s) x y
    (y / 4 * bw + x / 4) c (bh * bw)]
  · simp [hk0]
  · intro k s _
    rw [hb]
    have hpos : 0 < bw := by omega
    by_cases hk : k = y / 4 * bw + x / 4
    · have e1 : k / bw = y / 4 := by
        rw [hk, Nat.add_comm, Nat.add_mul_div_right _ _ hpos, Nat.div_eq_of_lt hx, Nat.zero_add]
      have e2 : k % bw = x / 4 := by
        rw [hk, Nat.add_comm, Nat.add_mul_mod_self_right, Nat.mod_eq_of_lt hx]
      have : 4 * (k / bw) ≤ y ∧ y < 4 * (k / bw) + 4 ∧ 4 * (k % bw) ≤ x ∧ x < 4 * (k % bw) + 4 := by
        rw [e1, e2]; omega
      rw [if_pos this, if_pos hk]
    · have : ¬ (4 * (k / bw) ≤ y ∧ y < 4 * (k / bw) + 4 ∧ 4 * (k % bw) ≤ x ∧
          x < 4 * (k % bw) + 4) := by
        intro h'
        apply hk
        have e1 : k / bw = y / 4 := by omega
        have e2 : k % bw = x / 4 := by omega
        have := Nat.div_add_mod k bw
        rw [e1, e2] at this
        rw [← this, Nat.mul_comm]
      rw [if_neg this, if_neg hk]

/-! ## Little-endian fields and the record of a pixel -/

/-- Or-ing a value shifted above the bits of `x` adds it. -/
theorem or_shl (x y k : Nat) (hx : x < 2 ^ k) : x ||| (y <<< k) = x + y * 2 ^ k := by
  rw [Nat.shiftLeft_eq, Nat.lor_comm, Nat.mul_comm y, ← Nat.mul_add_lt_is_or hx, Nat.add_comm]

/-- On bytes, `read_c0` is the little-endian 16-bit value at `p`. -/
theorem read_c0_eq (data : Int → Nat) (hb : ∀ k, data k < 256) (p : Int) :
    read_c0 data p = data p + 256 * data (wrap_int (p + 1)) := by
  have h0 := hb p
  have h1 := hb (wrap_int (p + 1))
  unfold read_c0
  rw [or_shl _ _ 8 (by omega)]
  omega

/-- On bytes, `read_c1` is the little-endian 16-bit value at `p + 2`. -/
theorem read_c1_eq (data : Int → Nat) (hb : ∀ k, data k < 256) (p : Int) :
    read_c1 data p = data (wrap_int (p + 2)) + 256 * data (wrap_int (p + 3)) := by
  have h0 := hb (wrap_int (p + 2))
  have h1 := hb (wrap_int (p + 3))
  unfold read_c1
  rw [or_shl _ _ 8 (by omega)]
  omega

/-- On bytes, `read_ci` is the little-endian 32-bit value at `p + 4`. -/
theorem read_ci_eq (data : Int → Nat) (hb : ∀ k, data k < 256) (p : Int) :
    read_ci data p =
      data (wrap_int (p + 4)) + 256 * data (wrap_int (p + 5)) +
        65536 * data (wrap_int (p + 6)) + 16777216 * data (wrap_int (p + 7)) := by
  have h0 := hb (wrap_int (p + 4))
  have h1 := hb (wrap_int (p + 5))
  have h2 := hb (wrap_int (p + 6))
  have h3 := hb (wrap_int (p + 7))
  unfold read_ci
  rw [or_shl _ _ 8 (by omega), or_shl _ _ 16 (by omega), or_shl _ _ 24 (by omega)]
  omega

/-- The bytes of pixel `(x, y)` after the block loops, from the cursor of its block. -/
theorem dxt_pixel_scan {α : Type} (next : α → α) (bv : α → Nat → Nat → Nat → Nat)
    (body : Nat → Nat → α × Raster → α × Raster)
    (h1 : ∀ y x s, (body y x s).1 = next s.1)
    (hin : ∀ y x s py px ch, py < 4 → px < 4 → ch < 4 →
      (body y x s).2.get (y + py) (4 * (x + px) + ch) = bv s.1 py px ch)
    (hout : ∀ y x s r i, ¬ (y ≤ r ∧ r < y + 4 ∧ x ≤ i / 4 ∧ i / 4 < x + 4) →
      (body y x s).2.get r i = s.2.get r i)
    (w ht : Nat) (a0 : α) (rows : Raster) (x y ch : Nat) (hx : x < w) (hy : y < ht)
    (hch : ch < 4) :
    (forLoop ht 0 ht 4 (fun y s => forLoop w 0 w 4 (fun x s => body y x s) s) (a0, rows)).2.get y
        (4 * x + ch) =
      bv (next^[y / 4 * ((w + 3) / 4) + x / 4] a0) (y % 4) (x % 4) ch := by
  have := dxt_image_scan next bv body h1 hin hout w ht a0 rows y (4 * x + ch) (by omega)
    (by omega)
  have e2 : (4 * x + ch) / 16 = x / 4 := by omega
  have e3 : (4 * x + ch) / 4 % 4 = x % 4 := by omega
  have e4 : (4 * x + ch) % 4 = ch := by omega
  rw [e2, e3, e4] at this
  exact this

/-- The bytes of a pixel after the block loops of `decode_dxt1`; the cursor of its
block is the `int` value of `((y/4) * ((w+3)/4) + x/4) * 8`. -/
theorem dxt1_pixel_get (win : Int → Nat) (w ht : Nat) (rows : Raster) (x y ch : Nat)
    (hx : x < w) (hy : y < ht) (hch : ch < 4) :
    (forLoop ht 0 ht 4 (fun y s => forLoop w 0 w 4 (fun x s => decode_dxt1_body win y x s) s)
        ((0 : Int), rows)).2.get y (4 * x + ch) =
      if ch = 3 then 255
      else col_at
        (dxt_cols (read_c0 win (wrap_int (((y / 4 * ((w + 3) / 4) + x / 4) * 8 : Nat) : Int)))
          (read_c1 win (wrap_int (((y / 4 * ((w + 3) / 4) + x / 4) * 8 : Nat) : Int))))
        ((read_ci win (wrap_int (((y / 4 * ((w + 3) / 4) + x / 4) * 8 : Nat) : Int)) >>>
          (2 * (4 * (y % 4) + x % 4))) &&& 3) ch := by
  have := dxt_pixel_scan (fun q => wrap_int (q + 8))
    (fun p py px ch => if ch = 3 then 255
      else col_at (dxt_cols (read_c0 win p) (read_c1 win p))
        ((read_ci win p >>> (2 * (4 * py + px))) &&& 3) ch)
    (fun y x s => decode_dxt1_body win y x s)
    (fun y x s => (decode_dxt1_body_get win y x s).1)
    (fun y x s => (decode_dxt1_body_get win y x s).2.1)
    (fun y x s => (decode_dxt1_body_get win y x s).2.2) w ht 0 rows x y ch hx hy hch
  rw [iterate_wrap_zero] at this
  rw [this]
  push_cast
  rfl

/-- The bytes of a pixel after the block loops of `decode_dxt3`; the cursor of its
block is the `int` value of `((y/4) * ((w+3)/4) + x/4) * 16`. -/
theorem dxt3_pixel_get (win : Int → Nat) (w ht : Nat) (rows : Raster) (x y ch : Nat)
    (hx : x < w) (hy : y < ht) (hch : ch < 4) :
    (forLoop ht 0 ht 4 (fun y s => forLoop w 0 w 4 (fun x s => decode_dxt3_body win y x s) s)
        ((0 : Int), rows)).2.get y (4 * x + ch) =
      if ch = 3 then
        ((read_le win (wrap_int (((y / 4 * ((w + 3) / 4) + x / 4) * 16 : Nat) : Int)) 8).2 >>>
          (4 * (4 * (y % 4) + x % 4))) &&& 0xF
      else col_at
        (dxt_cols
          (read_c0 win (wrap_int (wrap_int (((y / 4 * ((w + 3) / 4) + x / 4) * 16 : Nat) : Int) + 8)))
          (read_c1 win (wrap_int (wrap_int (((y / 4 * ((w + 3) / 4) + x / 4) * 16 : Nat) : Int) + 8))))
        ((read_ci win (wrap_int (wrap_int (((y / 4 * ((w + 3) / 4) + x / 4) * 16 : Nat) : Int) + 8))
          >>> (2 * (4 * (y % 4) + x % 4))) &&& 3) ch := by
  have := dxt_pixel_scan (fun q => wrap_int (q + 16))
    (fun p py px ch => if ch = 3 then ((read_le win p 8).2 >>> (4 * (4 * py + px))) &&& 0xF
      else col_at (dxt_cols (read_c0 win (wrap_int (p + 8))) (read_c1 win (wrap_int (p + 8))))
        ((read_ci win (wrap_int (p + 8)) >>> (2 * (4 * py + px))) &&& 3) ch)
    (fun y x s => decode_dxt3_body win y x s)
    (fun y x s => (decode_dxt3_body_get win y x s).1)
    (fun y x s => (decode_dxt3_body_get win y x s).2.1)
    (fun y x s => (decode_dxt3_body_get win y x s).2.2) w ht 0 rows x y ch hx hy hch
  rw [iterate_wrap_zero] at this
  rw [this]
  push_cast
  rfl

/-- The bytes of a pixel after the block loops of `decode_dxt5`; the cursor of its
block is the `int` value of `((y/4) * ((w+3)/4) + x/4) * 16`. -/
theorem dxt5_pixel_get (win : Int → Nat) (w ht : Nat) (rows : Raster) (x y ch : Nat)
    (hx : x < w) (hy : y < ht) (hch : ch < 4) :
    (forLoop ht 0 ht 4 (fun y s => forLoop w 0 w 4 (fun x s => decode_dxt5_body win y x s) s)
        ((0 : Int), rows)).2.get y (4 * x + ch) =
      if ch = 3 then 255
      else col_at
        (dxt_cols
          (read_c0 win (wrap_int (wrap_int (((y / 4 * ((w + 3) / 4) + x / 4) * 16 : Nat) : Int) + 8)))
          (read_c1 win (wrap_int (wrap_int (((y / 4 * ((w + 3) / 4) + x / 4) * 16 : Nat) : Int) + 8))))
        ((read_ci win (wrap_int (wrap_int (((y / 4 * ((w + 3) / 4) + x / 4) * 16 : Nat) : Int) + 8))
          >>> (2 * (4 * (y % 4) + x % 4))) &&& 3) ch := by
  have := dxt_pixel_scan (fun q => wrap_int (q + 16))
    (fun p py px ch => if ch = 3 then 255
      else col_at (dxt_cols (read_c0 win (wrap_int (p + 8))) (read_c1 win (wrap_int (p + 8))))
        ((read_ci win (wrap_int (p + 8)) >>> (2 * (4 * py + px))) &&& 3) ch)
    (fun y x s => decode_dxt5_body win y x s)
    (fun y x s => (decode_dxt5_body_get win y x s).1)
    (fun y x s => (decode_dxt5_body_get win y x s).2.1)
    (fun y x s => (decode_dxt5_body_get win y x s).2.2) w ht 0 rows x y ch hx hy hch
  rw [iterate_wrap_zero] at this
  rw [this]
  push_cast
  rfl

/-! ## What the decoders read -/

/-- The little-endian word depends on its own bytes only. -/
theorem le_word_congr (d d' : Nat → Nat) (p n : Nat)
    (h : ∀ q, p ≤ q → q < p + n → d q = d' q) : le_word d p n = le_word d' p n := by
  unfold le_word
  apply foldl_congr_mem
  intro i hi a
  have hin : i < n := List.mem_range.mp hi
  rw [h (p + i) (by omega) (by omega)]

/-- The loop of `read_le` from a cursor of the range of `int` depends on the `n` bytes
at `p`, `p+1`, ... only, the sums being `int`. -/
theorem read_le_congr (d d' : Int → Nat) (p : Int) (hp : wrap_int p = p) (n : Nat)
    (h : ∀ j : Nat, j < n → d (wrap_int (p + j)) = d' (wrap_int (p + j))) :
    read_le d p n = read_le d' p n := by
  unfold read_le
  rw [forLoop_zero_eq_foldl 1 (by decide), forLoop_zero_eq_foldl 1 (by decide)]
  simp only [Nat.add_sub_cancel, Nat.div_one, Nat.one_mul]
  apply foldl_agree
    (fun i (s : Int × Nat) =>
      (wrap_int (s.1 + 1), (s.2 ||| (d s.1 <<< (i * 8))) % 18446744073709551616))
    (fun i (s : Int × Nat) =>
      (wrap_int (s.1 + 1), (s.2 ||| (d' s.1 <<< (i * 8))) % 18446744073709551616))
    (fun q => wrap_int (q + 1))
  · intro k s; rfl
  · intro k s hk hs
    have e := iterate_wrap 1 k p
    rw [hp] at e
    have hs' : s.1 = wrap_int (p + k) := by
      rw [hs, e, Int.mul_one]
    simp only [hs', h k hk]

/-- One block of `decode_dxt1` reads the 8 bytes at the cursor only. -/
theorem decode_dxt1_body_congr (d d' : Int → Nat) (y x : Nat) (s : Int × Raster)
    (hs : wrap_int s.1 = s.1)
    (h : ∀ j : Nat, j < 8 → d (wrap_int (s.1 + j)) = d' (wrap_int (s.1 + j))) :
    decode_dxt1_body d y x s = decode_dxt1_body d' y x s := by
  have h0 := h 0 (by decide)
  have h1 := h 1 (by decide)
  have h2 := h 2 (by decide)
  have h3 := h 3 (by decide)
  have h4 := h 4 (by decide)
  have h5 := h 5 (by decide)
  have h6 := h 6 (by decide)
  have h7 := h 7 (by decide)
  simp only [Nat.cast_zero, Int.add_zero, hs, Nat.cast_one, Nat.cast_ofNat] at h0 h1 h2 h3
  simp only [Nat.cast_ofNat] at h4 h5 h6 h7
  simp only [decode_dxt1_body, read_c0, read_c1, read_ci, h0, h1, h2, h3, h4, h5, h6, h7]

/-- The colour part of a record: the 8 bytes from the cursor `p + 8` on. -/
theorem colour_part_congr (d d' : Int → Nat) (p : Int)
    (h : ∀ j : Nat, j < 16 → d (wrap_int (p + j)) = d' (wrap_int (p + j))) :
    read_c0 d (wrap_int (p + 8)) = read_c0 d' (wrap_int (p + 8)) ∧
    read_c1 d (wrap_int (p + 8)) = read_c1 d' (wrap_int (p + 8)) ∧
    read_ci d (wrap_int (p + 8)) = read_ci d' (wrap_int (p + 8)) := by
  have e : ∀ j m : Int, 8 + j = m → wrap_int (wrap_int (p + 8) + j) = wrap_int (p + m) := by
    intro j m hm
    rw [wrap_int_add_wrap, ← hm, Int.add_assoc]
  have h8 := h 8 (by decide)
  have h9 := h 9 (by decide)
  have h10 := h 10 (by decide)
  have h11 := h 11 (by decide)
  have h12 := h 12 (by decide)
  have h13 := h 13 (by decide)
  have h14 := h 14 (by decide)
  have h15 := h 15 (by decide)
  simp only [Nat.cast_ofNat] at h8 h9 h10 h11 h12 h13 h14 h15
  simp only [read_c0, read_c1, read_ci, e 1 9 (by norm_num), e 2 10 (by norm_num),
    e 3 11 (by norm_num), e 4 12 (by norm_num), e 5 13 (by norm_num), e 6 14 (by norm_num),
    e 7 15 (by norm_num), h8, h9, h10, h11, h12, h13, h14, h15, and_self]

/-- One block of `decode_dxt3` reads the 16 bytes at the cursor only. -/
theorem decode_dxt3_body_congr (d d' : Int → Nat) (y x : Nat) (s : Int × Raster)
    (hs : wrap_int s.1 = s.1)
    (h : ∀ j : Nat, j < 16 → d (wrap_int (s.1 + j)) = d' (wrap_int (s.1 + j))) :
    decode_dxt3_body d y x s = decode_dxt3_body d' y x s := by
  obtain ⟨c0, c1, ci⟩ := colour_part_congr d d' s.1 h
  have hle := read_le_congr d d' s.1 hs 8 (fun j hj => h j (by omega))
  simp only [decode_dxt3_body]
  rw [← hle, read_le_cursor_8, c0, c1, ci]

/-- One block of `decode_dxt5` reads the 16 bytes at the cursor only. -/
theorem decode_dxt5_body_congr (d d' : Int → Nat) (y x : Nat) (s : Int × Raster)
    (hs : wrap_int s.1 = s.1)
    (h : ∀ j : Nat, j < 16 → d (wrap_int (s.1 + j)) = d' (wrap_int (s.1 + j))) :
    decode_dxt5_body d y x s = decode_dxt5_body d' y x s := by
  obtain ⟨c0, c1, ci⟩ := colour_part_congr d d' s.1 h
  have h0 := h 0 (by decide)
  have h1 := h 1 (by decide)
  simp only [Nat.cast_zero, Int.add_zero, hs, Nat.cast_one] at h0 h1
  have hle := read_le_congr d d' (wrap_int (wrap_int (s.1 + 1) + 1)) (wrap_int_idem _) 6
    (fun j hj => by
      have e : wrap_int (wrap_int (wrap_int (s.1 + 1) + 1) + j) =
          wrap_int (s.1 + (2 + j : Nat)) := by
        unfold wrap_int
        push_cast
        omega
      rw [e]
      exact h (2 + j) (by omega))
  simp only [decode_dxt5_body]
  rw [← hle, read_le_cursor_6, c0, c1, ci, h0, h1]

/-- The block loops read the bytes at the `int` indices `0, 1, ...` up to the exact
size `((ht+3)/4) * ((w+3)/4) * S` only. -/
theorem dxt_loops_congr (S : Nat) (body : (Int → Nat) → Nat → Nat → Int × Raster → Int × Raster)
    (d d' : Int → Nat) (hcur : ∀ y x s, (body d y x s).1 = wrap_int (s.1 + S))
    (hc : ∀ y x s, wrap_int s.1 = s.1 →
      (∀ j : Nat, j < S → d (wrap_int (s.1 + j)) = d' (wrap_int (s.1 + j))) →
      body d y x s = body d' y x s)
    (w ht : Nat) (rows : Raster)
    (hagree : ∀ q : Nat, q < (ht + 3) / 4 * ((w + 3) / 4) * S →
      d (wrap_int q) = d' (wrap_int q)) :
    forLoop ht 0 ht 4 (fun y s => forLoop w 0 w 4 (fun x s => body d y x s) s)
        ((0 : Int), rows) =
      forLoop ht 0 ht 4 (fun y s => forLoop w 0 w 4 (fun x s => body d' y x s) s)
        ((0 : Int), rows) := by
  rw [dxt_loop_flat, dxt_loop_flat]
  apply foldl_agree
    (fun k s => body d (4 * (k / ((w + 3) / 4))) (4 * (k % ((w + 3) / 4))) s)
    (fun k s => body d' (4 * (k / ((w + 3) / 4))) (4 * (k % ((w + 3) / 4))) s)
    (fun q => wrap_int (q + S))
  · intro k s; exact hcur _ _ s
  · intro k s hk hs
    have hs' : s.1 = wrap_int (k * S) := by
      rw [hs]; exact iterate_wrap_zero S k
    apply hc
    · rw [hs', wrap_int_idem]
    · intro j hj
      have e : wrap_int (s.1 + j) = wrap_int ((k * S + j : Nat) : Int) := by
        rw [hs', wrap_int_add_wrap]
        exact congrArg wrap_int (by norm_cast)
      rw [e]
      apply hagree
      have : (k + 1) * S ≤ (ht + 3) / 4 * ((w + 3) / 4) * S := Nat.mul_le_mul_right S hk
      rw [Nat.add_mul, Nat.one_mul] at this
      omega

/-- For the six formats the `switch` of `decode_rgba` reads the `pixel_bytes` bytes at
the cursor only; for any other format it reads nothing. -/
theorem rgba_switch_congr (fmt : Int) (d d' : Int → Nat) (p : Int) (hp : wrap_int p = p)
    (h : ∀ j : Nat, j < pixel_bytes fmt → d (wrap_int (p + j)) = d' (wrap_int (p + j))) :
    rgba_switch fmt d p = rgba_switch fmt d' p := by
  have e1 : wrap_int (wrap_int (p + 1) + 1) = wrap_int (p + 2) := by
    rw [wrap_int_add_wrap]; congr 1; ring
  have e2 : wrap_int (wrap_int (p + 2) + 1) = wrap_int (p + 3) := by
    rw [wrap_int_add_wrap]; congr 1; ring
  have three : 3 ≤ pixel_bytes fmt := by unfold pixel_bytes; split <;> decide
  have h0 := h 0 (by omega)
  have h1 := h 1 (by omega)
  have h2 := h 2 (by omega)
  simp only [Nat.cast_zero, Int.add_zero, hp, Nat.cast_one, Nat.cast_ofNat] at h0 h1 h2
  by_cases hf : fmt = IMAGE_FORMAT_RGBA8888 ∨ fmt = IMAGE_FORMAT_ARGB8888 ∨
      fmt = IMAGE_FORMAT_ABGR8888 ∨ fmt = IMAGE_FORMAT_BGRA8888
  · have h3 := h 3 (by simp [pixel_bytes, hf])
    simp only [Nat.cast_ofNat] at h3
    simp only [rgba_switch, e1, e2, h0, h1, h2, h3]
  · simp only [not_or] at hf
    simp only [rgba_switch, e1, e2, h0, h1, h2, hf.1, hf.2.1, hf.2.2.1, hf.2.2.2, if_false]

/-- The pixel loops of `decode_rgba` read the bytes at the `int` indices `0, 1, ...` up
to the exact size `ht * w * pixel_bytes` only. -/
theorem rgba_loops_congr (fmt : Int) (d d' : Int → Nat) (w ht : Nat) (rows : Raster)
    (hagree : ∀ q : Nat, q < ht * w * pixel_bytes fmt → d (wrap_int q) = d' (wrap_int q)) :
    forLoop ht 0 ht 1 (fun y s => forLoop w 0 w 1 (fun x s => decode_rgba_body fmt d y x s) s)
        ((0 : Int), rows) =
      forLoop ht 0 ht 1 (fun y s => forLoop w 0 w 1 (fun x s => decode_rgba_body fmt d' y x s) s)
        ((0 : Int), rows) := by
  by_cases hf : uncompressed fmt
  · rw [rgba_loop_flat, rgba_loop_flat]
    apply foldl_agree (fun k s => decode_rgba_body fmt d (k / w) (k % w) s)
      (fun k s => decode_rgba_body fmt d' (k / w) (k % w) s)
      (fun q => wrap_int (q + pixel_bytes fmt))
    · intro k s
      simp only [decode_rgba_body]
      exact rgba_switch_p fmt hf d s.1
    · intro k s hk hs
      have hs' : s.1 = wrap_int (k * pixel_bytes fmt) := by
        rw [hs]; exact iterate_wrap_zero _ k
      have hread : rgba_switch fmt d s.1 = rgba_switch fmt d' s.1 := by
        apply rgba_switch_congr
        · rw [hs', wrap_int_idem]
        · intro j hj
          have e : wrap_int (s.1 + j) = wrap_int ((k * pixel_bytes fmt + j : Nat) : Int) := by
            rw [hs', wrap_int_add_wrap]
            exact congrArg wrap_int (by norm_cast)
          rw [e]
          apply hagree
          have h3 : (k + 1) * pixel_bytes fmt ≤ ht * w * pixel_bytes fmt :=
            Nat.mul_le_mul_right _ hk
          rw [Nat.add_mul, Nat.one_mul] at h3
          omega
      simp only [decode_rgba_body, hread]
  · have hsw : ∀ p, rgba_switch fmt d p = rgba_switch fmt d' p := by
      intro p
      simp only [uncompressed, not_or] at hf
      simp only [rgba_switch, hf.1, hf.2.1, hf.2.2.1, hf.2.2.2.1, hf.2.2.2.2.1, hf.2.2.2.2.2,
        if_false]
    have hb : ∀ y x s, decode_rgba_body fmt d y x s = decode_rgba_body fmt d' y x s := by
      intro y x s
      simp only [decode_rgba_body, hsw]
    simp only [hb]

/-- A decoder depends on the width, the height, the format and the bytes it reads only:
those at the `int` indices `0, 1, ...` up to the exact frame size, from its pointer
`data`. -/
theorem run_reads_congr (dec : Decoder) (h h' : vtf_header_t) (mem mem' : Mem)
    (endp endp' frame_off frame_off' : Int) (rows : Raster)
    (hw : h.width = h'.width) (hh : h.height = h'.height)
    (hf : h.image_format = h'.image_format)
    (hreads : ∀ q : Nat, (q : Int) < dec.exact_framesize h →
      rd mem (endp - displacement_int (dec.framesize h) frame_off + wrap_int q) =
        rd mem' (endp' - displacement_int (dec.framesize h') frame_off' + wrap_int q)) :
    dec.run h mem endp frame_off rows = dec.run h' mem' endp' frame_off' rows := by
  have hdxt : ∀ S : Nat, ∀ q : Nat, q < (h.height + 3) / 4 * ((h.width + 3) / 4) * S →
      (q : Int) < dxt_framesize h S := by
    intro S q hq
    unfold dxt_framesize
    have : q < (h.width + 3) / 4 * ((h.height + 3) / 4) * S := by
      rw [Nat.mul_comm ((h.width + 3) / 4)]; exact hq
    exact_mod_cast this
  cases dec
  · have hagree : ∀ q : Nat, q < h.height * h.width * pixel_bytes h.image_format →
        rd mem (endp - displacement_int (rgba_framesize_int h) frame_off + wrap_int q) =
          rd mem' (endp' - displacement_int (rgba_framesize_int h') frame_off' + wrap_int q) := by
      intro q hq
      apply hreads
      show (q : Int) < rgba_framesize h
      unfold rgba_framesize
      have : q < h.width * h.height * pixel_bytes h.image_format := by
        rw [Nat.mul_comm h.width]; exact hq
      exact_mod_cast this
    have := rgba_loops_congr h.image_format
      (fun p => rd mem (endp - displacement_int (rgba_framesize_int h) frame_off + p))
      (fun p => rd mem' (endp' - displacement_int (rgba_framesize_int h') frame_off' + p))
      h.width h.height rows hagree
    simp only [Decoder.run, decode_rgba, ← hw, ← hh, ← hf]
    exact congrArg Prod.snd this
  · have := dxt_loops_congr 8 decode_dxt1_body
      (fun p => rd mem (endp - displacement_int (dxt_framesize_int h 8) frame_off + p))
      (fun p => rd mem' (endp' - displacement_int (dxt_framesize_int h' 8) frame_off' + p))
      (fun y x s => rfl)
      (fun y x s hs hq => decode_dxt1_body_congr _ _ y x s hs hq) h.width h.height rows
      (fun q hq => hreads q (hdxt 8 q hq))
    simp only [Decoder.run, decode_dxt1, ← hw, ← hh]
    exact congrArg Prod.snd this
  · have := dxt_loops_congr 16 decode_dxt3_body
      (fun p => rd mem (endp - displacement_int (dxt_framesize_int h 16) frame_off + p))
      (fun p => rd mem' (endp' - displacement_int (dxt_framesize_int h' 16) frame_off' + p))
      (fun y x s => (decode_dxt3_body_get _ y x s).1)
      (fun y x s hs hq => decode_dxt3_body_congr _ _ y x s hs hq)
      h.width h.height rows (fun q hq => hreads q (hdxt 16 q hq))
    simp only [Decoder.run, decode_dxt3, ← hw, ← hh]
    exact congrArg Prod.snd this
  · have := dxt_loops_congr 16 decode_dxt5_body
      (fun p => rd mem (endp - displacement_int (dxt_framesize_int h 16) frame_off + p))
      (fun p => rd mem' (endp' - displacement_int (dxt_framesize_int h' 16) frame_off' + p))
      (fun y x s => (decode_dxt5_body_get _ y x s).1)
      (fun y x s hs hq => decode_dxt5_body_congr _ _ y x s hs hq)
      h.width h.height rows (fun q hq => hreads q (hdxt 16 q hq))
    simp only [Decoder.run, decode_dxt5, ← hw, ← hh]
    exact congrArg Prod.snd this

/-- A frame size whose exact value fits an `int` is computed without wrapping, and
below it the read cursor does not wrap either. -/
theorem framesize_fits (dec : Decoder) (h : vtf_header_t)
    (hfit : dec.exact_framesize h ≤ 2147483647) :
    dec.framesize h = dec.exact_framesize h ∧
    ∀ q : Nat, (q : Int) < dec.exact_framesize h → wrap_int q = q := by
  have key : ∀ (a : Int) (b : Nat), 0 ≤ a → 1 ≤ b → a * b ≤ 2147483647 →
      wrap_int (wrap_int a * b) = a * b := by
    intro a b ha hb hle
    have hb' : (1 : Int) ≤ (b : Int) := by exact_mod_cast hb
    have h2 : a ≤ a * b := le_mul_of_one_le_right ha hb'
    have hab0 : 0 ≤ a * b := Int.mul_nonneg ha (by omega)
    rw [wrap_int_of_range a (by omega) (by omega), wrap_int_of_range _ (by omega) (by omega)]
  have pb1 : 1 ≤ pixel_bytes h.image_format := by
    unfold pixel_bytes; split <;> decide
  refine ⟨?_, fun q hq => wrap_int_of_range _ (by omega) (by omega)⟩
  cases dec
  · exact key ((h.width : Int) * h.height) (pixel_bytes h.image_format)
      (Int.mul_nonneg (Int.ofNat_nonneg _) (Int.ofNat_nonneg _)) pb1 hfit
  · exact key ((((h.width + 3) / 4 : Nat) : Int) * (((h.height + 3) / 4 : Nat) : Int)) 8
      (Int.mul_nonneg (Int.ofNat_nonneg _) (Int.ofNat_nonneg _)) (by decide) hfit
  · exact key ((((h.width + 3) / 4 : Nat) : Int) * (((h.height + 3) / 4 : Nat) : Int)) 16
      (Int.mul_nonneg (Int.ofNat_nonneg _) (Int.ofNat_nonneg _)) (by decide) hfit
  · exact key ((((h.width + 3) / 4 : Nat) : Int) * (((h.height + 3) / 4 : Nat) : Int)) 16
      (Int.mul_nonneg (Int.ofNat_nonneg _) (Int.ofNat_nonneg _)) (by decide) hfit

/-- The number of blocks along a side is the ceiling of the quarter of its length. -/
theorem ceil_quarter (w : Nat) : ⌈(w : ℚ) / 4⌉ = (((w + 3) / 4 : Nat) : ℤ) := by
  obtain ⟨m, hm⟩ : ∃ m, m = (w + 3) / 4 := ⟨_, rfl⟩
  rw [← hm]
  have h1 : w ≤ 4 * m := by omega
  have h2 : 4 * m < w + 4 := by omega
  have h1q : (w : ℚ) ≤ 4 * (m : ℚ) := by exact_mod_cast h1
  have h2q : 4 * (m : ℚ) < (w : ℚ) + 4 := by exact_mod_cast h2
  rw [Int.ceil_eq_iff]
  simp only [Int.cast_natCast]
  constructor <;> linarith

/-- The cast of the block frame size. -/
theorem dxt_framesize_eq (h : vtf_header_t) (S : Nat) :
    ((((h.height + 3) / 4 * ((h.width + 3) / 4) * S : Nat)) : Int) = dxt_framesize h S := by
  unfold dxt_framesize
  push_cast
  ring

/-! ## The record of a pixel, as the decoders address it -/

/-- A byte read is below 256. -/
theorem rd_lt (mem : Mem) (a : Int) : rd mem a < 256 := Nat.mod_lt _ (by decide)

/-- The bytes of a record of 16 bytes are contiguous: the cursor of record `k`, the
`int` value of `k * 16`, is at least 16 below the end of the range of `int`. -/
theorem record16_index (k : Nat) (j : Int) (h0 : 0 ≤ j) (h1 : j < 16) :
    wrap_int (wrap_int ((k * 16 : Nat) : Int) + j) = wrap_int ((k * 16 : Nat) : Int) + j := by
  unfold wrap_int
  push_cast
  omega

/-- The bytes of a record of 8 bytes are contiguous. -/
theorem record8_index (k : Nat) (j : Int) (h0 : 0 ≤ j) (h1 : j < 8) :
    wrap_int (wrap_int ((k * 8 : Nat) : Int) + j) = wrap_int ((k * 8 : Nat) : Int) + j := by
  unfold wrap_int
  push_cast
  omega

/-- The colour part of record `k` of 8 bytes, read at the cursor `o` of the record. -/
theorem record8_colour (win : Int → Nat) (hb : ∀ a, win a < 256) (k : Nat) :
    read_c0 win (wrap_int ((k * 8 : Nat) : Int)) =
      win (wrap_int ((k * 8 : Nat) : Int)) + 256 * win (wrap_int ((k * 8 : Nat) : Int) + 1) ∧
    read_c1 win (wrap_int ((k * 8 : Nat) : Int)) =
      win (wrap_int ((k * 8 : Nat) : Int) + 2) + 256 * win (wrap_int ((k * 8 : Nat) : Int) + 3) ∧
    read_ci win (wrap_int ((k * 8 : Nat) : Int)) =
      win (wrap_int ((k * 8 : Nat) : Int) + 4) + 256 * win (wrap_int ((k * 8 : Nat) : Int) + 5) +
        65536 * win (wrap_int ((k * 8 : Nat) : Int) + 6) +
        16777216 * win (wrap_int ((k * 8 : Nat) : Int) + 7) := by
  rw [read_c0_eq win hb, read_c1_eq win hb, read_ci_eq win hb,
    record8_index k 1 (by norm_num) (by norm_num), record8_index k 2 (by norm_num) (by norm_num),
    record8_index k 3 (by norm_num) (by norm_num), record8_index k 4 (by norm_num) (by norm_num),
    record8_index k 5 (by norm_num) (by norm_num), record8_index k 6 (by norm_num) (by norm_num),
    record8_index k 7 (by norm_num) (by norm_num)]
  exact ⟨rfl, rfl, rfl⟩

/-- The colour part of record `k` of 16 bytes, read at the cursor `o + 8`. -/
theorem record16_colour (win : Int → Nat) (hb : ∀ a, win a < 256) (k : Nat) :
    read_c0 win (wrap_int (wrap_int ((k * 16 : Nat) : Int) + 8)) =
      win (wrap_int ((k * 16 : Nat) : Int) + 8) + 256 * win (wrap_int ((k * 16 : Nat) : Int) + 9) ∧
    read_c1 win (wrap_int (wrap_int ((k * 16 : Nat) : Int) + 8)) =
      win (wrap_int ((k * 16 : Nat) : Int) + 10) +
        256 * win (wrap_int ((k * 16 : Nat) : Int) + 11) ∧
    read_ci win (wrap_int (wrap_int ((k * 16 : Nat) : Int) + 8)) =
      win (wrap_int ((k * 16 : Nat) : Int) + 12) +
        256 * win (wrap_int ((k * 16 : Nat) : Int) + 13) +
        65536 * win (wrap_int ((k * 16 : Nat) : Int) + 14) +
        16777216 * win (wrap_int ((k * 16 : Nat) : Int) + 15) := by
  have e : ∀ j m : Int, 0 ≤ j → 8 + j = m → m < 16 →
      wrap_int (wrap_int (wrap_int ((k * 16 : Nat) : Int) + 8) + j) =
        wrap_int ((k * 16 : Nat) : Int) + m := by
    intro j m hj hm hlt
    rw [wrap_int_add_wrap, Int.add_assoc, hm, record16_index k m (by omega) hlt]
  rw [read_c0_eq win hb, read_c1_eq win hb, read_ci_eq win hb,
    e 1 9 (by norm_num) (by norm_num) (by norm_num),
    e 2 10 (by norm_num) (by norm_num) (by norm_num),
    e 3 11 (by norm_num) (by norm_num) (by norm_num),
    e 4 12 (by norm_num) (by norm_num) (by norm_num),
    e 5 13 (by norm_num) (by norm_num) (by norm_num),
    e 6 14 (by norm_num) (by norm_num) (by norm_num),
    e 7 15 (by norm_num) (by norm_num) (by norm_num),
    record16_index k 8 (by norm_num) (by norm_num)]
  exact ⟨rfl, rfl, rfl⟩

/-- The alpha word of record `k` of 16 bytes: the little-endian word of its first 8
bytes. -/
theorem record16_alpha (win : Int → Nat) (hb : ∀ a, win a < 256) (k : Nat) :
    (read_le win (wrap_int ((k * 16 : Nat) : Int)) 8).2 =
      le_word (fun i => win (wrap_int ((k * 16 : Nat) : Int) + i)) 0 8 := by
  rw [read_le_eq win hb _ (wrap_int_idem _) 8 (by decide)]
  apply le_word_congr
  intro q _ hq
  show win (wrap_int (wrap_int ((k * 16 : Nat) : Int) + q)) = _
  rw [record16_index k q (by omega) (by omega)]

/-- The R, G, B of a pixel after `decode_dxt1`, from the record of its block: the 8
bytes at `data + o`, with `o` the `int` value of `((y/4) * ((w+3)/4) + x/4) * 8`. -/
theorem decode_dxt1_record (h : vtf_header_t) (mem : Mem) (endp frame_off : Int)
    (rows : Raster) (x y ch : Nat) (hx : x < h.width) (hy : y < h.height) (hch : ch < 3) :
    let win : Int → Nat :=
      fun p => rd mem (endp - displacement_int (dxt_framesize_int h 8) frame_off + p)
    let o := wrap_int (((y / 4 * ((h.width + 3) / 4) + x / 4) * 8 : Nat) : Int)
    (decode_dxt1 h mem endp frame_off rows).get y (4 * x + ch) =
      col_at (dxt_cols (win o + 256 * win (o + 1)) (win (o + 2) + 256 * win (o + 3)))
        (((win (o + 4) + 256 * win (o + 5) + 65536 * win (o + 6) + 16777216 * win (o + 7)) >>>
          (2 * (4 * (y % 4) + x % 4))) &&& 3) ch := by
  intro win o
  have := dxt1_pixel_get win h.width h.height rows x y ch hx hy (by omega)
  obtain ⟨e0, e1, ei⟩ := record8_colour win (fun a => rd_lt _ _) (y / 4 * ((h.width + 3) / 4) + x / 4)
  rw [if_neg (by omega), e0, e1, ei] at this
  exact this

/-- The bytes of a pixel after `decode_dxt3`, from the record of its block: the 16
bytes at `data + o`, with `o` the `int` value of `((y/4) * ((w+3)/4) + x/4) * 16`. -/
theorem decode_dxt3_record (h : vtf_header_t) (mem : Mem) (endp frame_off : Int)
    (rows : Raster) (x y : Nat) (hx : x < h.width) (hy : y < h.height) :
    let win : Int → Nat :=
      fun p => rd mem (endp - displacement_int (dxt_framesize_int h 16) frame_off + p)
    let o := wrap_int (((y / 4 * ((h.width + 3) / 4) + x / 4) * 16 : Nat) : Int)
    (decode_dxt3 h mem endp frame_off rows).get y (4 * x + 3) =
      (le_word (fun i => win (o + i)) 0 8 >>> (4 * (4 * (y % 4) + x % 4))) &&& 0xF ∧
    ∀ ch, ch < 3 →
      (decode_dxt3 h mem endp frame_off rows).get y (4 * x + ch) =
        col_at (dxt_cols (win (o + 8) + 256 * win (o + 9)) (win (o + 10) + 256 * win (o + 11)))
          (((win (o + 12) + 256 * win (o + 13) + 65536 * win (o + 14) +
            16777216 * win (o + 15)) >>> (2 * (4 * (y % 4) + x % 4))) &&& 3) ch := by
  intro win o
  obtain ⟨e0, e1, ei⟩ :=
    record16_colour win (fun a => rd_lt _ _) (y / 4 * ((h.width + 3) / 4) + x / 4)
  refine ⟨?_, ?_⟩
  · have := dxt3_pixel_get win h.width h.height rows x y 3 hx hy (by decide)
    rw [if_pos rfl, record16_alpha win (fun a => rd_lt _ _)] at this
    exact this
  · intro ch hch
    have := dxt3_pixel_get win h.width h.height rows x y ch hx hy (by omega)
    rw [if_neg (by omega), e0, e1, ei] at this
    exact this

/-- The R, G, B of a pixel after `decode_dxt5`, from the record of its block: the 16
bytes at `data + o`, with `o` the `int` value of `((y/4) * ((w+3)/4) + x/4) * 16`. -/
theorem decode_dxt5_record (h : vtf_header_t) (mem : Mem) (endp frame_off : Int)
    (rows : Raster) (x y ch : Nat) (hx : x < h.width) (hy : y < h.height) (hch : ch < 3) :
    let win : Int → Nat :=
      fun p => rd mem (endp - displacement_int (dxt_framesize_int h 16) frame_off + p)
    let o := wrap_int (((y / 4 * ((h.width + 3) / 4) + x / 4) * 16 : Nat) : Int)
    (decode_dxt5 h mem endp frame_off rows).get y (4 * x + ch) =
      col_at (dxt_cols (win (o + 8) + 256 * win (o + 9)) (win (o + 10) + 256 * win (o + 11)))
        (((win (o + 12) + 256 * win (o + 13) + 65536 * win (o + 14) +
          16777216 * win (o + 15)) >>> (2 * (4 * (y % 4) + x % 4))) &&& 3) ch := by
  intro win o
  have := dxt5_pixel_get win h.width h.height rows x y ch hx hy (by omega)
  obtain ⟨e0, e1, ei⟩ :=
    record16_colour win (fun a => rd_lt _ _) (y / 4 * ((h.width + 3) / 4) + x / 4)
  rw [if_neg (by omega), e0, e1, ei] at this
  exact this

/-- The bytes of a pixel after `decode_rgba`, for the six formats: the locals of the
`switch` run at the cursor `o`, the `int` value of `(y*w + x) * pixel_bytes`. -/
theorem decode_rgba_record (h : vtf_header_t) (hf : uncompressed h.image_format) (mem : Mem)
    (endp frame_off : Int) (rows : Raster) (x y j : Nat) (hx : x < h.width)
    (hy : y < h.height) (hj : j < 4) :
    (decode_rgba h mem endp frame_off rows).get y (4 * x + j) =
      (rgba_switch h.image_format
        (fun p => rd mem (endp - displacement_int (rgba_framesize_int h) frame_off + p))
        (wrap_int (((y * h.width + x) * pixel_bytes h.image_format : Nat) : Int))).chan j := by
  have e1 : (4 * x + j) / 4 = x := by omega
  have e2 : (4 * x + j) % 4 = j := by omega
  have := rgba_image h.image_format hf
    (fun p => rd mem (endp - displacement_int (rgba_framesize_int h) frame_off + p))
    h.width h.height rows y (4 * x + j) hy (by rw [e1]; exact hx)
  rw [e1, e2] at this
  exact this

/-- The bytes of a pixel lie below the frame size. -/
theorem pixel_offset_le (w ht pb x y : Nat) (hx : x < w) (hy : y < ht) :
    (y * w + x) * pb + pb ≤ w * ht * pb := by
  have h1 : y * w + x + 1 ≤ ht * w := by
    have : (y + 1) * w ≤ ht * w := Nat.mul_le_mul_right w hy
    rw [Nat.add_mul, Nat.one_mul] at this
    omega
  have := Nat.mul_le_mul_right pb h1
  rw [Nat.add_mul, Nat.one_mul, Nat.mul_comm ht w] at this
  exact this

/-! ## The payload start -/

/-- When the frame size and its product with a frame offset that is not negative fit an
`int`, the displacement is the exact product. -/
theorem displacement_fits (dec : Decoder) (h : vtf_header_t) (fo : Int) (h0 : 0 ≤ fo)
    (hfs : dec.exact_framesize h ≤ 2147483647)
    (hfit : dec.exact_framesize h * fo ≤ 2147483647) :
    displacement_int (dec.framesize h) fo = dec.exact_framesize h * fo := by
  have hnn : 0 ≤ dec.exact_framesize h := by
    cases dec <;>
      simp only [Decoder.exact_framesize, rgba_framesize, dxt_framesize] <;> positivity
  rw [(framesize_fits dec h hfs).1]
  unfold displacement_int
  exact wrap_int_of_range _ (by have := Int.mul_nonneg hnn h0; omega) hfit

/-- What `main` does when the format selects a decoder: the decoder runs on the bytes
found from its pointer `data` on. -/
theorem main_from_start (mem : Mem) (sz frame : Int) (dec : Decoder)
    (hd : dispatch (header_view mem).image_format = some dec) :
    main mem sz frame =
      Outcome.decoded dec
        (dec.run (header_view mem) (fun a => mem (dec.start mem sz frame + a)) 0 0
          (Raster.alloc (header_view mem).height (header_view mem).width)) := by
  rw [main_eq, hd]
  exact congrArg (Outcome.decoded dec) (run_from_start dec _ mem _ _ _)

/-! # The claims -/

/-- Claim C1, evaluated on a 4x4 DXT5 image made of the one record `ex_dxt5_block`:
the alpha endpoints 16 and 32 give the palette 16, 32, 19, 22, 25, 28, 0, 255 and pixel
(2,0) carries alpha index 2, so the alpha the claim states for it is 19; `decode_dxt5`
leaves 255 there, and in the alpha byte of each of the sixteen pixels, because
`decode_dxt_colors` runs after the alpha loop and stores 255 into every alpha byte. -/
theorem decode_dxt5_alpha_lost :
    dxt5_avals (rd (mem_of ex_dxt5_block) 0) (rd (mem_of ex_dxt5_block) 1) =
      [16, 32, 19, 22, 25, 28, 0, 255] ∧
    (le_word (fun p : Nat => rd (mem_of ex_dxt5_block) (p : Int)) 2 6 >>>
      (3 * (4 * (0 % 4) + 2 % 4))) &&& 7 = 2 ∧
    (decode_dxt5 (ex_header 4 4 IMAGE_FORMAT_DXT5) (mem_of ex_dxt5_block) 16 1
      (Raster.alloc 4 4)).get 0 (4 * 2 + 3) = 255 ∧
    (List.range 4).all (fun y => (List.range 4).all (fun x =>
      (decode_dxt5 (ex_header 4 4 IMAGE_FORMAT_DXT5) (mem_of ex_dxt5_block) 16 1
        (Raster.alloc 4 4)).get y (4 * x + 3) == 255)) = true := by
  decide

set_option maxRecDepth 1000000 in
/-- Claim C2, evaluated on a 5x5 image whose payload is all zero: `decode_dxt1` stores
to `rows[4][20]`, the first byte of column 5, and to `rows[5][0]`, in row 5, both outside
the 5x5 raster; of its 256 stores 156 fall outside the raster, and 195 of the 320 stores
of `decode_dxt3` and of `decode_dxt5` do. No store is clipped. -/
theorem dxt_stores_outside_5x5 :
    (⟨4, 20, 0⟩ : Store) ∈ (decode_dxt1 (ex_header 5 5 IMAGE_FORMAT_DXT1)
      (mem_of (List.replicate 32 0)) 32 1 (Raster.alloc 5 5)).stores ∧
    (⟨5, 0, 0⟩ : Store) ∈ (decode_dxt1 (ex_header 5 5 IMAGE_FORMAT_DXT1)
      (mem_of (List.replicate 32 0)) 32 1 (Raster.alloc 5 5)).stores ∧
    (decode_dxt1 (ex_header 5 5 IMAGE_FORMAT_DXT1) (mem_of (List.replicate 32 0)) 32 1
      (Raster.alloc 5 5)).stores.length = 256 ∧
    ((decode_dxt1 (ex_header 5 5 IMAGE_FORMAT_DXT1) (mem_of (List.replicate 32 0)) 32 1
      (Raster.alloc 5 5)).stores.filter (Store.outside 5 5)).length = 156 ∧
    ((decode_dxt3 (ex_header 5 5 IMAGE_FORMAT_DXT3) (mem_of (List.replicate 64 0)) 64 1
      (Raster.alloc 5 5)).stores.filter (Store.outside 5 5)).length = 195 ∧
    ((decode_dxt5 (ex_header 5 5 IMAGE_FORMAT_DXT5) (mem_of (List.replicate 64 0)) 64 1
      (Raster.alloc 5 5)).stores.filter (Store.outside 5 5)).length = 195 := by
  refine ⟨by decide, by decide, by decide, by decide, by decide, by decide⟩

/-- Claim C3 fails on a 65535x65535 RGBA8888 image (frame offset 1, `end` at 0). The
frame size `w * ht * 4`, exactly 17179344900, is -524284 as an `int`, so `data` is
`end + 524284`. Pixel (8192, 8192) is pixel number 2^29 in raster order and the claim
places its bytes at window offset 2^31; the cursor `p`, an `int`, is -2^31 there, and
`decode_rgba` reads `data[-2147483648]`. In a memory that holds 7 at that byte and 0
everywhere else the R of the pixel is 7, while the byte at offset 2^31 of the window is
0, whether the window starts at `data` or at `end - 17179344900`. -/
theorem cursor_wraps_rgba :
    rgba_framesize (ex_header 65535 65535 IMAGE_FORMAT_RGBA8888) = 17179344900 ∧
    rgba_framesize_int (ex_header 65535 65535 IMAGE_FORMAT_RGBA8888) = -524284 ∧
    (8192 * 65535 + 8192) * 4 = 2147483648 ∧
    wrap_int 2147483648 = -2147483648 ∧
    (decode_rgba (ex_header 65535 65535 IMAGE_FORMAT_RGBA8888)
      (ex_marked [0 - (-524284) + (-2147483648)] 7) 0 1
      (Raster.alloc 65535 65535)).get 8192 (4 * 8192 + 0) = 7 ∧
    rd (ex_marked [0 - (-524284) + (-2147483648)] 7) (0 - (-524284) + 2147483648) = 0 ∧
    rd (ex_marked [0 - (-524284) + (-2147483648)] 7) (0 - 17179344900 * 1 + 2147483648) = 0 := by
  refine ⟨by decide, by decide, by decide, by decide, ?_, by decide, by decide⟩
  rw [decode_rgba_record _ (Or.inl rfl) _ _ _ _ 8192 8192 0 (by decide) (by decide) (by decide)]
  decide

/-- Claim C3 as amended. For each of the six uncompressed formats, every header and every
pixel `(x, y)` with `x < width` and `y < height` whose bytes lie at window offsets that fit
an `int`, that is `(y*width + x) * pixel_bytes + pixel_bytes <= 2^31` (every pixel when
`width * height * pixel_bytes <= 2^31`), and whatever the payload bytes are, `decode_rgba`
leaves in `rows[y][4x .. 4x+3]` the R, G, B, A taken from the bytes at window offset
`(y*width + x) * pixel_bytes` in the channel order of the format: RGBA8888 reads r,g,b,a;
ARGB8888 a,r,g,b; ABGR8888 a,b,g,r; BGRA8888 b,g,r,a, four bytes each; RGB888 r,g,b and
BGR888 b,g,r, three bytes each, both with A = 255. The window starts at the pointer
`data = end - framesize*frame_off` of the decoder, the product being an `int`: the exact
product `width*height*pixel_bytes*frame_off` when it fits an `int` and the frame offset
is not negative. The corner pixels are the cases `x = 0` or `width - 1`, `y = 0` or
`height - 1`. -/
theorem decode_rgba_pixel (h : vtf_header_t) (mem : Mem) (endp frame_off : Int) (rows : Raster)
    (x y : Nat) (hx : x < h.width) (hy : y < h.height)
    (hoff : (y * h.width + x) * pixel_bytes h.image_format + pixel_bytes h.image_format ≤
      2147483648) :
    let win : Nat → Nat :=
      fun k => rd mem (endp - displacement_int (rgba_framesize_int h) frame_off + k)
    let o := (y * h.width + x) * pixel_bytes h.image_format
    let out := decode_rgba h mem endp frame_off rows
    (h.image_format = IMAGE_FORMAT_RGBA8888 → pixel_bytes h.image_format = 4 ∧
      out.get y (4 * x + 0) = win o ∧ out.get y (4 * x + 1) = win (o + 1) ∧
      out.get y (4 * x + 2) = win (o + 2) ∧ out.get y (4 * x + 3) = win (o + 3)) ∧
    (h.image_format = IMAGE_FORMAT_ARGB8888 → pixel_bytes h.image_format = 4 ∧
      out.get y (4 * x + 0) = win (o + 1) ∧ out.get y (4 * x + 1) = win (o + 2) ∧
      out.get y (4 * x + 2) = win (o + 3) ∧ out.get y (4 * x + 3) = win o) ∧
    (h.image_format = IMAGE_FORMAT_ABGR8888 → pixel_bytes h.image_format = 4 ∧
      out.get y (4 * x + 0) = win (o + 3) ∧ out.get y (4 * x + 1) = win (o + 2) ∧
      out.get y (4 * x + 2) = win (o + 1) ∧ out.get y (4 * x + 3) = win o) ∧
    (h.image_format = IMAGE_FORMAT_BGRA8888 → pixel_bytes h.image_format = 4 ∧
      out.get y (4 * x + 0) = win (o + 2) ∧ out.get y (4 * x + 1) = win (o + 1) ∧
      out.get y (4 * x + 2) = win o ∧ out.get y (4 * x + 3) = win (o + 3)) ∧
    (h.image_format = IMAGE_FORMAT_RGB888 → pixel_bytes h.image_format = 3 ∧
      out.get y (4 * x + 0) = win o ∧ out.get y (4 * x + 1) = win (o + 1) ∧
      out.get y (4 * x + 2) = win (o + 2) ∧ out.get y (4 * x + 3) = 255) ∧
    (h.image_format = IMAGE_FORMAT_BGR888 → pixel_bytes h.image_format = 3 ∧
      out.get y (4 * x + 0) = win (o + 2) ∧ out.get y (4 * x + 1) = win (o + 1) ∧
      out.get y (4 * x + 2) = win o ∧ out.get y (4 * x + 3) = 255) ∧
    (0 ≤ frame_off → rgba_framesize h ≤ 2147483647 →
      rgba_framesize h * frame_off ≤ 2147483647 →
      displacement_int (rgba_framesize_int h) frame_off = rgba_framesize h * frame_off) := by
  intro win o out
  have three_le : 3 ≤ pixel_bytes h.image_format := by unfold pixel_bytes; split <;> decide
  have ho3 : o + 3 ≤ 2147483648 := by
    have : o + pixel_bytes h.image_format ≤ 2147483648 := hoff
    omega
  have wr : ∀ N : Nat, N + 3 ≤ 2147483648 → wrap_int (N : Int) = N :=
    fun N hN => wrap_int_of_range _ (by omega) (by omega)
  have key : ∀ (hf : uncompressed h.image_format) (j : Nat), j < 4 →
      out.get y (4 * x + j) =
        (rgba_switch h.image_format
          (fun p => rd mem (endp - displacement_int (rgba_framesize_int h) frame_off + p))
          ((o : Nat) : Int)).chan j := by
    intro hf j hj
    have := decode_rgba_record h hf mem endp frame_off rows x y j hx hy hj
    rw [wr _ ho3] at this
    exact this
  have w1 : ∀ k : Int, (o : Int) + k ≤ 2147483647 → 0 ≤ k → wrap_int ((o : Int) + k) = o + k :=
    fun k hk h0 => wrap_int_of_range _ (by omega) hk
  have hwin : ∀ k : Nat, win (o + k) =
      rd mem (endp - displacement_int (rgba_framesize_int h) frame_off + ((o : Int) + k)) := by
    intro k
    show rd mem _ = rd mem _
    push_cast
    rfl
  have hwin0 : win o =
      rd mem (endp - displacement_int (rgba_framesize_int h) frame_off + (o : Int)) := rfl
  have a1 : wrap_int ((o : Int) + 1) = o + 1 := w1 1 (by omega) (by omega)
  have a2 : wrap_int ((o : Int) + 1 + 1) = o + 2 := by
    rw [Int.add_assoc]; exact w1 2 (by omega) (by omega)
  have a3 : pixel_bytes h.image_format = 4 → wrap_int ((o : Int) + 2 + 1) = o + 3 := by
    intro hp
    have ho' : o + pixel_bytes h.image_format ≤ 2147483648 := hoff
    rw [hp] at ho'
    rw [Int.add_assoc]; exact w1 3 (by omega) (by omega)
  have h1 := hwin 1
  have h2 := hwin 2
  have h3 := hwin 3
  simp only [Nat.cast_one, Nat.cast_ofNat] at h1 h2 h3
  refine ⟨?_, ?_, ?_, ?_, ?_, ?_,
    fun h0 hfs hfit => displacement_fits Decoder.rgba h frame_off h0 hfs hfit⟩
  all_goals
    intro hfmt
    have hf : uncompressed h.image_format := by simp [uncompressed, hfmt]
    rw [key hf 0 (by decide), key hf 1 (by decide), key hf 2 (by decide), key hf 3 (by decide)]
    simp only [hwin0, h1, h2, h3]
    first
    | (have hp : pixel_bytes h.image_format = 4 := by simp [pixel_bytes, hfmt]
       simp [rgba_switch, RgbaPixel.chan, hfmt, a1, a2, a3 hp, pixel_bytes])
    | simp [rgba_switch, RgbaPixel.chan, hfmt, a1, a2, pixel_bytes]

/-- Claim C3 as amended, at the corner pixel (1,1) of a 2x2 image. With four-byte pixels
its bytes are 40, 41, 42, 43: RGBA8888 gives R = 40 and A = 43, ARGB8888 gives R = 41 and
A = 40. With three-byte pixels the window starts 12 bytes before the end and the bytes of
the pixel are 41, 42, 43: BGR888 gives R = 43, B = 41 and A = 255. -/
theorem decode_rgba_pixel_witness :
    (1 < (ex_header 2 2 IMAGE_FORMAT_RGBA8888).width ∧
      1 < (ex_header 2 2 IMAGE_FORMAT_RGBA8888).height ∧
      (1 * (ex_header 2 2 IMAGE_FORMAT_RGBA8888).width + 1) *
          pixel_bytes (ex_header 2 2 IMAGE_FORMAT_RGBA8888).image_format +
        pixel_bytes (ex_header 2 2 IMAGE_FORMAT_RGBA8888).image_format ≤ 2147483648) ∧
    (decode_rgba (ex_header 2 2 IMAGE_FORMAT_RGBA8888) (mem_of ex_rgba_payload) 16 1
        (Raster.alloc 2 2)).get 1 (4 * 1 + 0) = 40 ∧
    (decode_rgba (ex_header 2 2 IMAGE_FORMAT_RGBA8888) (mem_of ex_rgba_payload) 16 1
        (Raster.alloc 2 2)).get 1 (4 * 1 + 3) = 43 ∧
    (decode_rgba (ex_header 2 2 IMAGE_FORMAT_ARGB8888) (mem_of ex_rgba_payload) 16 1
        (Raster.alloc 2 2)).get 1 (4 * 1 + 0) = 41 ∧
    (decode_rgba (ex_header 2 2 IMAGE_FORMAT_ARGB8888) (mem_of ex_rgba_payload) 16 1
        (Raster.alloc 2 2)).get 1 (4 * 1 + 3) = 40 ∧
    (decode_rgba (ex_header 2 2 IMAGE_FORMAT_BGR888) (mem_of ex_rgba_payload) 16 1
        (Raster.alloc 2 2)).get 1 (4 * 1 + 0) = 43 ∧
    (decode_rgba (ex_header 2 2 IMAGE_FORMAT_BGR888) (mem_of ex_rgba_payload) 16 1
        (Raster.alloc 2 2)).get 1 (4 * 1 + 2) = 41 ∧
    (decode_rgba (ex_header 2 2 IMAGE_FORMAT_BGR888) (mem_of ex_rgba_payload) 16 1
        (Raster.alloc 2 2)).get 1 (4 * 1 + 3) = 255 :=
  have t0 := (decode_rgba_pixel (ex_header 2 2 IMAGE_FORMAT_RGBA8888) (mem_of ex_rgba_payload)
    16 1 (Raster.alloc 2 2) 1 1 (by decide) (by decide) (by decide)).1 rfl
  have t1 := (decode_rgba_pixel (ex_header 2 2 IMAGE_FORMAT_ARGB8888) (mem_of ex_rgba_payload)
    16 1 (Raster.alloc 2 2) 1 1 (by decide) (by decide) (by decide)).2.1 rfl
  have t5 := (decode_rgba_pixel (ex_header 2 2 IMAGE_FORMAT_BGR888) (mem_of ex_rgba_payload)
    16 1 (Raster.alloc 2 2) 1 1 (by decide) (by decide) (by decide)).2.2.2.2.2.1 rfl
  ⟨by decide, t0.2.1.trans (by decide), t0.2.2.2.2.trans (by decide),
    t1.2.1.trans (by decide), t1.2.2.2.2.trans (by decide),
    t5.2.1.trans (by decide), t5.2.2.2.1.trans (by decide), t5.2.2.2.2⟩

/-- Claim C6 fails. On the file of three 1x1 frames (92 bytes) with requested frame 4 the
frame offset is 0 and the payload start is 92: the window `[92, 96)` lies past the 92
bytes of the buffer, yet `main` calls `decode_rgba`, which reads the four bytes found
after the end of the file (0 in the mapping) into the pixel. On a file cut after the
header of an 8x8 RGBA8888 image (80 bytes) the payload start is `80 - 256 = -176`, below
the buffer, and `decode_rgba` is called as well. No range failure exists. -/
theorem window_outside_buffer_decodes :
    foff (header_view (mem_of ex_three_frames)) 4 = 0 ∧
    Decoder.rgba.start (mem_of ex_three_frames) 92 4 = 92 ∧
    Decoder.rgba.framesize (header_view (mem_of ex_three_frames)) = 4 ∧
    (main (mem_of ex_three_frames) 92 4).decoder = some Decoder.rgba ∧
    (main (mem_of ex_three_frames) 92 4).pixel 0 0 = some 0 ∧
    Decoder.rgba.framesize (header_view (mem_of ex_header_only)) = 256 ∧
    Decoder.rgba.start (mem_of ex_header_only) 80 1 = -176 ∧
    (main (mem_of ex_header_only) 80 1).decoder = some Decoder.rgba := by
  decide

/-- Claim C6 as amended. The payload start is `img_end - framesize*foff`, the frame size
and the product being the `int` values the decoder computes (the exact product when the
frame size and the product fit an `int` and the frame offset is not negative). It is not
checked: whenever `image_format` selects a decoder, `main` calls that decoder, which
takes its pixel data from that start on, whether or not the start is negative or the
window lies in the buffer. -/
theorem payload_start_unchecked (mem : Mem) (sz frame : Int) (dec : Decoder)
    (hd : dispatch (header_view mem).image_format = some dec) :
    dec.start mem sz frame =
      img_end (header_view mem) mem sz -
        displacement_int (dec.framesize (header_view mem)) (foff (header_view mem) frame) ∧
    (0 ≤ foff (header_view mem) frame →
      dec.exact_framesize (header_view mem) ≤ 2147483647 →
      dec.exact_framesize (header_view mem) * foff (header_view mem) frame ≤ 2147483647 →
      dec.start mem sz frame =
        img_end (header_view mem) mem sz -
          dec.exact_framesize (header_view mem) * foff (header_view mem) frame) ∧
    (main mem sz frame).decoder = some dec ∧
    main mem sz frame =
      Outcome.decoded dec
        (dec.run (header_view mem) (fun a => mem (dec.start mem sz frame + a)) 0 0
          (Raster.alloc (header_view mem).height (header_view mem).width)) := by
  refine ⟨rfl, ?_, ?_, main_from_start mem sz frame dec hd⟩
  · intro h0 hfs hfit
    unfold Decoder.start
    rw [displacement_fits dec _ _ h0 hfs hfit]
  · rw [main_decoder, hd]

/-- Claim C6 as amended, on the file of three 1x1 frames with requested frame 4 (start
92, past the end of the buffer) and with requested frame 2 (frame offset 2, start
`92 - 4 * 2 = 84`), and on the 1x1 file of 84 bytes with requested frame -1073741823: the
frame offset is 1073741825, the product `4 * 1073741825` is 4 as an `int`, the start is
80 and the pixel is the one stored at offsets 80..83. -/
theorem payload_start_unchecked_witness :
    dispatch (header_view (mem_of ex_three_frames)).image_format = some Decoder.rgba ∧
    (0 ≤ foff (header_view (mem_of ex_three_frames)) 2 ∧
      Decoder.rgba.exact_framesize (header_view (mem_of ex_three_frames)) ≤ 2147483647 ∧
      Decoder.rgba.exact_framesize (header_view (mem_of ex_three_frames)) *
        foff (header_view (mem_of ex_three_frames)) 2 ≤ 2147483647) ∧
    Decoder.rgba.start (mem_of ex_three_frames) 92 2 = 84 ∧
    main (mem_of ex_three_frames) 92 4 =
      Outcome.decoded Decoder.rgba
        (Decoder.rgba.run (header_view (mem_of ex_three_frames))
          (fun a => mem_of ex_three_frames (Decoder.rgba.start (mem_of ex_three_frames) 92 4 + a))
          0 0
          (Raster.alloc (header_view (mem_of ex_three_frames)).height
            (header_view (mem_of ex_three_frames)).width)) ∧
    dispatch (header_view (mem_of (ex_signed [86, 84, 70, 0]))).image_format =
      some Decoder.rgba ∧
    foff (header_view (mem_of (ex_signed [86, 84, 70, 0]))) (-1073741823) = 1073741825 ∧
    Decoder.rgba.start (mem_of (ex_signed [86, 84, 70, 0])) 84 (-1073741823) = 80 ∧
    (main (mem_of (ex_signed [86, 84, 70, 0])) 84 (-1073741823)).pixel 0 0 = some 10 ∧
    (main (mem_of (ex_signed [86, 84, 70, 0])) 84 (-1073741823)).decoder = some Decoder.rgba :=
  ⟨by decide, by decide,
    ((payload_start_unchecked (mem_of ex_three_frames) 92 2 Decoder.rgba (by decide)).2.1
      (by decide) (by decide) (by decide)).trans (by decide),
    (payload_start_unchecked (mem_of ex_three_frames) 92 4 Decoder.rgba (by decide)).2.2.2,
    by decide, by decide, by decide, by decide,
    (payload_start_unchecked (mem_of (ex_signed [86, 84, 70, 0])) 84 (-1073741823) Decoder.rgba
      (by decide)).2.2.1⟩

/-- Claim C7 fails. Two 84-byte files that differ only in their first four bytes,
`0 0 0 0` and `V T F 0`, are both decoded by `decode_rgba` to the same pixel: whatever the
magic signature is, one of the two does not carry it, and no failure occurs. -/
theorem bad_signature_decodes :
    (header_view (mem_of (ex_signed [0, 0, 0, 0]))).signature = [0, 0, 0, 0] ∧
    (main (mem_of (ex_signed [0, 0, 0, 0])) 84 1).decoder = some Decoder.rgba ∧
    (main (mem_of (ex_signed [0, 0, 0, 0])) 84 1).pixel 0 0 = some 10 ∧
    (header_view (mem_of (ex_signed [86, 84, 70, 0]))).signature = [86, 84, 70, 0] ∧
    (main (mem_of (ex_signed [86, 84, 70, 0])) 84 1).decoder = some Decoder.rgba ∧
    (main (mem_of (ex_signed [86, 84, 70, 0])) 84 1).pixel 0 0 = some 10 := by
  decide

/-- Claim C7 as amended. The header view never fails and the signature is never looked
at. Every field of the header is the value stored at its packed offset: the signature at
0, the version at 4 and 8, `header_size` at 12, `width` at 16, `height` at 18, `flags` at
20, `frames` at 24, `first_frame` at 26, `image_format` at 52, `mipmap_count` at 56,
`low_image_format` at 57, `low_width` at 61, `low_height` at 62, `depth` at 63 and
`numResources` at 68. Two buffers that agree from offset 4 on have the same value in
every field but the signature, the same end of image data, the same frame offset and the
same payload start, and `main` calls the same decoder (or fails on the format) for
both. -/
theorem signature_ignored (mem mem' : Mem) (sz frame : Int)
    (hsame : ∀ a : Int, 4 ≤ a → mem a = mem' a) :
    ((header_view mem).signature = [rd mem 0, rd mem 1, rd mem 2, rd mem 3] ∧
      (header_view mem).version = [rd32 mem 4, rd32 mem 8] ∧
      (header_view mem).header_size = rd32 mem 12 ∧
      (header_view mem).width = rd16 mem 16 ∧
      (header_view mem).height = rd16 mem 18 ∧
      (header_view mem).flags = rd32 mem 20 ∧
      (header_view mem).frames = rd16 mem 24 ∧
      (header_view mem).first_frame = rd16 mem 26 ∧
      (header_view mem).image_format = to_int (rd32 mem 52) ∧
      (header_view mem).mipmap_count = rd mem 56 ∧
      (header_view mem).low_image_format = rd32 mem 57 ∧
      (header_view mem).low_width = rd mem 61 ∧
      (header_view mem).low_height = rd mem 62 ∧
      (header_view mem).depth = rd16 mem 63 ∧
      (header_view mem).numResources = rd32 mem 68) ∧
    ((header_view mem).version = (header_view mem').version ∧
      (header_view mem).header_size = (header_view mem').header_size ∧
      (header_view mem).width = (header_view mem').width ∧
      (header_view mem).height = (header_view mem').height ∧
      (header_view mem).flags = (header_view mem').flags ∧
      (header_view mem).frames = (header_view mem').frames ∧
      (header_view mem).first_frame = (header_view mem').first_frame ∧
      (header_view mem).image_format = (header_view mem').image_format ∧
      (header_view mem).mipmap_count = (header_view mem').mipmap_count ∧
      (header_view mem).low_image_format = (header_view mem').low_image_format ∧
      (header_view mem).low_width = (header_view mem').low_width ∧
      (header_view mem).low_height = (header_view mem').low_height ∧
      (header_view mem).depth = (header_view mem').depth ∧
      (header_view mem).numResources = (header_view mem').numResources) ∧
    header_view mem = { header_view mem' with signature := (header_view mem).signature } ∧
    img_end (header_view mem) mem sz = img_end (header_view mem') mem' sz ∧
    foff (header_view mem) frame = foff (header_view mem') frame ∧
    (∀ dec : Decoder, dec.start mem sz frame = dec.start mem' sz frame) ∧
    (main mem sz frame).decoder = (main mem' sz frame).decoder := by
  have hrd : ∀ a : Int, 4 ≤ a → rd mem a = rd mem' a := by
    intro a ha; simp [rd, hsame a ha]
  have h16 : ∀ a : Int, 4 ≤ a → rd16 mem a = rd16 mem' a := by
    intro a ha; simp [rd16, hrd a ha, hrd (a + 1) (by omega)]
  have h32 : ∀ a : Int, 4 ≤ a → rd32 mem a = rd32 mem' a := by
    intro a ha
    simp [rd32, hrd a ha, hrd (a + 1) (by omega), hrd (a + 2) (by omega), hrd (a + 3) (by omega)]
  have hv : (header_view mem).version = (header_view mem').version := by
    simp [header_view, h32]
  have hn : (header_view mem).numResources = (header_view mem').numResources := by
    simp [header_view, h32]
  have hfmt : (header_view mem).image_format = (header_view mem').image_format := by
    simp [header_view, h32]
  have hfr : (header_view mem).frames = (header_view mem').frames := by
    simp [header_view, h16]
  have hwd : (header_view mem).width = (header_view mem').width := by
    simp [header_view, h16]
  have hht : (header_view mem).height = (header_view mem').height := by
    simp [header_view, h16]
  have htag : ∀ i, resource_tag0 mem i = resource_tag0 mem' i := by
    intro i; exact hrd _ (by simp only [sizeof_vtf_header_t, sizeof_vtf_resource_entry_t]; omega)
  have hoff : ∀ i, resource_offset mem i = resource_offset mem' i := by
    intro i; exact h32 _ (by simp only [sizeof_vtf_header_t, sizeof_vtf_resource_entry_t]; omega)
  have hend : img_end (header_view mem) mem sz = img_end (header_view mem') mem' sz := by
    simp only [img_end, hv, hn, scan_resources_congr mem mem' _ htag hoff]
  have hfo : foff (header_view mem) frame = foff (header_view mem') frame := by
    simp only [foff, hfr]
  have hview : header_view mem =
      { header_view mem' with signature := (header_view mem).signature } := by
    simp [header_view, h16, h32, hrd]
  refine ⟨⟨rfl, rfl, rfl, rfl, rfl, rfl, rfl, rfl, rfl, rfl, rfl, rfl, rfl, rfl, rfl⟩,
    ⟨hv, by simp [header_view, h32], hwd, hht, by simp [header_view, h32], hfr,
      by simp [header_view, h16], hfmt, by simp [header_view, hrd], by simp [header_view, h32],
      by simp [header_view, hrd], by simp [header_view, hrd], by simp [header_view, h16], hn⟩,
    hview, hend, hfo, ?_, ?_⟩
  · intro dec
    have hfs : dec.framesize (header_view mem) = dec.framesize (header_view mem') := by
      cases dec <;>
        simp only [Decoder.framesize, rgba_framesize_int, dxt_framesize_int, hwd, hht, hfmt]
    simp only [Decoder.start, hend, hfo, hfs]
  · rw [main_decoder, main_decoder, hfmt]

/-- Claim C7 as amended, on two files that differ in their first four bytes only. -/
theorem signature_ignored_witness :
    (∀ a : Int, 4 ≤ a → mem_of (ex_signed [0, 0, 0, 0]) a = mem_of (ex_signed [86, 84, 70, 0]) a) ∧
    (main (mem_of (ex_signed [0, 0, 0, 0])) 84 1).decoder =
      (main (mem_of (ex_signed [86, 84, 70, 0])) 84 1).decoder :=
  have hs : ∀ a : Int, 4 ≤ a →
      mem_of (ex_signed [0, 0, 0, 0]) a = mem_of (ex_signed [86, 84, 70, 0]) a := by
    intro a ha
    simp only [ex_signed, header_bytes, List.append_assoc]
    exact mem_of_append_right _ _ _ a rfl ha
  ⟨hs, (signature_ignored _ _ 84 1 hs).2.2.2.2.2.2⟩

/-- Claim C8. `main` takes the `default` case (status 1, no decoder called, output stage
not reached) if and only if `image_format` is none of 0, 1, 2, 3, 11, 12, 13, 14, 15; for
0, 1, 2, 3, 11, 12 it calls `decode_rgba`, for 13 `decode_dxt1`, for 14 `decode_dxt3` and
for 15 `decode_dxt5`, each on the header, the end of image data, the frame offset and the
freshly allocated rows. -/
theorem main_dispatch (mem : Mem) (sz frame : Int) :
    (main mem sz frame = Outcome.failed 1 ↔
      (header_view mem).image_format ∉ ([0, 1, 2, 3, 11, 12, 13, 14, 15] : List Int)) ∧
    ((main mem sz frame).decoder = none ↔
      (header_view mem).image_format ∉ ([0, 1, 2, 3, 11, 12, 13, 14, 15] : List Int)) ∧
    ((header_view mem).image_format ∈ ([0, 1, 2, 3, 11, 12] : List Int) →
      main mem sz frame = Outcome.decoded Decoder.rgba
        (decode_rgba (header_view mem) mem (img_end (header_view mem) mem sz)
          (foff (header_view mem) frame)
          (Raster.alloc (header_view mem).height (header_view mem).width))) ∧
    ((header_view mem).image_format = 13 →
      main mem sz frame = Outcome.decoded Decoder.dxt1
        (decode_dxt1 (header_view mem) mem (img_end (header_view mem) mem sz)
          (foff (header_view mem) frame)
          (Raster.alloc (header_view mem).height (header_view mem).width))) ∧
    ((header_view mem).image_format = 14 →
      main mem sz frame = Outcome.decoded Decoder.dxt3
        (decode_dxt3 (header_view mem) mem (img_end (header_view mem) mem sz)
          (foff (header_view mem) frame)
          (Raster.alloc (header_view mem).height (header_view mem).width))) ∧
    ((header_view mem).image_format = 15 →
      main mem sz frame = Outcome.decoded Decoder.dxt5
        (decode_dxt5 (header_view mem) mem (img_end (header_view mem) mem sz)
          (foff (header_view mem) frame)
          (Raster.alloc (header_view mem).height (header_view mem).width))) := by
  rw [main_decoder, main_eq]
  generalize (header_view mem).image_format = fmt
  refine ⟨?_, ?_, ?_, ?_, ?_, ?_⟩
  · by_cases h : fmt ∈ ([0, 1, 2, 3, 11, 12, 13, 14, 15] : List Int)
    · simp only [h, not_true_eq_false, iff_false]
      simp only [List.mem_cons, List.mem_singleton, List.not_mem_nil, or_false] at h
      rcases h with h | h | h | h | h | h | h | h | h <;> subst h <;> simp [dispatch]
    · simp only [h, not_false_eq_true, iff_true]
      simp only [List.mem_cons, List.mem_singleton, List.not_mem_nil, or_false, not_or] at h
      simp [dispatch, h]
  · by_cases h : fmt ∈ ([0, 1, 2, 3, 11, 12, 13, 14, 15] : List Int)
    · simp only [h, not_true_eq_false, iff_false]
      simp only [List.mem_cons, List.mem_singleton, List.not_mem_nil, or_false] at h
      rcases h with h | h | h | h | h | h | h | h | h <;> subst h <;> simp [dispatch]
    · simp only [h, not_false_eq_true, iff_true]
      simp only [List.mem_cons, List.mem_singleton, List.not_mem_nil, or_false, not_or] at h
      simp [dispatch, h]
  · intro h
    simp only [List.mem_cons, List.mem_singleton, List.not_mem_nil, or_false] at h
    rcases h with h | h | h | h | h | h <;> subst h <;> simp [dispatch, Decoder.run]
  · intro h; subst h; simp [dispatch, Decoder.run]
  · intro h; subst h; simp [dispatch, Decoder.run]
  · intro h; subst h; simp [dispatch, Decoder.run]

/-- Claim C8 on a header with format 14 (DXT3 is called) and one with format 4
(RGB565, the `default` case). -/
theorem main_dispatch_witness :
    (header_view (mem_of (header_bytes [86, 84, 70, 0] 2 4 4 1 14 0))).image_format = 14 ∧
    main (mem_of (header_bytes [86, 84, 70, 0] 2 4 4 1 14 0)) 80 1 =
      Outcome.decoded Decoder.dxt3
        (decode_dxt3 (header_view (mem_of (header_bytes [86, 84, 70, 0] 2 4 4 1 14 0)))
          (mem_of (header_bytes [86, 84, 70, 0] 2 4 4 1 14 0))
          (img_end (header_view (mem_of (header_bytes [86, 84, 70, 0] 2 4 4 1 14 0)))
            (mem_of (header_bytes [86, 84, 70, 0] 2 4 4 1 14 0)) 80)
          (foff (header_view (mem_of (header_bytes [86, 84, 70, 0] 2 4 4 1 14 0))) 1)
          (Raster.alloc (header_view (mem_of (header_bytes [86, 84, 70, 0] 2 4 4 1 14 0))).height
            (header_view (mem_of (header_bytes [86, 84, 70, 0] 2 4 4 1 14 0))).width)) ∧
    main (mem_of (header_bytes [86, 84, 70, 0] 2 4 4 1 4 0)) 80 1 = Outcome.failed 1 :=
  ⟨by decide,
    (main_dispatch (mem_of (header_bytes [86, 84, 70, 0] 2 4 4 1 14 0)) 80 1).2.2.2.2.1 (by decide),
    (main_dispatch (mem_of (header_bytes [86, 84, 70, 0] 2 4 4 1 4 0)) 80 1).1.mpr (by decide)⟩

/-- Claim C9. For a requested frame `r` with `1 <= r <= frames`, the offset computed by
`main` is `1 + frames - r`, it lies in `[1, frames]`, frame 1 gives `frames` and frame
`frames` gives 1; this offset is the one `main` passes to the decoder. -/
theorem foff_in_range (mem : Mem) (sz frame : Int) (h1 : 1 ≤ frame)
    (h2 : frame ≤ ((header_view mem).frames : Int)) :
    foff (header_view mem) frame = 1 + ((header_view mem).frames : Int) - frame ∧
    1 ≤ foff (header_view mem) frame ∧
    foff (header_view mem) frame ≤ ((header_view mem).frames : Int) ∧
    foff (header_view mem) 1 = ((header_view mem).frames : Int) ∧
    foff (header_view mem) ((header_view mem).frames : Int) = 1 ∧
    (∀ dec, (main mem sz frame).decoder = some dec →
      main mem sz frame = Outcome.decoded dec
        (dec.run (header_view mem) mem (img_end (header_view mem) mem sz)
          (1 + ((header_view mem).frames : Int) - frame)
          (Raster.alloc (header_view mem).height (header_view mem).width))) := by
  refine ⟨rfl, ?_, ?_, ?_, ?_, ?_⟩
  · unfold foff; omega
  · unfold foff; omega
  · unfold foff; omega
  · unfold foff; omega
  · intro dec hdec
    rw [main_decoder] at hdec
    rw [main_eq, hdec]
    rfl

/-- Claim C9 on a file of three frames: frame 1 gives offset 3 and frame 3 gives 1. -/
theorem foff_in_range_witness :
    ((1 : Int) ≤ 1 ∧ (1 : Int) ≤ ((header_view (mem_of ex_three_frames)).frames : Int)) ∧
    ((1 : Int) ≤ 3 ∧ (3 : Int) ≤ ((header_view (mem_of ex_three_frames)).frames : Int)) ∧
    (header_view (mem_of ex_three_frames)).frames = 3 ∧
    foff (header_view (mem_of ex_three_frames)) 1 = 3 ∧
    foff (header_view (mem_of ex_three_frames)) 3 = 1 :=
  ⟨⟨by decide, by decide⟩, ⟨by decide, by decide⟩, by decide,
    (foff_in_range (mem_of ex_three_frames) 92 1 (by decide) (by decide)).1.trans (by decide),
    (foff_in_range (mem_of ex_three_frames) 92 3 (by decide) (by decide)).1.trans (by decide)⟩

/-- Claim C10 fails on a version 7.3 file whose directory holds the image data entry
and then an entry with tag 0x01 and offset field 4294967295: the boundary `img_end`, an
`int`, is -1 and not the offset field. -/
theorem img_end_wraps :
    (header_view (mem_of (ex_resources 4294967295))).version = [7, 3] ∧
    (header_view (mem_of (ex_resources 4294967295))).numResources = 2 ∧
    resource_tag0 (mem_of (ex_resources 4294967295)) 0 = 0x30 ∧
    resource_tag0 (mem_of (ex_resources 4294967295)) 1 = 0x01 ∧
    resource_offset (mem_of (ex_resources 4294967295)) 1 = 4294967295 ∧
    img_end (header_view (mem_of (ex_resources 4294967295))) (mem_of (ex_resources 4294967295)) 96
      = -1 := by
  decide

/-- Claim C10 as amended. `img_end` is the buffer length when the minor version is
below 3. Otherwise, with `i` the first index below `numResources` whose tag byte is 0x30
and `j` the least index above `i` whose tag byte is not `C` (0x43), it is the offset
field of entry `j` converted to `int`, which is the offset field itself when that is
below 2^31; and it is the buffer length when there is no such `i` or no such `j`. -/
theorem img_end_spec (h : vtf_header_t) (mem : Mem) (sz : Int) :
    (h.version.getD 1 0 < 3 → img_end h mem sz = sz) ∧
    (3 ≤ h.version.getD 1 0 →
      (∀ i j, i < j → j < h.numResources →
        resource_tag0 mem i = 0x30 → (∀ k, k < i → resource_tag0 mem k ≠ 0x30) →
        resource_tag0 mem j ≠ 0x43 → (∀ k, i < k → k < j → resource_tag0 mem k = 0x43) →
        img_end h mem sz = to_int (resource_offset mem j) ∧
        (resource_offset mem j < 2147483648 →
          img_end h mem sz = (resource_offset mem j : Int))) ∧
      ((∀ i, i < h.numResources → resource_tag0 mem i ≠ 0x30) → img_end h mem sz = sz) ∧
      (∀ i, i < h.numResources → resource_tag0 mem i = 0x30 →
        (∀ k, k < i → resource_tag0 mem k ≠ 0x30) →
        (∀ k, i < k → k < h.numResources → resource_tag0 mem k = 0x43) →
        img_end h mem sz = sz)) := by
  refine ⟨?_, ?_⟩
  · intro hv
    have hle : ¬ h.version.getD 1 0 > 2 := by omega
    simp only [img_end, if_neg hle]
  · intro hv
    have hgt : h.version.getD 1 0 > 2 := by omega
    simp only [img_end, hgt, if_true]
    refine ⟨?_, ?_, ?_⟩
    · intro i j hij hj hti hfirst htj hcont
      have hscan : scan_resources mem h.numResources h.numResources 0 false sz =
          to_int (resource_offset mem j) := by
        rw [scan_skip mem h.numResources i sz (by omega) hti h.numResources 0 (by omega) (by omega)
          (fun k _ hk => hfirst k hk)]
        exact scan_found_hit mem h.numResources j sz hj htj _ (i + 1) (by omega) (by omega)
          (fun k hk1 hk2 => hcont k (by omega) hk2)
      refine ⟨hscan, fun hlt => ?_⟩
      rw [hscan, to_int_of_lt _ hlt]
    · intro hnone
      exact scan_none mem h.numResources sz _ 0 (fun k _ hk => hnone k hk)
    · intro i hi hti hfirst hcont
      rw [scan_skip mem h.numResources i sz hi hti h.numResources 0 (by omega) (by omega)
        (fun k _ hk => hfirst k hk)]
      exact scan_found_miss mem h.numResources sz _ (i + 1) (fun k hk1 hk2 => hcont k (by omega) hk2)

/-- Claim C10 as amended, on a directory whose second entry has offset 88. -/
theorem img_end_spec_witness :
    (3 ≤ (header_view (mem_of (ex_resources 88))).version.getD 1 0 ∧
      0 < 1 ∧ 1 < (header_view (mem_of (ex_resources 88))).numResources ∧
      resource_tag0 (mem_of (ex_resources 88)) 0 = 0x30 ∧
      resource_tag0 (mem_of (ex_resources 88)) 1 ≠ 0x43 ∧
      resource_offset (mem_of (ex_resources 88)) 1 < 2147483648) ∧
    img_end (header_view (mem_of (ex_resources 88))) (mem_of (ex_resources 88)) 96 = 88 :=
  ⟨by decide,
    (((img_end_spec (header_view (mem_of (ex_resources 88))) (mem_of (ex_resources 88)) 96).2
      (by decide)).1 0 1 (by decide) (by decide) (by decide) (fun k hk => absurd hk (by omega))
      (by decide) (fun k h1 h2 => absurd h2 (by omega))).2 (by decide) |>.trans (by decide)⟩

/-- Claim C11 fails: for the endpoints 0 and 255 the palette built by `decode_dxt5` is not
the descending list 0, 255, 204, 153, 102, 51, 0, 255. -/
theorem avals_0_255_not_descending :
    dxt5_avals 0 255 ≠ [0, 255, 204, 153, 102, 51, 0, 255] := by decide

/-- Claim C11 as amended. For the endpoints 0 and 255 (the branch `a0 <= a1`) the palette
built by `decode_dxt5` is 0, 255, 51, 102, 153, 204, 0, 255: entry `i` of 2..5 is
`((6-i)*0 + (i-1)*255)/5`, which grows with `i`. -/
theorem avals_0_255 : dxt5_avals 0 255 = [0, 255, 51, 102, 153, 204, 0, 255] := by decide

/-- Claim C12. For every value `v` (16-bit or not), with `r` the bits 15..11, `g` the bits
10..5 and `b` the bits 4..0 of `v`, `rgb565_to_rgb888` writes `(r<<3)|(r>>2)`,
`(g<<2)|(g>>4)`, `(b<<3)|(b>>2)`, each below 256, so that the store into a `uint8_t`
truncates nothing; a 5-bit field of 31 gives 255, 0 gives 0 and 16 gives 132, and a
6-bit field of 63 gives 255. -/
theorem rgb565_expand (v : Nat) :
    rgb565_to_rgb888 v =
      [((v / 2048 % 32) <<< 3) ||| ((v / 2048 % 32) >>> 2),
       ((v / 32 % 64) <<< 2) ||| ((v / 32 % 64) >>> 4),
       ((v % 32) <<< 3) ||| ((v % 32) >>> 2)] ∧
    ((v / 2048 % 32) <<< 3) ||| ((v / 2048 % 32) >>> 2) < 256 ∧
    ((v / 32 % 64) <<< 2) ||| ((v / 32 % 64) >>> 4) < 256 ∧
    ((v % 32) <<< 3) ||| ((v % 32) >>> 2) < 256 ∧
    (v / 2048 % 32 = 31 → (rgb565_to_rgb888 v).getD 0 0 = 255) ∧
    (v / 2048 % 32 = 0 → (rgb565_to_rgb888 v).getD 0 0 = 0) ∧
    (v / 2048 % 32 = 16 → (rgb565_to_rgb888 v).getD 0 0 = 132) ∧
    (v / 32 % 64 = 63 → (rgb565_to_rgb888 v).getD 1 0 = 255) ∧
    (v % 32 = 31 → (rgb565_to_rgb888 v).getD 2 0 = 255) ∧
    (v % 32 = 0 → (rgb565_to_rgb888 v).getD 2 0 = 0) ∧
    (v % 32 = 16 → (rgb565_to_rgb888 v).getD 2 0 = 132) := by
  obtain ⟨r, hrdef⟩ : ∃ r, r = v / 2048 % 32 := ⟨_, rfl⟩
  obtain ⟨g, hgdef⟩ : ∃ g, g = v / 32 % 64 := ⟨_, rfl⟩
  obtain ⟨b, hbdef⟩ : ∃ b, b = v % 32 := ⟨_, rfl⟩
  rw [← hrdef, ← hgdef, ← hbdef]
  have hr : r < 32 := by omega
  have hg : g < 64 := by omega
  have hb : b < 32 := by omega
  have er : ((v >>> 11) &&& 0x1F) % 256 = r := by
    have : (v >>> 11) &&& 0x1F = (v >>> 11) % 2 ^ 5 := Nat.and_pow_two_sub_one_eq_mod _ 5
    rw [this, Nat.shiftRight_eq_div_pow]
    show v / 2048 % 32 % 256 = r
    omega
  have eg : ((v >>> 5) &&& 0x3F) % 256 = g := by
    have : (v >>> 5) &&& 0x3F = (v >>> 5) % 2 ^ 6 := Nat.and_pow_two_sub_one_eq_mod _ 6
    rw [this, Nat.shiftRight_eq_div_pow]
    show v / 32 % 64 % 256 = g
    omega
  have eb : ((v >>> 0) &&& 0x1F) % 256 = b := by
    have : (v >>> 0) &&& 0x1F = (v >>> 0) % 2 ^ 5 := Nat.and_pow_two_sub_one_eq_mod _ 5
    rw [this, Nat.shiftRight_eq_div_pow]
    show v / 1 % 32 % 256 = b
    rw [Nat.div_one]
    omega
  have hR := expand5_lt r hr
  have hG := expand6_lt g hg
  have hB := expand5_lt b hb
  have hlist : rgb565_to_rgb888 v =
      [(r <<< 3) ||| (r >>> 2), (g <<< 2) ||| (g >>> 4), (b <<< 3) ||| (b >>> 2)] := by
    simp only [rgb565_to_rgb888, er, eg, eb, Nat.mod_eq_of_lt hR, Nat.mod_eq_of_lt hG,
      Nat.mod_eq_of_lt hB]
  refine ⟨hlist, hR, hG, hB, ?_, ?_, ?_, ?_, ?_, ?_, ?_⟩ <;> intro h <;> rw [hlist, h] <;> rfl

/-- Claim C12 on pure red `0xF800`, which expands to 255, 0, 0, and on `0x8410`, whose
red field is 16 and expands to 132. -/
theorem rgb565_expand_witness :
    0x8410 / 2048 % 32 = 16 ∧ rgb565_to_rgb888 0xF800 = [255, 0, 0] ∧
    (rgb565_to_rgb888 0x8410).getD 0 0 = 132 :=
  ⟨by decide, (rgb565_expand 0xF800).1.trans (by decide),
    (rgb565_expand 0x8410).2.2.2.2.2.2.1 (by decide)⟩

/-- Claim C13. For channel values `a`, `b` in 0..255 the two derived colours stored by
`decode_dxt_colors`, `(2a + b + 1)/3` and `(a + 2b + 1)/3` with truncating division, are
the rationals `(2a + b)/3` and `(a + 2b)/3` rounded to the nearest integer; both are at
most 255, so the store into a byte loses nothing. These are the entries `cols[2][i]`
and `cols[3][i]` computed from `cols[0][i]` and `cols[1][i]`. -/
theorem derived_colours_rounded (a b : Nat) (ha : a ≤ 255) (hb : b ≤ 255) :
    dxt_interp2 a b = (2 * a + b + 1) / 3 ∧
    dxt_interp3 a b = (a + 2 * b + 1) / 3 ∧
    round ((2 * (a : ℚ) + b) / 3) = (dxt_interp2 a b : ℤ) ∧
    round (((a : ℚ) + 2 * b) / 3) = (dxt_interp3 a b : ℤ) ∧
    dxt_interp2 a b ≤ 255 ∧ dxt_interp3 a b ≤ 255 ∧
    (∀ c0 c1 i, i < 3 →
      col_at (dxt_cols c0 c1) 2 i =
        dxt_interp2 (col_at (dxt_cols c0 c1) 0 i) (col_at (dxt_cols c0 c1) 1 i) ∧
      col_at (dxt_cols c0 c1) 3 i =
        dxt_interp3 (col_at (dxt_cols c0 c1) 0 i) (col_at (dxt_cols c0 c1) 1 i)) := by
  have e2 : dxt_interp2 a b = (2 * a + b + 1) / 3 := by unfold dxt_interp2; omega
  have e3 : dxt_interp3 a b = (a + 2 * b + 1) / 3 := by unfold dxt_interp3; omega
  have key : ∀ n : Nat, round ((n : ℚ) / 3) = (((n + 1) / 3 : Nat) : ℤ) := by
    intro n
    obtain ⟨m, hm⟩ : ∃ m, m = (n + 1) / 3 := ⟨_, rfl⟩
    rw [← hm]
    have h1 : 3 * m ≤ n + 1 := by omega
    have h2 : n + 2 ≤ 3 * m + 3 := by omega
    have h1q : (3 : ℚ) * (m : ℚ) ≤ (n : ℚ) + 1 := by exact_mod_cast h1
    have h2q : (n : ℚ) + 2 ≤ 3 * (m : ℚ) + 3 := by exact_mod_cast h2
    rw [round_eq, Int.floor_eq_iff]
    simp only [Int.cast_natCast]
    constructor <;> linarith
  refine ⟨e2, e3, ?_, ?_, by rw [e2]; omega, by rw [e3]; omega, ?_⟩
  · rw [e2]
    have := key (2 * a + b)
    push_cast at this
    exact this
  · rw [e3]
    have := key (a + 2 * b)
    push_cast at this
    exact this
  · intro c0 c1 i hi
    interval_cases i <;> simp [col_at, dxt_cols, dxt_interp2, dxt_interp3, List.range_succ]

/-- Claim C13 on the channel values 255 and 0: the derived colours are 170 and 85. -/
theorem derived_colours_rounded_witness :
    ((255 : Nat) ≤ 255 ∧ (0 : Nat) ≤ 255) ∧ dxt_interp2 255 0 = 170 ∧ dxt_interp3 255 0 = 85 :=
  ⟨⟨by decide, by decide⟩,
    (derived_colours_rounded 255 0 (by decide) (by decide)).1.trans (by decide),
    (derived_colours_rounded 255 0 (by decide) (by decide)).2.1.trans (by decide)⟩

/-- Claim C14. For every header, every payload and every pixel `(x, y)` with `x < width`
and `y < height`, the alpha byte `rows[y][4x+3]` is 255 after `decode_dxt1`. -/
theorem decode_dxt1_alpha (h : vtf_header_t) (mem : Mem) (endp frame_off : Int)
    (rows : Raster) (x y : Nat) (hx : x < h.width) (hy : y < h.height) :
    (decode_dxt1 h mem endp frame_off rows).get y (4 * x + 3) = 255 := by
  have := dxt1_pixel_get
    (fun p => rd mem (endp - displacement_int (dxt_framesize_int h 8) frame_off + p))
    h.width h.height rows x y 3 hx hy (by decide)
  rw [if_pos rfl] at this
  exact this

/-- Claim C14 on a 4x4 image decoded from the 8-byte record `ex_dxt1_block`, at pixel
(3, 2). -/
theorem decode_dxt1_alpha_witness :
    (3 < (ex_header 4 4 IMAGE_FORMAT_DXT1).width ∧ 2 < (ex_header 4 4 IMAGE_FORMAT_DXT1).height) ∧
    (decode_dxt1 (ex_header 4 4 IMAGE_FORMAT_DXT1) (mem_of ex_dxt1_block) 8 1
      (Raster.alloc 4 4)).get 2 (4 * 3 + 3) = 255 :=
  ⟨by decide,
    decode_dxt1_alpha (ex_header 4 4 IMAGE_FORMAT_DXT1) (mem_of ex_dxt1_block) 8 1
      (Raster.alloc 4 4) 3 2 (by decide) (by decide)⟩

/-- Claim C15 fails on a 65535x65535 DXT3 image (frame offset 1, `end` at 0). The frame
size `16384 * 16384 * 16`, exactly 2^32, is 0 as an `int`: the window computed by the
decoder is empty and starts at `end`, and the window of 2^32 bytes that ends at `end`
holds the offsets below 0. Two memories that are 0 everywhere, but for the bytes at
offsets 8 and 9 in the second one, agree on both windows, yet `decode_dxt3` reads the
record of the first block at `end + 0 .. end + 15` and gives the first pixel R = 0 from
one and R = 255 from the other. -/
theorem reads_outside_window_dxt3 :
    dxt_framesize (ex_header 65535 65535 IMAGE_FORMAT_DXT3) 16 = 4294967296 ∧
    dxt_framesize_int (ex_header 65535 65535 IMAGE_FORMAT_DXT3) 16 = 0 ∧
    displacement_int (dxt_framesize_int (ex_header 65535 65535 IMAGE_FORMAT_DXT3) 16) 1 = 0 ∧
    (∀ a : Int, a ≠ 8 → a ≠ 9 → ex_marked [8, 9] 255 a = ex_marked [] 255 a) ∧
    (decode_dxt3 (ex_header 65535 65535 IMAGE_FORMAT_DXT3) (ex_marked [] 255) 0 1
      (Raster.alloc 65535 65535)).get 0 (4 * 0 + 0) = 0 ∧
    (decode_dxt3 (ex_header 65535 65535 IMAGE_FORMAT_DXT3) (ex_marked [8, 9] 255) 0 1
      (Raster.alloc 65535 65535)).get 0 (4 * 0 + 0) = 255 := by
  refine ⟨by decide, by decide, by decide, ?_, ?_, ?_⟩
  · intro a h8 h9
    simp [ex_marked, h8, h9]
  · rw [(decode_dxt3_record _ _ 0 1 _ 0 0 (by decide) (by decide)).2 0 (by decide)]
    decide
  · rw [(decode_dxt3_record _ _ 0 1 _ 0 0 (by decide) (by decide)).2 0 (by decide)]
    decide

/-- Claim C15 as amended. For a header whose exact frame size is at most 2^31 - 1, each
decoder is a function of the width, the height, the format and the bytes of its payload
window, the `framesize` bytes from its pointer `data = end - framesize*frame_off` on: two
runs whose headers agree on these three fields and whose memories agree on the bytes of
the window (wherever the window lies in each, and whatever the other header fields and
the other bytes are) produce the same raster, store for store. The same holds for `main`
on two buffers, and for the failure on an unsupported format. Decoding the same buffer
twice is the case of equal buffers. -/
theorem decode_window_only :
    (∀ (dec : Decoder) (h h' : vtf_header_t) (mem mem' : Mem)
        (endp endp' frame_off frame_off' : Int) (rows : Raster),
      h.width = h'.width → h.height = h'.height → h.image_format = h'.image_format →
      dec.exact_framesize h ≤ 2147483647 →
      (∀ p : Nat, (p : Int) < dec.framesize h →
        rd mem (endp - displacement_int (dec.framesize h) frame_off + p) =
          rd mem' (endp' - displacement_int (dec.framesize h') frame_off' + p)) →
      dec.run h mem endp frame_off rows = dec.run h' mem' endp' frame_off' rows) ∧
    (∀ (mem mem' : Mem) (sz sz' frame frame' : Int),
      (header_view mem).width = (header_view mem').width →
      (header_view mem).height = (header_view mem').height →
      (header_view mem).image_format = (header_view mem').image_format →
      (∀ dec, dispatch (header_view mem).image_format = some dec →
        dec.exact_framesize (header_view mem) ≤ 2147483647 ∧
        ∀ p : Nat, (p : Int) < dec.framesize (header_view mem) →
          rd mem (dec.start mem sz frame + p) = rd mem' (dec.start mem' sz' frame' + p)) →
      main mem sz frame = main mem' sz' frame') := by
  have key : ∀ (dec : Decoder) (h h' : vtf_header_t) (mem mem' : Mem)
      (endp endp' frame_off frame_off' : Int) (rows : Raster),
      h.width = h'.width → h.height = h'.height → h.image_format = h'.image_format →
      dec.exact_framesize h ≤ 2147483647 →
      (∀ p : Nat, (p : Int) < dec.framesize h →
        rd mem (endp - displacement_int (dec.framesize h) frame_off + p) =
          rd mem' (endp' - displacement_int (dec.framesize h') frame_off' + p)) →
      dec.run h mem endp frame_off rows = dec.run h' mem' endp' frame_off' rows := by
    intro dec h h' mem mem' endp endp' fo fo' rows hw hh hf hfit hwin
    obtain ⟨efs, ewr⟩ := framesize_fits dec h hfit
    apply run_reads_congr dec h h' mem mem' endp endp' fo fo' rows hw hh hf
    intro q hq
    rw [ewr q hq]
    exact hwin q (by rw [efs]; exact hq)
  refine ⟨key, ?_⟩
  intro mem mem' sz sz' frame frame' hw hh hf hwin
  rw [main_eq, main_eq, ← hf, ← hw, ← hh]
  cases hd : dispatch (header_view mem).image_format with
  | none => rfl
  | some dec =>
    simp only
    rw [key dec (header_view mem) (header_view mem') mem mem' _ _ _ _ _ hw hh hf
      (hwin dec hd).1 (hwin dec hd).2]

/-- Claim C15 as amended, on two 1x1 files that differ in their signature bytes, outside
the window (offsets 80..83): `main` produces the same outcome for both. -/
theorem decode_window_only_witness :
    ((header_view (mem_of (ex_signed [0, 0, 0, 0]))).width =
        (header_view (mem_of (ex_signed [86, 84, 70, 0]))).width ∧
      (header_view (mem_of (ex_signed [0, 0, 0, 0]))).height =
        (header_view (mem_of (ex_signed [86, 84, 70, 0]))).height ∧
      (header_view (mem_of (ex_signed [0, 0, 0, 0]))).image_format =
        (header_view (mem_of (ex_signed [86, 84, 70, 0]))).image_format ∧
      (header_view (mem_of (ex_signed [0, 0, 0, 0]))).signature ≠
        (header_view (mem_of (ex_signed [86, 84, 70, 0]))).signature ∧
      Decoder.rgba.exact_framesize (header_view (mem_of (ex_signed [0, 0, 0, 0]))) = 4 ∧
      Decoder.rgba.start (mem_of (ex_signed [0, 0, 0, 0])) 84 1 = 80) ∧
    main (mem_of (ex_signed [0, 0, 0, 0])) 84 1 = main (mem_of (ex_signed [86, 84, 70, 0])) 84 1 :=
  ⟨by decide,
    decode_window_only.2 (mem_of (ex_signed [0, 0, 0, 0])) (mem_of (ex_signed [86, 84, 70, 0]))
      84 84 1 1 (by decide) (by decide) (by decide) (by
        intro dec hd
        have hdec : dec = Decoder.rgba := by
          have h2 : dispatch (header_view (mem_of (ex_signed [0, 0, 0, 0]))).image_format =
              some Decoder.rgba := by decide
          rw [h2] at hd
          exact (Option.some.inj hd).symm
        subst hdec
        refine ⟨by decide, ?_⟩
        intro p hp
        have hfs : Decoder.rgba.framesize (header_view (mem_of (ex_signed [0, 0, 0, 0]))) = 4 := by
          decide
        rw [hfs] at hp
        have hp4 : p < 4 := by omega
        interval_cases p <;> decide)⟩

/-- Claim C16. For every block origin `(bx, by)`, endpoints `c0`, `c1` and index word `ci`,
`decode_dxt_colors` leaves in pixel `(bx+px, by+py)`, for `px`, `py` in 0..3, the R, G, B
of `cols[(ci >> 2*(4*py + px)) & 3]` and alpha 255. `cols[0]` and `cols[1]` are the
endpoints expanded by `rgb565_to_rgb888`, `cols[2]` and `cols[3]` the derived colours
`(2*cols[0] + cols[1] + 1)/3` and `(cols[0] + 2*cols[1] + 1)/3`, by the same formulas
whatever the order of `c0` and `c1`. Every cell outside the 4x4 block keeps its value. -/
theorem decode_dxt_colors_block (bx by_ c0 c1 ci : Nat) (rows : Raster) :
    (∀ py px, py < 4 → px < 4 →
      (∀ ch, ch < 3 →
        (decode_dxt_colors bx by_ c0 c1 ci rows).get (by_ + py) (4 * (bx + px) + ch) =
          col_at (dxt_cols c0 c1) ((ci >>> (2 * (4 * py + px))) &&& 3) ch) ∧
      (decode_dxt_colors bx by_ c0 c1 ci rows).get (by_ + py) (4 * (bx + px) + 3) = 255 ∧
      (ci >>> (2 * (4 * py + px))) &&& 3 < 4) ∧
    (∀ ch, ch < 3 →
      col_at (dxt_cols c0 c1) 0 ch = (rgb565_to_rgb888 c0).getD ch 0 ∧
      col_at (dxt_cols c0 c1) 1 ch = (rgb565_to_rgb888 c1).getD ch 0 ∧
      col_at (dxt_cols c0 c1) 2 ch =
        (2 * (rgb565_to_rgb888 c0).getD ch 0 + (rgb565_to_rgb888 c1).getD ch 0 + 1) / 3 ∧
      col_at (dxt_cols c0 c1) 3 ch =
        ((rgb565_to_rgb888 c0).getD ch 0 + 2 * (rgb565_to_rgb888 c1).getD ch 0 + 1) / 3) ∧
    (∀ r i, ¬ (by_ ≤ r ∧ r < by_ + 4 ∧ bx ≤ i / 4 ∧ i / 4 < bx + 4) →
      (decode_dxt_colors bx by_ c0 c1 ci rows).get r i = rows.get r i) := by
  refine ⟨?_, fun ch hch => dxt_cols_entries c0 c1 ch hch,
    (decode_dxt_colors_get bx by_ c0 c1 ci rows).2⟩
  intro py px hpy hpx
  refine ⟨?_, ?_, ?_⟩
  · intro ch hch
    have := (decode_dxt_colors_get bx by_ c0 c1 ci rows).1 py px ch hpy hpx (by omega)
    rw [if_neg (by omega)] at this
    exact this
  · have := (decode_dxt_colors_get bx by_ c0 c1 ci rows).1 py px 3 hpy hpx (by decide)
    rw [if_pos rfl] at this
    exact this
  · exact Nat.lt_succ_of_le Nat.and_le_right

/-- Claim C16 on the block at origin (4, 8) with endpoints red and blue: pixel (2, 1) of
the block has selector 2, so its R is 170 and its alpha 255; the cell `rows[7][16]`
above the block keeps the value 255 it was allocated with. -/
theorem decode_dxt_colors_block_witness :
    ((1 : Nat) < 4 ∧ (2 : Nat) < 4 ∧ (0 : Nat) < 3) ∧
    (decode_dxt_colors 4 8 0xF800 0x001F 0x1B1BE4E4 (Raster.alloc 12 8)).get (8 + 1)
      (4 * (4 + 2) + 0) = 170 ∧
    (decode_dxt_colors 4 8 0xF800 0x001F 0x1B1BE4E4 (Raster.alloc 12 8)).get (8 + 1)
      (4 * (4 + 2) + 3) = 255 ∧
    (decode_dxt_colors 4 8 0xF800 0x001F 0x1B1BE4E4 (Raster.alloc 12 8)).get 7 16 = 255 :=
  ⟨by decide,
    (((decode_dxt_colors_block 4 8 0xF800 0x001F 0x1B1BE4E4 (Raster.alloc 12 8)).1 1 2
      (by decide) (by decide)).1 0 (by decide)).trans (by decide),
    ((decode_dxt_colors_block 4 8 0xF800 0x001F 0x1B1BE4E4 (Raster.alloc 12 8)).1 1 2
      (by decide) (by decide)).2.1,
    ((decode_dxt_colors_block 4 8 0xF800 0x001F 0x1B1BE4E4 (Raster.alloc 12 8)).2.2 7 16
      (by decide)).trans (by decide)⟩

/-- Claim C17 fails on a 65532x65532 DXT3 image (frame offset 2, `end` at 0). Width and
height are multiples of 4 and there are 16383 blocks in a row. Pixel (32768, 32768) lies in
block number `8192 * 16383 + 8192 = 2^27`, whose record the claim places at window offset
`2^27 * 16 = 2^31`. The cursor `p`, an `int`, is -2^31 when that block is reached, and the
frame size, exactly 4294443024, is -524272 as an `int`, so `data` is `end + 1048544`. In a
memory that holds 255 in the two bytes of `c0` of the record `decode_dxt3` reads, at
`data - 2^31 + 8` and `+ 9`, and 0 everywhere else, the R of the pixel is 255, while the
record at offset 2^31 of the window is all 0 (R would be 0), whether the window starts at
`data` or at `end - 4294443024 * 2`. -/
theorem record_offset_wraps_dxt3 :
    (ex_header 65532 65532 IMAGE_FORMAT_DXT3).width % 4 = 0 ∧
    (ex_header 65532 65532 IMAGE_FORMAT_DXT3).height % 4 = 0 ∧
    (32768 / 4 * ((ex_header 65532 65532 IMAGE_FORMAT_DXT3).width / 4) + 32768 / 4) * 16 =
      2147483648 ∧
    wrap_int 2147483648 = -2147483648 ∧
    dxt_framesize (ex_header 65532 65532 IMAGE_FORMAT_DXT3) 16 = 4294443024 ∧
    dxt_framesize_int (ex_header 65532 65532 IMAGE_FORMAT_DXT3) 16 = -524272 ∧
    displacement_int (dxt_framesize_int (ex_header 65532 65532 IMAGE_FORMAT_DXT3) 16) 2 =
      -1048544 ∧
    (decode_dxt3 (ex_header 65532 65532 IMAGE_FORMAT_DXT3)
      (ex_marked [0 - (-1048544) + (-2147483648) + 8, 0 - (-1048544) + (-2147483648) + 9] 255)
      0 2 (Raster.alloc 65532 65532)).get 32768 (4 * 32768 + 0) = 255 ∧
    (List.range 16).all (fun j =>
      rd (ex_marked [0 - (-1048544) + (-2147483648) + 8, 0 - (-1048544) + (-2147483648) + 9]
        255) (0 - (-1048544) + 2147483648 + j) == 0 &&
      rd (ex_marked [0 - (-1048544) + (-2147483648) + 8, 0 - (-1048544) + (-2147483648) + 9]
        255) (0 - 4294443024 * 2 + 2147483648 + j) == 0) = true ∧
    col_at (dxt_cols 0 0) ((0 >>> (2 * (4 * (32768 % 4) + 32768 % 4))) &&& 3) 0 = 0 := by
  refine ⟨by decide, by decide, by decide, by decide, by decide, by decide, by decide, ?_,
    by decide, by decide⟩
  rw [(decode_dxt3_record _ _ 0 2 _ 32768 32768 (by decide) (by decide)).2 0 (by decide)]
  decide

/-- Claim C17 as amended. For a block-compressed image whose width and height are
multiples of 4 and a pixel `(x, y)` inside it, with `S` the record size (8 for DXT1, 16
for DXT3 and DXT5), provided the record of its block ends at a window offset that fits an
`int`, that is `((y/4)*(width/4) + x/4) * S + S <= 2^31` (every pixel of a DXT1 image of
16-bit width and height; every pixel of a DXT3 or DXT5 image whose frame size is at most
2^31), the R, G, B of the pixel come from the record at window offset
`((y/4)*(width/4) + x/4) * S` alone: with `c0`, `c1` the little-endian 16-bit values and
`ci` the little-endian 32-bit value of its colour part (bytes 0..7 of a DXT1 record,
bytes 8..15 of a DXT3 or DXT5 record), they are entry
`(ci >> 2*(4*(y mod 4) + (x mod 4))) & 3` of `cols`. The window starts at the pointer
`data = end - framesize*frame_off` of the decoder, the product being an `int`: the exact
product when it fits an `int` and the frame offset is not negative. For every size the pixel is written by
exactly one block: a block body stores to it only when the 4x4 block at its origin
contains the pixel (4 stores for DXT1, 5 for DXT3 and DXT5), and the whole decode makes
that many stores to it. -/
theorem dxt_pixel_record (h : vtf_header_t) (mem : Mem) (endp frame_off : Int) (rows : Raster)
    (x y : Nat) (hw : h.width % 4 = 0) (hh : h.height % 4 = 0) (hx : x < h.width)
    (hy : y < h.height) :
    (let win : Nat → Nat :=
       fun p => rd mem (endp - displacement_int (dxt_framesize_int h 8) frame_off + p)
     let o := (y / 4 * (h.width / 4) + x / 4) * 8
     let c0 := win o + 256 * win (o + 1)
     let c1 := win (o + 2) + 256 * win (o + 3)
     let ci := win (o + 4) + 256 * win (o + 5) + 65536 * win (o + 6) + 16777216 * win (o + 7)
     (h.width ≤ 65535 → h.height ≤ 65535 → o + 8 ≤ 2147483648) ∧
     (o + 8 ≤ 2147483648 → ∀ ch, ch < 3 →
       (decode_dxt1 h mem endp frame_off rows).get y (4 * x + ch) =
         col_at (dxt_cols c0 c1) ((ci >>> (2 * (4 * (y % 4) + x % 4))) &&& 3) ch) ∧
     (decode_dxt1 h mem endp frame_off rows).pixel_stores x y = rows.pixel_stores x y + 4 ∧
     (∀ data by_ bx s, (decode_dxt1_body data by_ bx s).2.pixel_stores x y =
       s.2.pixel_stores x y + if by_ ≤ y ∧ y < by_ + 4 ∧ bx ≤ x ∧ x < bx + 4 then 4 else 0) ∧
     (0 ≤ frame_off → dxt_framesize h 8 ≤ 2147483647 →
       dxt_framesize h 8 * frame_off ≤ 2147483647 →
       displacement_int (dxt_framesize_int h 8) frame_off = dxt_framesize h 8 * frame_off)) ∧
    (let win : Nat → Nat :=
       fun p => rd mem (endp - displacement_int (dxt_framesize_int h 16) frame_off + p)
     let o := (y / 4 * (h.width / 4) + x / 4) * 16
     let c0 := win (o + 8) + 256 * win (o + 9)
     let c1 := win (o + 10) + 256 * win (o + 11)
     let ci := win (o + 12) + 256 * win (o + 13) + 65536 * win (o + 14) +
       16777216 * win (o + 15)
     (dxt_framesize h 16 ≤ 2147483648 → o + 16 ≤ 2147483648) ∧
     ((o + 16 ≤ 2147483648 → ∀ ch, ch < 3 →
       (decode_dxt3 h mem endp frame_off rows).get y (4 * x + ch) =
         col_at (dxt_cols c0 c1) ((ci >>> (2 * (4 * (y % 4) + x % 4))) &&& 3) ch) ∧
      (decode_dxt3 h mem endp frame_off rows).pixel_stores x y = rows.pixel_stores x y + 5 ∧
      (∀ data by_ bx s, (decode_dxt3_body data by_ bx s).2.pixel_stores x y =
        s.2.pixel_stores x y + if by_ ≤ y ∧ y < by_ + 4 ∧ bx ≤ x ∧ x < bx + 4 then 5 else 0)) ∧
     ((o + 16 ≤ 2147483648 → ∀ ch, ch < 3 →
       (decode_dxt5 h mem endp frame_off rows).get y (4 * x + ch) =
         col_at (dxt_cols c0 c1) ((ci >>> (2 * (4 * (y % 4) + x % 4))) &&& 3) ch) ∧
      (decode_dxt5 h mem endp frame_off rows).pixel_stores x y = rows.pixel_stores x y + 5 ∧
      (∀ data by_ bx s, (decode_dxt5_body data by_ bx s).2.pixel_stores x y =
        s.2.pixel_stores x y + if by_ ≤ y ∧ y < by_ + 4 ∧ bx ≤ x ∧ x < bx + 4 then 5 else 0)) ∧
     (0 ≤ frame_off → dxt_framesize h 16 ≤ 2147483647 →
       dxt_framesize h 16 * frame_off ≤ 2147483647 →
       displacement_int (dxt_framesize_int h 16) frame_off = dxt_framesize h 16 * frame_off)) := by
  have ew : (h.width + 3) / 4 = h.width / 4 := by omega
  have eh : (h.height + 3) / 4 = h.height / 4 := by omega
  have hbx : x / 4 < (h.width + 3) / 4 := by omega
  have hby : y / 4 < (h.height + 3) / 4 := by omega
  have hk : y / 4 * (h.width / 4) + x / 4 + 1 ≤ h.height / 4 * (h.width / 4) := by
    have : (y / 4 + 1) * (h.width / 4) ≤ h.height / 4 * (h.width / 4) :=
      Nat.mul_le_mul_right _ (by omega)
    rw [Nat.add_mul, Nat.one_mul] at this
    omega
  have wr : ∀ (k S : Nat), k * S + S ≤ 2147483648 → 0 < S →
      wrap_int ((k * S : Nat) : Int) = ((k * S : Nat) : Int) :=
    fun k S hk hS => wrap_int_of_range _ (by omega) (by omega)
  have cast : ∀ (a : Int) (o j : Nat),
      rd mem (a + (((o : Nat) : Int) + ((j : Nat) : Int))) = rd mem (a + ((o + j : Nat) : Int)) := by
    intro a o j
    push_cast
    rfl
  refine ⟨?_, ?_⟩
  · intro win o c0 c1 ci
    refine ⟨?_, ?_, ?_, fun data by_ bx s => decode_dxt1_body_stores data by_ bx s x y,
      fun h0 hfs hfit => displacement_fits Decoder.dxt1 h frame_off h0 hfs hfit⟩
    · intro h1 h2
      have hb : h.height / 4 * (h.width / 4) ≤ 16383 * 16383 :=
        Nat.mul_le_mul (by omega) (by omega)
      show (y / 4 * (h.width / 4) + x / 4) * 8 + 8 ≤ 2147483648
      omega
    · intro hfit ch hch
      have := decode_dxt1_record h mem endp frame_off rows x y ch hx hy hch
      rw [ew, wr _ 8 hfit (by decide)] at this
      rw [this]
      show col_at (dxt_cols (rd mem _ + 256 * rd mem _) (rd mem _ + 256 * rd mem _))
        (((rd mem _ + 256 * rd mem _ + 65536 * rd mem _ + 16777216 * rd mem _) >>> _) &&& 3) ch =
        col_at (dxt_cols (rd mem _ + 256 * rd mem _) (rd mem _ + 256 * rd mem _))
        (((rd mem _ + 256 * rd mem _ + 65536 * rd mem _ + 16777216 * rd mem _) >>> _) &&& 3) ch
      simp only [← cast, Nat.cast_ofNat, Nat.cast_one]
    · exact dxt_image_stores 4 (fun y x s => decode_dxt1_body _ y x s)
        (fun by_ bx s x y => decode_dxt1_body_stores _ by_ bx s x y)
        h.width h.height (0, rows) x y hbx hby
  · intro win o c0 c1 ci
    refine ⟨?_, ⟨?_, ?_, fun data by_ bx s => decode_dxt3_body_stores data by_ bx s x y⟩,
      ⟨?_, ?_, fun data by_ bx s => decode_dxt5_body_stores data by_ bx s x y⟩,
      fun h0 hfs hfit => displacement_fits Decoder.dxt3 h frame_off h0 hfs hfit⟩
    · intro hfs
      have hfs' : h.width / 4 * (h.height / 4) * 16 ≤ 2147483648 := by
        unfold dxt_framesize at hfs
        rw [ew, eh] at hfs
        exact_mod_cast hfs
      show (y / 4 * (h.width / 4) + x / 4) * 16 + 16 ≤ 2147483648
      rw [Nat.mul_comm (h.width / 4)] at hfs'
      omega
    · intro hfit ch hch
      have := (decode_dxt3_record h mem endp frame_off rows x y hx hy).2 ch hch
      rw [ew, wr _ 16 hfit (by decide)] at this
      rw [this]
      show col_at (dxt_cols (rd mem _ + 256 * rd mem _) (rd mem _ + 256 * rd mem _))
        (((rd mem _ + 256 * rd mem _ + 65536 * rd mem _ + 16777216 * rd mem _) >>> _) &&& 3) ch =
        col_at (dxt_cols (rd mem _ + 256 * rd mem _) (rd mem _ + 256 * rd mem _))
        (((rd mem _ + 256 * rd mem _ + 65536 * rd mem _ + 16777216 * rd mem _) >>> _) &&& 3) ch
      simp only [← cast, Nat.cast_ofNat]
    · exact dxt_image_stores 5 (fun y x s => decode_dxt3_body _ y x s)
        (fun by_ bx s x y => decode_dxt3_body_stores _ by_ bx s x y)
        h.width h.height (0, rows) x y hbx hby
    · intro hfit ch hch
      have := decode_dxt5_record h mem endp frame_off rows x y ch hx hy hch
      rw [ew, wr _ 16 hfit (by decide)] at this
      rw [this]
      show col_at (dxt_cols (rd mem _ + 256 * rd mem _) (rd mem _ + 256 * rd mem _))
        (((rd mem _ + 256 * rd mem _ + 65536 * rd mem _ + 16777216 * rd mem _) >>> _) &&& 3) ch =
        col_at (dxt_cols (rd mem _ + 256 * rd mem _) (rd mem _ + 256 * rd mem _))
        (((rd mem _ + 256 * rd mem _ + 65536 * rd mem _ + 16777216 * rd mem _) >>> _) &&& 3) ch
      simp only [← cast, Nat.cast_ofNat]
    · exact dxt_image_stores 5 (fun y x s => decode_dxt5_body _ y x s)
        (fun by_ bx s x y => decode_dxt5_body_stores _ by_ bx s x y)
        h.width h.height (0, rows) x y hbx hby

/-- Claim C17 as amended, at pixel (2, 1) of a 4x4 image: the selector of pixel number 6
is 2, R is 170 for the three decoders, and the pixel receives 4 stores from `decode_dxt1`
and 5 from `decode_dxt3`. -/
theorem dxt_pixel_record_witness :
    ((ex_header 4 4 IMAGE_FORMAT_DXT3).width % 4 = 0 ∧
      (ex_header 4 4 IMAGE_FORMAT_DXT3).height % 4 = 0 ∧
      2 < (ex_header 4 4 IMAGE_FORMAT_DXT3).width ∧
      1 < (ex_header 4 4 IMAGE_FORMAT_DXT3).height ∧
      (1 / 4 * ((ex_header 4 4 IMAGE_FORMAT_DXT3).width / 4) + 2 / 4) * 8 + 8 ≤ 2147483648 ∧
      (1 / 4 * ((ex_header 4 4 IMAGE_FORMAT_DXT3).width / 4) + 2 / 4) * 16 + 16 ≤ 2147483648) ∧
    (decode_dxt1 (ex_header 4 4 IMAGE_FORMAT_DXT3) (mem_of ex_dxt3_block) 16 1
      (Raster.alloc 4 4)).get 1 (4 * 2 + 0) = 170 ∧
    (decode_dxt3 (ex_header 4 4 IMAGE_FORMAT_DXT3) (mem_of ex_dxt3_block) 16 1
      (Raster.alloc 4 4)).get 1 (4 * 2 + 0) = 170 ∧
    (decode_dxt5 (ex_header 4 4 IMAGE_FORMAT_DXT3) (mem_of ex_dxt3_block) 16 1
      (Raster.alloc 4 4)).get 1 (4 * 2 + 0) = 170 ∧
    (decode_dxt1 (ex_header 4 4 IMAGE_FORMAT_DXT3) (mem_of ex_dxt3_block) 16 1
      (Raster.alloc 4 4)).pixel_stores 2 1 = 4 ∧
    (decode_dxt3 (ex_header 4 4 IMAGE_FORMAT_DXT3) (mem_of ex_dxt3_block) 16 1
      (Raster.alloc 4 4)).pixel_stores 2 1 = 5 :=
  have t := dxt_pixel_record (ex_header 4 4 IMAGE_FORMAT_DXT3) (mem_of ex_dxt3_block) 16 1
    (Raster.alloc 4 4) 2 1 (by decide) (by decide) (by decide) (by decide)
  ⟨by decide, (t.1.2.1 (by decide) 0 (by decide)).trans (by decide),
    (t.2.2.1.1 (by decide) 0 (by decide)).trans (by decide),
    (t.2.2.2.1.1 (by decide) 0 (by decide)).trans (by decide),
    t.1.2.2.1, t.2.2.1.2.1⟩

/-- Claim C18 fails on a 65535x65535 DXT5 image (frame offset 1, `end` at 0). There are
`16384 * 16384` records and `ceil(w/4) * ceil(h/4) * block_size` is 2^32, but `framesize`,
an `int`, is 0, and so is the read cursor after the last record: the payload window
computed by the decoder starts at `end` and is empty. Two memories that are 0 everywhere,
but for the bytes at offsets 8 and 9 from `end` in the second one, differ neither in
`[end, end + 0)` nor in the 2^32 bytes before `end`, yet `decode_dxt5` reads the record
of the first block at `end + 0 .. end + 15`, past both windows, and gives the first pixel
R = 0 from one and R = 255 from the other. -/
theorem reads_leave_window_dxt5 :
    ((ex_header 65535 65535 IMAGE_FORMAT_DXT5).height + 3) / 4 *
      (((ex_header 65535 65535 IMAGE_FORMAT_DXT5).width + 3) / 4) * 16 = 4294967296 ∧
    dxt_framesize (ex_header 65535 65535 IMAGE_FORMAT_DXT5) 16 = 4294967296 ∧
    dxt_framesize_int (ex_header 65535 65535 IMAGE_FORMAT_DXT5) 16 = 0 ∧
    wrap_int 4294967296 = 0 ∧
    displacement_int (dxt_framesize_int (ex_header 65535 65535 IMAGE_FORMAT_DXT5) 16) 1 = 0 ∧
    (∀ a : Int, a ≠ 8 → a ≠ 9 → ex_marked [8, 9] 255 a = ex_marked [] 255 a) ∧
    (decode_dxt5 (ex_header 65535 65535 IMAGE_FORMAT_DXT5) (ex_marked [] 255) 0 1
      (Raster.alloc 65535 65535)).get 0 (4 * 0 + 0) = 0 ∧
    (decode_dxt5 (ex_header 65535 65535 IMAGE_FORMAT_DXT5) (ex_marked [8, 9] 255) 0 1
      (Raster.alloc 65535 65535)).get 0 (4 * 0 + 0) = 255 := by
  refine ⟨by decide, by decide, by decide, by decide, by decide, ?_, ?_, ?_⟩
  · intro a h8 h9
    simp [ex_marked, h8, h9]
  · rw [decode_dxt5_record _ _ 0 1 _ 0 0 0 (by decide) (by decide) (by decide)]
    decide
  · rw [decode_dxt5_record _ _ 0 1 _ 0 0 0 (by decide) (by decide) (by decide)]
    decide

/-- Claim C18 as amended. For every width and height, 0 and sizes that are not multiples
of 4 included, with `bw = (w+3)/4 = ceil(w/4)`, `bh = (h+3)/4 = ceil(h/4)` and `S` the
record size (8 for DXT1, 16 for DXT3 and DXT5): each block decoder is one pass over
exactly `bh * bw` records, in row-major order; the read cursor after `n` records is the
`int` value of `n * S`; the body of a record depends on the `S` bytes at its cursor only.
When `bh * bw * S` is at most 2^31 - 1, `framesize` is `bh * bw * S`, the cursor is `n * S`
after `n` records, so record `k` starts at `k * S` and ends at `k * S + S <= framesize`,
the cursor ends at `framesize`, and every byte read lies in `[0, framesize)` from the
pointer `data`: bytes outside the window never change the result. -/
theorem dxt_reads_in_window (h : vtf_header_t) (mem : Mem) (endp frame_off : Int)
    (rows : Raster) :
    (⌈(h.width : ℚ) / 4⌉ = (((h.width + 3) / 4 : Nat) : ℤ) ∧
      ⌈(h.height : ℚ) / 4⌉ = (((h.height + 3) / 4 : Nat) : ℤ)) ∧
    (let bw := (h.width + 3) / 4
     let bh := (h.height + 3) / 4
     let d : Int → Nat :=
       fun p => rd mem (endp - displacement_int (dxt_framesize_int h 8) frame_off + p)
     decode_dxt1 h mem endp frame_off rows =
       ((List.range (bh * bw)).foldl
         (fun s k => decode_dxt1_body d (4 * (k / bw)) (4 * (k % bw)) s) ((0 : Int), rows)).2 ∧
     (∀ n, ((List.range n).foldl
         (fun s k => decode_dxt1_body d (4 * (k / bw)) (4 * (k % bw)) s) ((0 : Int), rows)).1 =
       wrap_int ((n * 8 : Nat) : Int)) ∧
     (∀ (d' : Int → Nat) (y x : Nat) (s : Int × Raster), wrap_int s.1 = s.1 →
       (∀ j : Nat, j < 8 → d (wrap_int (s.1 + j)) = d' (wrap_int (s.1 + j))) →
       decode_dxt1_body d y x s = decode_dxt1_body d' y x s) ∧
     ((bh * bw * 8 : Nat) : Int) = dxt_framesize h 8 ∧
     (bh * bw * 8 ≤ 2147483647 →
       dxt_framesize_int h 8 = ((bh * bw * 8 : Nat) : Int) ∧
       (∀ n, n ≤ bh * bw → ((List.range n).foldl
           (fun s k => decode_dxt1_body d (4 * (k / bw)) (4 * (k % bw)) s) ((0 : Int), rows)).1 =
         ((n * 8 : Nat) : Int)) ∧
       (∀ k, k < bh * bw → k * 8 + 8 ≤ bh * bw * 8) ∧
       (∀ mem' : Mem,
         (∀ p : Nat, (p : Int) < dxt_framesize_int h 8 →
           rd mem (endp - displacement_int (dxt_framesize_int h 8) frame_off + p) =
             rd mem' (endp - displacement_int (dxt_framesize_int h 8) frame_off + p)) →
         decode_dxt1 h mem endp frame_off rows = decode_dxt1 h mem' endp frame_off rows))) ∧
    (let bw := (h.width + 3) / 4
     let bh := (h.height + 3) / 4
     let d : Int → Nat :=
       fun p => rd mem (endp - displacement_int (dxt_framesize_int h 16) frame_off + p)
     (decode_dxt3 h mem endp frame_off rows =
       ((List.range (bh * bw)).foldl
         (fun s k => decode_dxt3_body d (4 * (k / bw)) (4 * (k % bw)) s) ((0 : Int), rows)).2 ∧
      (∀ n, ((List.range n).foldl
         (fun s k => decode_dxt3_body d (4 * (k / bw)) (4 * (k % bw)) s) ((0 : Int), rows)).1 =
        wrap_int ((n * 16 : Nat) : Int)) ∧
      (∀ (d' : Int → Nat) (y x : Nat) (s : Int × Raster), wrap_int s.1 = s.1 →
        (∀ j : Nat, j < 16 → d (wrap_int (s.1 + j)) = d' (wrap_int (s.1 + j))) →
        decode_dxt3_body d y x s = decode_dxt3_body d' y x s)) ∧
     (decode_dxt5 h mem endp frame_off rows =
       ((List.range (bh * bw)).foldl
         (fun s k => decode_dxt5_body d (4 * (k / bw)) (4 * (k % bw)) s) ((0 : Int), rows)).2 ∧
      (∀ n, ((List.range n).foldl
         (fun s k => decode_dxt5_body d (4 * (k / bw)) (4 * (k % bw)) s) ((0 : Int), rows)).1 =
        wrap_int ((n * 16 : Nat) : Int)) ∧
      (∀ (d' : Int → Nat) (y x : Nat) (s : Int × Raster), wrap_int s.1 = s.1 →
        (∀ j : Nat, j < 16 → d (wrap_int (s.1 + j)) = d' (wrap_int (s.1 + j))) →
        decode_dxt5_body d y x s = decode_dxt5_body d' y x s)) ∧
     ((bh * bw * 16 : Nat) : Int) = dxt_framesize h 16 ∧
     (bh * bw * 16 ≤ 2147483647 →
       dxt_framesize_int h 16 = ((bh * bw * 16 : Nat) : Int) ∧
       (∀ n, n ≤ bh * bw →
         ((List.range n).foldl
           (fun s k => decode_dxt3_body d (4 * (k / bw)) (4 * (k % bw)) s) ((0 : Int), rows)).1 =
           ((n * 16 : Nat) : Int) ∧
         ((List.range n).foldl
           (fun s k => decode_dxt5_body d (4 * (k / bw)) (4 * (k % bw)) s) ((0 : Int), rows)).1 =
           ((n * 16 : Nat) : Int)) ∧
       (∀ k, k < bh * bw → k * 16 + 16 ≤ bh * bw * 16) ∧
       (∀ mem' : Mem,
         (∀ p : Nat, (p : Int) < dxt_framesize_int h 16 →
           rd mem (endp - displacement_int (dxt_framesize_int h 16) frame_off + p) =
             rd mem' (endp - displacement_int (dxt_framesize_int h 16) frame_off + p)) →
         decode_dxt3 h mem endp frame_off rows = decode_dxt3 h mem' endp frame_off rows ∧
         decode_dxt5 h mem endp frame_off rows = decode_dxt5 h mem' endp frame_off rows))) := by
  have hrec : ∀ (N S k : Nat), k < N → k * S + S ≤ N * S := by
    intro N S k hk
    have : (k + 1) * S ≤ N * S := Nat.mul_le_mul_right S hk
    rw [Nat.add_mul, Nat.one_mul] at this
    exact this
  have hcur : ∀ (S : Nat) (step : Nat → Int × Raster → Int × Raster),
      (∀ k s, (step k s).1 = wrap_int (s.1 + S)) → ∀ n,
        ((List.range n).foldl (fun s k => step k s) ((0 : Int), rows)).1 =
          wrap_int ((n * S : Nat) : Int) := by
    intro S step hs n
    rw [foldl_cursor step (fun q => wrap_int (q + S)) hs n ((0 : Int), rows)]
    show (fun q => wrap_int (q + (S : Int)))^[n] 0 = _
    rw [iterate_wrap_zero]
    push_cast
    rfl
  have hexact : ∀ (S N n : Nat), N * S ≤ 2147483647 → n ≤ N →
      wrap_int ((n * S : Nat) : Int) = ((n * S : Nat) : Int) := by
    intro S N n hN hn
    have : n * S ≤ N * S := Nat.mul_le_mul_right S hn
    exact wrap_int_of_range _ (by omega) (by omega)
  have hfit : ∀ (dec : Decoder) (S : Nat), dec.exact_framesize h = dxt_framesize h S →
      dec.framesize h = dxt_framesize_int h S →
      (h.height + 3) / 4 * ((h.width + 3) / 4) * S ≤ 2147483647 →
      dec.exact_framesize h ≤ 2147483647 ∧
      dxt_framesize_int h S = (((h.height + 3) / 4 * ((h.width + 3) / 4) * S : Nat) : Int) := by
    intro dec S e1 e2 hle
    have hx : dec.exact_framesize h ≤ 2147483647 := by
      rw [e1, ← dxt_framesize_eq]
      exact_mod_cast hle
    refine ⟨hx, ?_⟩
    rw [← e2, (framesize_fits dec h hx).1, e1, dxt_framesize_eq]
  have hwin : ∀ (dec : Decoder), dec.exact_framesize h ≤ 2147483647 → ∀ mem' : Mem,
      (∀ p : Nat, (p : Int) < dec.framesize h →
        rd mem (endp - displacement_int (dec.framesize h) frame_off + p) =
          rd mem' (endp - displacement_int (dec.framesize h) frame_off + p)) →
      dec.run h mem endp frame_off rows = dec.run h mem' endp frame_off rows := by
    intro dec hx mem' hw
    obtain ⟨efs, ewr⟩ := framesize_fits dec h hx
    apply run_reads_congr dec h h mem mem' endp endp frame_off frame_off rows rfl rfl rfl
    intro q hq
    rw [ewr q hq]
    exact hw q (by rw [efs]; exact hq)
  refine ⟨⟨ceil_quarter _, ceil_quarter _⟩, ?_, ?_⟩
  · intro bw bh d
    refine ⟨?_, ?_, ?_, dxt_framesize_eq h 8, ?_⟩
    · exact congrArg Prod.snd (dxt_loop_flat (fun y x s => decode_dxt1_body d y x s)
        h.width h.height ((0 : Int), rows))
    · exact hcur 8 (fun k s => decode_dxt1_body d (4 * (k / bw)) (4 * (k % bw)) s)
        (fun k s => rfl)
    · intro d' y x s hs hq
      exact decode_dxt1_body_congr d d' y x s hs hq
    · intro hle
      obtain ⟨hx, efs⟩ := hfit Decoder.dxt1 8 rfl rfl hle
      refine ⟨efs, ?_, fun k hk => hrec _ 8 k hk, ?_⟩
      · intro n hn
        rw [hcur 8 (fun k s => decode_dxt1_body d (4 * (k / bw)) (4 * (k % bw)) s)
          (fun k s => rfl) n]
        exact hexact 8 _ n hle hn
      · intro mem' hw
        exact hwin Decoder.dxt1 hx mem' hw
  · intro bw bh d
    refine ⟨⟨?_, ?_, ?_⟩, ⟨?_, ?_, ?_⟩, dxt_framesize_eq h 16, ?_⟩
    · exact congrArg Prod.snd (dxt_loop_flat (fun y x s => decode_dxt3_body d y x s)
        h.width h.height ((0 : Int), rows))
    · exact hcur 16 (fun k s => decode_dxt3_body d (4 * (k / bw)) (4 * (k % bw)) s)
        (fun k s => (decode_dxt3_body_get d _ _ s).1)
    · intro d' y x s hs hq
      exact decode_dxt3_body_congr d d' y x s hs hq
    · exact congrArg Prod.snd (dxt_loop_flat (fun y x s => decode_dxt5_body d y x s)
        h.width h.height ((0 : Int), rows))
    · exact hcur 16 (fun k s => decode_dxt5_body d (4 * (k / bw)) (4 * (k % bw)) s)
        (fun k s => (decode_dxt5_body_get d _ _ s).1)
    · intro d' y x s hs hq
      exact decode_dxt5_body_congr d d' y x s hs hq
    · intro hle
      obtain ⟨hx, efs⟩ := hfit Decoder.dxt3 16 rfl rfl hle
      refine ⟨efs, ?_, fun k hk => hrec _ 16 k hk, ?_⟩
      · intro n hn
        rw [hcur 16 (fun k s => decode_dxt3_body d (4 * (k / bw)) (4 * (k % bw)) s)
          (fun k s => (decode_dxt3_body_get d _ _ s).1) n,
          hcur 16 (fun k s => decode_dxt5_body d (4 * (k / bw)) (4 * (k % bw)) s)
          (fun k s => (decode_dxt5_body_get d _ _ s).1) n]
        exact ⟨hexact 16 _ n hle hn, hexact 16 _ n hle hn⟩
      · intro mem' hw
        exact ⟨hwin Decoder.dxt3 hx mem' hw, hwin Decoder.dxt5 hx mem' hw⟩

/-- Claim C18 as amended, on an 8x4 DXT1 image made of two records: 1 * 2 records are
visited, the frame size is 16 and the cursor ends at 16. -/
theorem dxt_reads_in_window_witness :
    ((ex_header 8 4 IMAGE_FORMAT_DXT1).height + 3) / 4 *
      (((ex_header 8 4 IMAGE_FORMAT_DXT1).width + 3) / 4) * 8 ≤ 2147483647 ∧
    decode_dxt1 (ex_header 8 4 IMAGE_FORMAT_DXT1) (mem_of (ex_dxt1_block ++ ex_dxt1_block)) 16 1
        (Raster.alloc 4 8) =
      ((List.range (1 * 2)).foldl
        (fun s k => decode_dxt1_body
          (fun p : Int => rd (mem_of (ex_dxt1_block ++ ex_dxt1_block))
            (16 - displacement_int (dxt_framesize_int (ex_header 8 4 IMAGE_FORMAT_DXT1) 8) 1 + p))
          (4 * (k / 2)) (4 * (k % 2)) s) ((0 : Int), Raster.alloc 4 8)).2 ∧
    dxt_framesize_int (ex_header 8 4 IMAGE_FORMAT_DXT1) 8 = 16 ∧
    ((List.range 2).foldl
        (fun s k => decode_dxt1_body
          (fun p : Int => rd (mem_of (ex_dxt1_block ++ ex_dxt1_block))
            (16 - displacement_int (dxt_framesize_int (ex_header 8 4 IMAGE_FORMAT_DXT1) 8) 1 + p))
          (4 * (k / 2)) (4 * (k % 2)) s) ((0 : Int), Raster.alloc 4 8)).1 = 16 :=
  have t := dxt_reads_in_window (ex_header 8 4 IMAGE_FORMAT_DXT1)
    (mem_of (ex_dxt1_block ++ ex_dxt1_block)) 16 1 (Raster.alloc 4 8)
  ⟨by decide, t.2.1.1, (t.2.1.2.2.2.2 (by decide)).1,
    (t.2.1.2.2.2.2 (by decide)).2.1 2 (by decide)⟩

/-- Claim C19. For endpoint bytes `a0`, `a1` the palette of `decode_dxt5` has eight
entries, `avals[0] = a0`, `avals[1] = a1`; if `a0 > a1` then
`avals[i] = ((8-i)*a0 + (i-1)*a1)/7` for `i` in 2..7, otherwise
`avals[i] = ((6-i)*a0 + (i-1)*a1)/5` for `i` in 2..5, `avals[6] = 0` and `avals[7] = 255`.
Every interpolated entry lies between the smaller and the larger endpoint, so the store
into a byte never wraps. -/
theorem dxt5_palette (a0 a1 : Nat) (h0 : a0 ≤ 255) (h1 : a1 ≤ 255) :
    (dxt5_avals a0 a1).length = 8 ∧
    (dxt5_avals a0 a1).getD 0 0 = a0 ∧ (dxt5_avals a0 a1).getD 1 0 = a1 ∧
    (a0 > a1 → ∀ i, 2 ≤ i → i ≤ 7 →
      (dxt5_avals a0 a1).getD i 0 = ((8 - i) * a0 + (i - 1) * a1) / 7 ∧
      min a0 a1 ≤ (dxt5_avals a0 a1).getD i 0 ∧ (dxt5_avals a0 a1).getD i 0 ≤ max a0 a1) ∧
    (¬ a0 > a1 →
      (∀ i, 2 ≤ i → i ≤ 5 →
        (dxt5_avals a0 a1).getD i 0 = ((6 - i) * a0 + (i - 1) * a1) / 5 ∧
        min a0 a1 ≤ (dxt5_avals a0 a1).getD i 0 ∧ (dxt5_avals a0 a1).getD i 0 ≤ max a0 a1) ∧
      (dxt5_avals a0 a1).getD 6 0 = 0 ∧ (dxt5_avals a0 a1).getD 7 0 = 255) := by
  have hmod : ∀ x, x ≤ 255 → x % 256 = x := fun x hx => Nat.mod_eq_of_lt (by omega)
  by_cases h : a0 > a1
  · have e : dxt5_avals a0 a1 = [a0, a1, (6 * a0 + 1 * a1) / 7, (5 * a0 + 2 * a1) / 7,
        (4 * a0 + 3 * a1) / 7, (3 * a0 + 4 * a1) / 7, (2 * a0 + 5 * a1) / 7,
        (1 * a0 + 6 * a1) / 7] := by
      simp only [dxt5_avals, h, if_true, List.range_succ, List.range_zero, List.nil_append,
        List.cons_append, List.map_cons, List.map_nil, Nat.reduceAdd, Nat.reduceSub]
      rw [hmod _ (by omega), hmod _ (by omega), hmod _ (by omega), hmod _ (by omega),
        hmod _ (by omega), hmod _ (by omega)]
    rw [e]
    refine ⟨rfl, rfl, rfl, ?_, fun hn => absurd h hn⟩
    intro _ i hi2 hi7
    have hmin : min a0 a1 = a1 := by omega
    have hmax : max a0 a1 = a0 := by omega
    rw [hmin, hmax]
    interval_cases i <;>
      simp only [List.getD_cons_succ, List.getD_cons_zero, Nat.reduceSub, true_and] <;>
      omega
  · have e : dxt5_avals a0 a1 = [a0, a1, (4 * a0 + 1 * a1) / 5, (3 * a0 + 2 * a1) / 5,
        (2 * a0 + 3 * a1) / 5, (1 * a0 + 4 * a1) / 5, 0, 255] := by
      simp only [dxt5_avals, h, if_false, List.range_succ, List.range_zero, List.nil_append,
        List.cons_append, List.map_cons, List.map_nil, Nat.reduceAdd, Nat.reduceSub]
      rw [hmod _ (by omega), hmod _ (by omega), hmod _ (by omega), hmod _ (by omega)]
    rw [e]
    refine ⟨rfl, rfl, rfl, fun hp => absurd hp h, fun _ => ⟨?_, rfl, rfl⟩⟩
    intro i hi2 hi5
    have hmin : min a0 a1 = a0 := by omega
    have hmax : max a0 a1 = a1 := by omega
    rw [hmin, hmax]
    interval_cases i <;>
      simp only [List.getD_cons_succ, List.getD_cons_zero, Nat.reduceSub, true_and] <;>
      omega

/-- Claim C19 on the endpoints 32 and 16 (entry 3 is 27) and on 16 and 32 (entry 6 is 0). -/
theorem dxt5_palette_witness :
    ((32 : Nat) ≤ 255 ∧ (16 : Nat) ≤ 255 ∧ (32 : Nat) > 16 ∧ 2 ≤ 3 ∧ 3 ≤ 7) ∧
    (dxt5_avals 32 16).getD 3 0 = 27 ∧
    (dxt5_avals 16 32).getD 6 0 = 0 :=
  ⟨by decide,
    ((dxt5_palette 32 16 (by decide) (by decide)).2.2.2.1 (by decide) 3 (by decide)
      (by decide)).1.trans (by decide),
    ((dxt5_palette 16 32 (by decide) (by decide)).2.2.2.2 (by decide)).2.1⟩

/-- Claim C20 fails for a 65535x65535 image and frame offset 1. For RGBA8888 the first
intermediate value `w * ht` is 4294836225, above 2^31 - 1; the exact displacement is
17179344900 while the wrapped 32-bit computation gives -524284. For DXT5 the exact frame
size is 2^32 and the wrapped computation gives 0. -/
theorem displacement_overflows :
    (ex_header 65535 65535 IMAGE_FORMAT_RGBA8888).width < 65536 ∧
    (ex_header 65535 65535 IMAGE_FORMAT_RGBA8888).height < 65536 ∧
    ((ex_header 65535 65535 IMAGE_FORMAT_RGBA8888).width : Int) *
      (ex_header 65535 65535 IMAGE_FORMAT_RGBA8888).height = 4294836225 ∧
    rgba_framesize (ex_header 65535 65535 IMAGE_FORMAT_RGBA8888) * 1 = 17179344900 ∧
    displacement_int (rgba_framesize_int (ex_header 65535 65535 IMAGE_FORMAT_RGBA8888)) 1 =
      -524284 ∧
    dxt_framesize (ex_header 65535 65535 IMAGE_FORMAT_DXT5) 16 * 1 = 4294967296 ∧
    displacement_int (dxt_framesize_int (ex_header 65535 65535 IMAGE_FORMAT_DXT5) 16) 1 = 0 := by
  decide

/-- Claim C20 as amended. For every width and height, every format and every frame
offset of at least 1 such that the exact value of `framesize * frame_off` is at most
2^31 - 1, no intermediate value (`w * ht` or `bw * bh`, then `framesize`) exceeds
2^31 - 1 and the displacement computed in 32-bit `int` arithmetic is the exact
product. -/
theorem displacement_exact (h : vtf_header_t) (frame_off : Int) (hfo : 1 ≤ frame_off) :
    (rgba_framesize h * frame_off ≤ 2147483647 →
      (h.width : Int) * h.height ≤ 2147483647 ∧
      rgba_framesize h ≤ 2147483647 ∧
      rgba_framesize_int h = rgba_framesize h ∧
      displacement_int (rgba_framesize_int h) frame_off = rgba_framesize h * frame_off) ∧
    (∀ blockSize : Nat, 1 ≤ blockSize →
      dxt_framesize h blockSize * frame_off ≤ 2147483647 →
      (((h.width + 3) / 4 : Nat) : Int) * (((h.height + 3) / 4 : Nat) : Int) ≤ 2147483647 ∧
      dxt_framesize h blockSize ≤ 2147483647 ∧
      dxt_framesize_int h blockSize = dxt_framesize h blockSize ∧
      displacement_int (dxt_framesize_int h blockSize) frame_off =
        dxt_framesize h blockSize * frame_off) := by
  have key : ∀ (a : Int) (b : Nat), 0 ≤ a → 1 ≤ b → a * b * frame_off ≤ 2147483647 →
      a ≤ 2147483647 ∧ a * b ≤ 2147483647 ∧ wrap_int (wrap_int a * b) = a * b ∧
      displacement_int (wrap_int (wrap_int a * b)) frame_off = a * b * frame_off := by
    intro a b ha hb hle
    have hb' : (1 : Int) ≤ (b : Int) := by exact_mod_cast hb
    have hab0 : 0 ≤ a * b := Int.mul_nonneg ha (by omega)
    have h1 : a * b ≤ a * b * frame_off := le_mul_of_one_le_right hab0 hfo
    have h2 : a ≤ a * b := le_mul_of_one_le_right ha hb'
    have h3 : 0 ≤ a * b * frame_off := Int.mul_nonneg hab0 (by omega)
    have ea : wrap_int a = a := wrap_int_of_range a (by omega) (by omega)
    have eab : wrap_int (a * b) = a * b := wrap_int_of_range _ (by omega) (by omega)
    refine ⟨by omega, by omega, by rw [ea, eab], ?_⟩
    unfold displacement_int
    rw [ea, eab, wrap_int_of_range _ (by omega) (by omega)]
  have pb1 : 1 ≤ pixel_bytes h.image_format := by
    unfold pixel_bytes; split <;> decide
  refine ⟨?_, ?_⟩
  · intro hle
    exact key ((h.width : Int) * h.height) (pixel_bytes h.image_format)
      (Int.mul_nonneg (Int.ofNat_nonneg _) (Int.ofNat_nonneg _)) pb1 hle
  · intro S hS hle
    exact key ((((h.width + 3) / 4 : Nat) : Int) * (((h.height + 3) / 4 : Nat) : Int)) S
      (Int.mul_nonneg (Int.ofNat_nonneg _) (Int.ofNat_nonneg _)) hS hle

/-- Claim C20 as amended, on a 1024x512 image and frame offset 3. -/
theorem displacement_exact_witness :
    ((1 : Int) ≤ 3 ∧
      rgba_framesize (ex_header 1024 512 IMAGE_FORMAT_RGBA8888) * 3 ≤ 2147483647 ∧
      1 ≤ 16 ∧ dxt_framesize (ex_header 1024 512 IMAGE_FORMAT_DXT5) 16 * 3 ≤ 2147483647) ∧
    displacement_int (rgba_framesize_int (ex_header 1024 512 IMAGE_FORMAT_RGBA8888)) 3 = 6291456 ∧
    displacement_int (dxt_framesize_int (ex_header 1024 512 IMAGE_FORMAT_DXT5) 16) 3 = 1572864 :=
  ⟨by decide,
    ((displacement_exact (ex_header 1024 512 IMAGE_FORMAT_RGBA8888) 3 (by decide)).1
      (by decide)).2.2.2.trans (by decide),
    ((displacement_exact (ex_header 1024 512 IMAGE_FORMAT_DXT5) 3 (by decide)).2 16 (by decide)
      (by decide)).2.2.2.trans (by decide)⟩


end Vtf2png
